import Mathlib

/-!
# Module type resolution, validation and namespacing (`core/module.go`)

A shallow embedding of the type-definition graph, the Dependency Set lookup, the
validator (`validateTypeDef`), the namespacer (`namespaceTypeDef`), the resolver
(`Module.ModTypeFor`), the builder (`WithObject`, `WithInterface`, `WithEnum`), the
installer (`Install`) and the enumeration of definitions (`TypeDefs`).

Go pointers to tree nodes become values; a function that mutates its argument in
place returns the mutated value. A Go `error` return becomes `Except Fault`, where
`Fault.error` is a returned error and `Fault.panic` a nil dereference.

Where the point is what a method writes through the pointers it holds, the method is
followed on a memory of cells as well: `Heap` for `TypeDefs`, and `Mem` for `Clone`,
`namespaceTypeDef` and `WithEnum` on an enum.
-/

namespace Core

/-- What a Go call can end in besides a normal return without error: a returned
`error` with its message, or a runtime panic. -/
inductive Fault where
  | error (msg : String)
  | panic (msg : String)
deriving DecidableEq, Repr

/-- The `fmt.Errorf("<pre>%w", err)` wrapping of a returned error; a panic is not an
error value and passes through. -/
def Fault.wrap (pre : String) : Fault → Fault
  | .error msg => .error (pre ++ msg)
  | .panic msg => .panic msg

/-- The receiver of `fmt.Errorf("<pre>%w", err)` applied to the result of a call. -/
def wrapErr {α : Type} (pre : String) : Except Fault α → Except Fault α
  | .ok a => .ok a
  | .error f => .error (f.wrap pre)

/-- Modelled from the spec: the `SourceMap` type declaration is not in `module.go`;
the spec describes it as the origin file and line, and `namespaceSourceMap` writes
its `Module` and `Filename`. -/
structure SourceMap where
  Module : String
  Filename : String
  Line : Nat
  Column : Nat
deriving DecidableEq, Repr

/-- Modelled from the spec: an enum value has its own name and source map. -/
structure EnumValueTypeDef where
  Name : String
  OriginalName : String
  SourceMap : Option SourceMap
deriving DecidableEq, Repr

/-- Modelled from the spec: the enum payload of a TypeDef, with the fields
`module.go` reads and writes. -/
structure EnumTypeDef where
  Name : String
  OriginalName : String
  SourceModuleName : String
  SourceMap : Option SourceMap
  Values : List EnumValueTypeDef
deriving DecidableEq, Repr

/-- Modelled from the spec: the scalar payload of a TypeDef. -/
structure ScalarTypeDef where
  Name : String
  OriginalName : String
  SourceModuleName : String
deriving DecidableEq, Repr

mutual

/-- Modelled from the spec: the `Kind` tag of a TypeDef together with the `As<Kind>`
payload that is valid for it (the spec's tagged variant). `Other` stands for a kind
outside the set `ModTypeFor` dispatches on. -/
inductive Kind where
  | String
  | Integer
  | Float
  | Boolean
  | Void
  | List (ElementTypeDef : TypeDef)
  | Object (AsObject : ObjectTypeDef)
  | Interface (AsInterface : InterfaceTypeDef)
  | Scalar (AsScalar : ScalarTypeDef)
  | Enum (AsEnum : EnumTypeDef)
  | Other (kind : String)

/-- Modelled from the spec: a TypeDef is a kind with its payload plus the `Optional`
flag. -/
inductive TypeDef where
  | mk (Kind : Kind) (Optional : Bool)

/-- Modelled from the spec: object payload. -/
inductive ObjectTypeDef where
  | mk (Name OriginalName SourceModuleName : String) (SourceMap : Option SourceMap)
      (Fields : List FieldTypeDef) (Functions : List Function)
      (Constructor : Option Function)

/-- Modelled from the spec: a field of an object. -/
inductive FieldTypeDef where
  | mk (Name OriginalName : String) (TypeDef : TypeDef) (SourceMap : Option SourceMap)

/-- Modelled from the spec: a function of an object or interface. -/
inductive Function where
  | mk (Name OriginalName : String) (ReturnType : TypeDef) (Args : List FunctionArg)
      (SourceMap : Option SourceMap)

/-- Modelled from the spec: an argument of a function. -/
inductive FunctionArg where
  | mk (Name OriginalName : String) (TypeDef : TypeDef) (SourceMap : Option SourceMap)

/-- Modelled from the spec: interface payload. -/
inductive InterfaceTypeDef where
  | mk (Name OriginalName SourceModuleName : String) (SourceMap : Option SourceMap)
      (Functions : List Function)

end

/-- The `Kind` field of a TypeDef. -/
def TypeDef.Kind : TypeDef → Kind
  | .mk k _ => k

/-- The `Optional` field of a TypeDef. -/
def TypeDef.Optional : TypeDef → Bool
  | .mk _ o => o

/-- The `Name` field of an object. -/
def ObjectTypeDef.Name : ObjectTypeDef → String
  | .mk n _ _ _ _ _ _ => n

/-- The `OriginalName` field of an object. -/
def ObjectTypeDef.OriginalName : ObjectTypeDef → String
  | .mk _ o _ _ _ _ _ => o

/-- The `SourceMap` field of an object. -/
def ObjectTypeDef.SourceMap : ObjectTypeDef → Option SourceMap
  | .mk _ _ _ sm _ _ _ => sm

/-- The `Fields` of an object. -/
def ObjectTypeDef.Fields : ObjectTypeDef → List FieldTypeDef
  | .mk _ _ _ _ fs _ _ => fs

/-- The `Functions` of an object. -/
def ObjectTypeDef.Functions : ObjectTypeDef → List Function
  | .mk _ _ _ _ _ fns _ => fns

/-- The `Constructor` of an object. -/
def ObjectTypeDef.Constructor : ObjectTypeDef → Option Function
  | .mk _ _ _ _ _ _ c => c

/-- The `Name` field of an interface. -/
def InterfaceTypeDef.Name : InterfaceTypeDef → String
  | .mk n _ _ _ _ => n

/-- The `OriginalName` field of an interface. -/
def InterfaceTypeDef.OriginalName : InterfaceTypeDef → String
  | .mk _ o _ _ _ => o

/-- The `SourceMap` field of an interface. -/
def InterfaceTypeDef.SourceMap : InterfaceTypeDef → Option SourceMap
  | .mk _ _ _ sm _ => sm

/-- The `Functions` of an interface. -/
def InterfaceTypeDef.Functions : InterfaceTypeDef → List Function
  | .mk _ _ _ _ fns => fns

/-- The `Name` field of a field. -/
def FieldTypeDef.Name : FieldTypeDef → String
  | .mk n _ _ _ => n

/-- The `OriginalName` field of a field. -/
def FieldTypeDef.OriginalName : FieldTypeDef → String
  | .mk _ o _ _ => o

/-- The `TypeDef` of a field. -/
def FieldTypeDef.TypeDef : FieldTypeDef → TypeDef
  | .mk _ _ t _ => t

/-- The `Name` field of a function. -/
def Function.Name : Function → String
  | .mk n _ _ _ _ => n

/-- The `OriginalName` field of a function. -/
def Function.OriginalName : Function → String
  | .mk _ o _ _ _ => o

/-- The `ReturnType` of a function. -/
def Function.ReturnType : Function → TypeDef
  | .mk _ _ r _ _ => r

/-- The `Args` of a function. -/
def Function.Args : Function → List FunctionArg
  | .mk _ _ _ as _ => as

/-- The `Name` field of an argument. -/
def FunctionArg.Name : FunctionArg → String
  | .mk n _ _ _ => n

/-- The `OriginalName` field of an argument. -/
def FunctionArg.OriginalName : FunctionArg → String
  | .mk _ o _ _ => o

/-- The `TypeDef` of an argument. -/
def FunctionArg.TypeDef : FunctionArg → TypeDef
  | .mk _ _ t _ => t

/-- The functions of the repository and of the Go libraries that `module.go` calls
and whose bodies are not part of it, taken as parameters. -/
structure Env where
  /-- The constant `ModuleName`, the name of the core module. -/
  ModuleName : String
  /-- The function `gqlFieldName`, the normalized form of a member name. -/
  gqlFieldName : String → String
  /-- The function `namespaceObject(objOriginalName, modFinalName, modOriginalName)`. -/
  namespaceObject : String → String → String → String
  /-- The library function `filepath.Join` on two path elements. -/
  filepathJoin : String → String → String
  /-- The rendering of a string by the `%q` verb of `fmt`. -/
  quote : String → String
  /-- The rendering of a TypeDef kind by the `%s` verb of `fmt`. -/
  kindString : Kind → String
  /-- The rendering of a TypeDef by the `%+v` verb of `fmt`. -/
  fmtTypeDef : TypeDef → String

/-- A value of the `Mod` interface as `module.go` observes it: which module it is
(Go compares `sourceMod != mod` by pointer, so `addr` is the pointer) and what its
`Name()` returns. -/
structure Mod where
  addr : Nat
  Name : String
deriving DecidableEq, Repr

/-- Modelled from the spec: the resolved runtime types. `module.go` builds the first
six; `Other` is any further implementation of the `ModType` interface that a
dependency can return (the core module's types), given by what its `SourceMod()`
and `TypeDef()` return. -/
inductive ModType where
  | PrimitiveType (Def : TypeDef)
  | ListType (Elem : TypeDef) (Underlying : ModType)
  | ModuleObjectType (typeDef : ObjectTypeDef) (mod : Mod)
  | InterfaceType (typeDef : InterfaceTypeDef) (mod : Mod)
  | ModuleEnumType (typeDef : EnumTypeDef) (mod : Mod)
  | NullableType (InnerDef : TypeDef) (Inner : ModType)
  | Other (sourceMod : Option Mod) (typeDef : TypeDef)

/-- Modelled from the spec: `SourceMod()`, the module that owns a resolved type, if
any: none for a primitive, the inner type's owner for a list and a nullable
wrapper. -/
def ModType.SourceMod : ModType → Option Mod
  | .PrimitiveType _ => none
  | .ListType _ u => u.SourceMod
  | .ModuleObjectType _ m => some m
  | .InterfaceType _ m => some m
  | .ModuleEnumType _ m => some m
  | .NullableType _ i => i.SourceMod
  | .Other sm _ => sm

/-- Modelled from the spec: `TypeDef()`, the TypeDef a resolved type stands for. -/
def ModType.TypeDef : ModType → TypeDef
  | .PrimitiveType d => d
  | .ListType e _ => .mk (.List e) false
  | .ModuleObjectType t _ => .mk (.Object t) false
  | .InterfaceType t _ => .mk (.Interface t) false
  | .ModuleEnumType t _ => .mk (.Enum t) false
  | .NullableType d _ => .mk d.Kind true
  | .Other _ t => t

/-- The Dependency Set, `*ModDeps`, given by its lookup `ModDeps.ModTypeFor(typeDef)`
(not part of `module.go`): an error message, not found, or the resolved type. -/
structure ModDeps where
  ModTypeFor : TypeDef → Except String (Option ModType)

/-- The kinds of a module source. -/
inductive ModuleSourceKind where
  | Local
  | Git
  | Dir
deriving DecidableEq, Repr

/-- The fields of `ModuleSource` that `module.go` reads in the code modelled here. -/
structure ModuleSource where
  Kind : ModuleSourceKind
  SourceSubpath : String
deriving DecidableEq, Repr

/-- The `Module` struct: `addr` is the address the value lives at, `Source` is
`Source.Self` and `Deps` the `*ModDeps`, both nil-able. The fields `Query`,
`SDKConfig`, `Runtime` and `InstanceID` are carried by the Go struct and read by
none of the functions below. -/
structure Module where
  addr : Nat
  Source : Option ModuleSource
  NameField : String
  OriginalName : String
  Deps : Option ModDeps
  Description : String
  ObjectDefs : List TypeDef
  InterfaceDefs : List TypeDef
  EnumDefs : List TypeDef

/-- The method `Name()`. -/
def Module.Name (mod : Module) : String :=
  mod.NameField

/-- The module as a value of the `Mod` interface. -/
def Module.asMod (mod : Module) : Mod :=
  { addr := mod.addr, Name := mod.Name }

/-- The call `mod.Deps.ModTypeFor(ctx, typeDef)`: a nil `Deps` is dereferenced by the
lookup, a panic; an error of the lookup is a returned error. -/
def Module.depsModTypeFor (mod : Module) (typeDef : TypeDef) :
    Except Fault (Option ModType) :=
  match mod.Deps with
  | none => .error (.panic "nil pointer dereference")
  | some d =>
    match d.ModTypeFor typeDef with
    | .ok r => .ok r
    | .error e => .error (.error e)

/-- The condition `sourceMod != nil && sourceMod != mod` of the validator. -/
def ownedByOther (mod : Module) (modType : ModType) : Bool :=
  match modType.SourceMod with
  | none => false
  | some sourceMod => sourceMod.addr != mod.addr

/-- The condition
`sourceMod != nil && sourceMod.Name() != ModuleName && sourceMod != mod` of the
validator, with the `Name()` of the owner when it holds. -/
def leakedFrom (env : Env) (mod : Module) (modType : ModType) : Option String :=
  match modType.SourceMod with
  | none => none
  | some sourceMod =>
    if sourceMod.Name != env.ModuleName ∧ sourceMod.addr ≠ mod.addr then
      some sourceMod.Name
    else none

mutual

/-- The method `validateTypeDef`. -/
def Module.validateTypeDef (env : Env) (mod : Module) : TypeDef → Except Fault Unit
  | .mk (.List elem) _ => Module.validateTypeDef env mod elem
  | .mk (.Object obj) opt =>
    Module.validateObjectTypeDef env mod (.mk (.Object obj) opt) obj
  | .mk (.Interface iface) opt =>
    Module.validateInterfaceTypeDef env mod (.mk (.Interface iface) opt) iface
  | _ => .ok ()

/-- The method `validateObjectTypeDef`; `obj` is `typeDef.AsObject.Value`. -/
def Module.validateObjectTypeDef (env : Env) (mod : Module) (typeDef : TypeDef) :
    ObjectTypeDef → Except Fault Unit
  | .mk name originalName _ _ fields functions _ =>
    match mod.depsModTypeFor typeDef with
    | .error f => .error (f.wrap "failed to get mod type for type def: ")
    | .ok r =>
      if (match r with
          | some modType => ownedByOther mod modType
          | none => false) then
        .ok ()
      else
        match Module.validateObjectFields env mod name originalName fields with
        | .error f => .error f
        | .ok _ => Module.validateObjectFunctions env mod name originalName functions

/-- The loop `for _, field := range obj.Fields` of `validateObjectTypeDef`. -/
def Module.validateObjectFields (env : Env) (mod : Module) (objName objOriginalName : String) :
    List FieldTypeDef → Except Fault Unit
  | [] => .ok ()
  | .mk name originalName fieldTypeDef _ :: rest =>
    if env.gqlFieldName name = "id" then
      .error (.error ("cannot define field with reserved name " ++ env.quote name
        ++ " on object " ++ env.quote objName))
    else
      match mod.depsModTypeFor fieldTypeDef with
      | .error f => .error (f.wrap "failed to get mod type for type def: ")
      | .ok r =>
        match (match r with
               | some fieldType => leakedFrom env mod fieldType
               | none => none) with
        | some owner =>
          .error (.error ("object " ++ env.quote objOriginalName ++ " field "
            ++ env.quote originalName
            ++ " cannot reference external type from dependency module "
            ++ env.quote owner))
        | none =>
          match Module.validateTypeDef env mod fieldTypeDef with
          | .error f => .error f
          | .ok _ => Module.validateObjectFields env mod objName objOriginalName rest

/-- The loop `for _, fn := range obj.Functions` of `validateObjectTypeDef`. -/
def Module.validateObjectFunctions (env : Env) (mod : Module)
    (objName objOriginalName : String) : List Function → Except Fault Unit
  | [] => .ok ()
  | .mk name originalName returnType args _ :: rest =>
    if env.gqlFieldName name = "id" then
      .error (.error ("cannot define function with reserved name " ++ env.quote name
        ++ " on object " ++ env.quote objName))
    else
      match mod.depsModTypeFor returnType with
      | .error f => .error (f.wrap "failed to get mod type for type def: ")
      | .ok r =>
        match (match r with
               | some retType => leakedFrom env mod retType
               | none => none) with
        | some owner =>
          .error (.error ("object " ++ env.quote objOriginalName ++ " function "
            ++ env.quote originalName
            ++ " cannot return external type from dependency module "
            ++ env.quote owner))
        | none =>
          match Module.validateTypeDef env mod returnType with
          | .error f => .error f
          | .ok _ =>
            match Module.validateObjectArgs env mod objOriginalName originalName args with
            | .error f => .error f
            | .ok _ => Module.validateObjectFunctions env mod objName objOriginalName rest

/-- The loop `for _, arg := range fn.Args` of `validateObjectTypeDef`. -/
def Module.validateObjectArgs (env : Env) (mod : Module)
    (objOriginalName fnOriginalName : String) : List FunctionArg → Except Fault Unit
  | [] => .ok ()
  | .mk _ originalName argTypeDef _ :: rest =>
    match mod.depsModTypeFor argTypeDef with
    | .error f => .error (f.wrap "failed to get mod type for type def: ")
    | .ok r =>
      match (match r with
             | some argType => leakedFrom env mod argType
             | none => none) with
      | some owner =>
        .error (.error ("object " ++ env.quote objOriginalName ++ " function "
          ++ env.quote fnOriginalName ++ " arg " ++ env.quote originalName
          ++ " cannot reference external type from dependency module "
          ++ env.quote owner))
      | none =>
        match Module.validateTypeDef env mod argTypeDef with
        | .error f => .error f
        | .ok _ => Module.validateObjectArgs env mod objOriginalName fnOriginalName rest

/-- The method `validateInterfaceTypeDef`; `iface` is `typeDef.AsInterface.Value`. -/
def Module.validateInterfaceTypeDef (env : Env) (mod : Module) (typeDef : TypeDef) :
    InterfaceTypeDef → Except Fault Unit
  | .mk name _ _ _ functions =>
    match mod.depsModTypeFor typeDef with
    | .error f => .error (f.wrap "failed to get mod type for type def: ")
    | .ok r =>
      if (match r with
          | some modType => ownedByOther mod modType
          | none => false) then
        .ok ()
      else Module.validateInterfaceFunctions env mod name functions

/-- The loop `for _, fn := range iface.Functions` of `validateInterfaceTypeDef`. -/
def Module.validateInterfaceFunctions (env : Env) (mod : Module) (ifaceName : String) :
    List Function → Except Fault Unit
  | [] => .ok ()
  | .mk name _ returnType args _ :: rest =>
    if env.gqlFieldName name = "id" then
      .error (.error ("cannot define function with reserved name " ++ env.quote name
        ++ " on interface " ++ env.quote ifaceName))
    else
      match Module.validateTypeDef env mod returnType with
      | .error f => .error f
      | .ok _ =>
        match Module.validateInterfaceArgs env mod args with
        | .error f => .error f
        | .ok _ => Module.validateInterfaceFunctions env mod ifaceName rest

/-- The loop `for _, arg := range fn.Args` of `validateInterfaceTypeDef`. -/
def Module.validateInterfaceArgs (env : Env) (mod : Module) :
    List FunctionArg → Except Fault Unit
  | [] => .ok ()
  | .mk _ _ argTypeDef _ :: rest =>
    match Module.validateTypeDef env mod argTypeDef with
    | .error f => .error f
    | .ok _ => Module.validateInterfaceArgs env mod rest

end

/-- The method `namespaceSourceMap`: nil for a nil source map; `mod.Source.Self.Kind`
dereferences the source, a panic when it is nil; nil for a source that is not
local; else the source map with `Module` and `Filename` rewritten. -/
def Module.namespaceSourceMap (env : Env) (mod : Module) (modPath : String) :
    Option SourceMap → Except Fault (Option SourceMap)
  | none => .ok none
  | some sourceMap =>
    match mod.Source with
    | none => .error (.panic "nil pointer dereference")
    | some src =>
      if src.Kind ≠ ModuleSourceKind.Local then .ok none
      else .ok (some { sourceMap with
        Module := mod.Name
        Filename := env.filepathJoin modPath sourceMap.Filename })

/-- The method `modulePath`: `mod.Source.Self.SourceSubpath`, a panic for a nil
source. -/
def Module.modulePath (mod : Module) : Except Fault String :=
  match mod.Source with
  | none => .error (.panic "nil pointer dereference")
  | some src => .ok src.SourceSubpath

/-- The loop `for _, value := range enum.Values` of `namespaceTypeDef`: the values as
the loop leaves them, and the fault that stopped it, if any. -/
def Module.namespaceEnumValues (env : Env) (mod : Module) (modPath : String) :
    List EnumValueTypeDef → List EnumValueTypeDef × Option Fault
  | [] => ([], none)
  | value :: rest =>
    match mod.namespaceSourceMap env modPath value.SourceMap with
    | .error f => (value :: rest, some f)
    | .ok sm =>
      match Module.namespaceEnumValues env mod modPath rest with
      | (rest', e) => ({ value with SourceMap := sm } :: rest', e)

/-- The expression `mtype.TypeDef().AsEnum.Value.Values`: a panic when the resolved
type's TypeDef has no enum payload. -/
def ModType.enumValues (mtype : ModType) : Except Fault (List EnumValueTypeDef) :=
  match mtype.TypeDef.Kind with
  | .Enum e => .ok e.Values
  | _ => .error (.panic "nil pointer dereference")

/-- The step `if !ok { x.Name = namespaceObject(x.OriginalName, mod.Name(),
mod.OriginalName); x.SourceMap = mod.namespaceSourceMap(modPath, x.SourceMap) }` that
`namespaceTypeDef` runs on an object, an interface and an enum; `ok` is the `ok` of
the lookup in the Dependency Set. The result is the `Name` and the `SourceMap` as the
step leaves them, and its fault, if any. -/
def Module.namespaceName (env : Env) (mod : Module) (modPath : String) (ok : Bool)
    (name originalName : String) (sourceMap : Option SourceMap) :
    String × Option SourceMap × Option Fault :=
  if ok then (name, sourceMap, none)
  else
    match mod.namespaceSourceMap env modPath sourceMap with
    | .error f => (env.namespaceObject originalName mod.Name mod.OriginalName, sourceMap, some f)
    | .ok sourceMap' =>
      (env.namespaceObject originalName mod.Name mod.OriginalName, sourceMap', none)

/-- The `case TypeDefKindEnum` of `namespaceTypeDef` after the lookup `r` in the
Dependency Set: on a hit the values become those of the resolved type, on a miss the
name and source map are rewritten; then the loop over the values. -/
def Module.namespaceEnumTypeDef (env : Env) (mod : Module) (modPath : String)
    (r : Option ModType) (enum : EnumTypeDef) : EnumTypeDef × Option Fault :=
  match r with
  | some mtype =>
    match mtype.enumValues with
    | .error f => (enum, some f)
    | .ok values =>
      match mod.namespaceEnumValues env modPath values with
      | (values', e) => ({ enum with Values := values' }, e)
  | none =>
    match mod.namespaceName env modPath false enum.Name enum.OriginalName enum.SourceMap with
    | (name', sourceMap', some f) =>
      ({ enum with Name := name', SourceMap := sourceMap' }, some f)
    | (name', sourceMap', none) =>
      match mod.namespaceEnumValues env modPath enum.Values with
      | (values', e) =>
        ({ enum with Name := name', SourceMap := sourceMap', Values := values' }, e)

mutual

/-- The method `namespaceTypeDef`. The Go code rewrites `typeDef` in place and
returns an error; here the result is the TypeDef as the call leaves it, together
with the fault it ended in, if any. The bodies of the object and interface cases
after the lookup are `namespaceObjectTypeDef` and `namespaceInterfaceTypeDef`. -/
def Module.namespaceTypeDef (env : Env) (mod : Module) (modPath : String) :
    TypeDef → TypeDef × Option Fault
  | .mk (.List elem) opt =>
    match Module.namespaceTypeDef env mod modPath elem with
    | (elem', e) => (.mk (.List elem') opt, e)
  | .mk (.Object obj) opt =>
    match mod.depsModTypeFor (.mk (.Object obj) opt) with
    | .error f =>
      (.mk (.Object obj) opt, some (f.wrap "failed to get mod type for type def: "))
    | .ok r =>
      match Module.namespaceObjectTypeDef env mod modPath r.isSome obj with
      | (obj', e) => (.mk (.Object obj') opt, e)
  | .mk (.Interface iface) opt =>
    match mod.depsModTypeFor (.mk (.Interface iface) opt) with
    | .error f =>
      (.mk (.Interface iface) opt, some (f.wrap "failed to get mod type for type def: "))
    | .ok r =>
      match Module.namespaceInterfaceTypeDef env mod modPath r.isSome iface with
      | (iface', e) => (.mk (.Interface iface') opt, e)
  | .mk (.Enum enum) opt =>
    match mod.depsModTypeFor (.mk (.Enum enum) opt) with
    | .error f =>
      (.mk (.Enum enum) opt, some (f.wrap "failed to get mod type for type def: "))
    | .ok r =>
      match mod.namespaceEnumTypeDef env modPath r enum with
      | (enum', e) => (.mk (.Enum enum') opt, e)
  | typeDef => (typeDef, none)

/-- The `case TypeDefKindObject` of `namespaceTypeDef` after the lookup, whose `ok`
is `ok`: name and source map, fields, functions, constructor. -/
def Module.namespaceObjectTypeDef (env : Env) (mod : Module) (modPath : String) (ok : Bool) :
    ObjectTypeDef → ObjectTypeDef × Option Fault
  | .mk name originalName srcModName sourceMap fields functions ctor =>
    match mod.namespaceName env modPath ok name originalName sourceMap with
    | (name', sourceMap', some f) =>
      (.mk name' originalName srcModName sourceMap' fields functions ctor, some f)
    | (name', sourceMap', none) =>
      match Module.namespaceFields env mod modPath fields with
      | (fields', some f) =>
        (.mk name' originalName srcModName sourceMap' fields' functions ctor, some f)
      | (fields', none) =>
        match Module.namespaceFunctions env mod modPath functions with
        | (functions', some f) =>
          (.mk name' originalName srcModName sourceMap' fields' functions' ctor, some f)
        | (functions', none) =>
          match Module.namespaceConstructor env mod modPath ctor with
          | (ctor', e) =>
            (.mk name' originalName srcModName sourceMap' fields' functions' ctor', e)

/-- The `case TypeDefKindInterface` of `namespaceTypeDef` after the lookup, whose
`ok` is `ok`: name and source map, then the functions. -/
def Module.namespaceInterfaceTypeDef (env : Env) (mod : Module) (modPath : String)
    (ok : Bool) : InterfaceTypeDef → InterfaceTypeDef × Option Fault
  | .mk name originalName srcModName sourceMap functions =>
    match mod.namespaceName env modPath ok name originalName sourceMap with
    | (name', sourceMap', some f) =>
      (.mk name' originalName srcModName sourceMap' functions, some f)
    | (name', sourceMap', none) =>
      match Module.namespaceFunctions env mod modPath functions with
      | (functions', e) => (.mk name' originalName srcModName sourceMap' functions', e)

/-- The loop `for _, field := range obj.Fields` of `namespaceTypeDef`. -/
def Module.namespaceFields (env : Env) (mod : Module) (modPath : String) :
    List FieldTypeDef → List FieldTypeDef × Option Fault
  | [] => ([], none)
  | .mk name originalName fieldTypeDef sourceMap :: rest =>
    match Module.namespaceTypeDef env mod modPath fieldTypeDef with
    | (fieldTypeDef', some f) => (.mk name originalName fieldTypeDef' sourceMap :: rest, some f)
    | (fieldTypeDef', none) =>
      match mod.namespaceSourceMap env modPath sourceMap with
      | .error f => (.mk name originalName fieldTypeDef' sourceMap :: rest, some f)
      | .ok sourceMap' =>
        match Module.namespaceFields env mod modPath rest with
        | (rest', e) => (.mk name originalName fieldTypeDef' sourceMap' :: rest', e)

/-- The body shared by the loop over `Functions` and the `Constructor` branch of
`namespaceTypeDef`: the return type, the function's source map, then the
arguments. -/
def Module.namespaceFunction (env : Env) (mod : Module) (modPath : String) :
    Function → Function × Option Fault
  | .mk name originalName returnType args sourceMap =>
    match Module.namespaceTypeDef env mod modPath returnType with
    | (returnType', some f) => (.mk name originalName returnType' args sourceMap, some f)
    | (returnType', none) =>
      match mod.namespaceSourceMap env modPath sourceMap with
      | .error f => (.mk name originalName returnType' args sourceMap, some f)
      | .ok sourceMap' =>
        match Module.namespaceArgs env mod modPath args with
        | (args', e) => (.mk name originalName returnType' args' sourceMap', e)

/-- The loop `for _, fn := range obj.Functions` (and `iface.Functions`) of
`namespaceTypeDef`. -/
def Module.namespaceFunctions (env : Env) (mod : Module) (modPath : String) :
    List Function → List Function × Option Fault
  | [] => ([], none)
  | fn :: rest =>
    match Module.namespaceFunction env mod modPath fn with
    | (fn', some f) => (fn' :: rest, some f)
    | (fn', none) =>
      match Module.namespaceFunctions env mod modPath rest with
      | (rest', e) => (fn' :: rest', e)

/-- The branch `if obj.Constructor.Valid` of `namespaceTypeDef`. -/
def Module.namespaceConstructor (env : Env) (mod : Module) (modPath : String) :
    Option Function → Option Function × Option Fault
  | none => (none, none)
  | some fn =>
    match Module.namespaceFunction env mod modPath fn with
    | (fn', e) => (some fn', e)

/-- The loop `for _, arg := range fn.Args` of `namespaceTypeDef`. -/
def Module.namespaceArgs (env : Env) (mod : Module) (modPath : String) :
    List FunctionArg → List FunctionArg × Option Fault
  | [] => ([], none)
  | .mk name originalName argTypeDef sourceMap :: rest =>
    match Module.namespaceTypeDef env mod modPath argTypeDef with
    | (argTypeDef', some f) => (.mk name originalName argTypeDef' sourceMap :: rest, some f)
    | (argTypeDef', none) =>
      match mod.namespaceSourceMap env modPath sourceMap with
      | .error f => (.mk name originalName argTypeDef' sourceMap :: rest, some f)
      | .ok sourceMap' =>
        match Module.namespaceArgs env mod modPath rest with
        | (rest', e) => (.mk name originalName argTypeDef' sourceMap' :: rest', e)

end

/-- The method `modTypeFromDeps`. -/
def Module.modTypeFromDeps (env : Env) (mod : Module) (typedef : TypeDef)
    (checkDirectDeps : Bool) : Except Fault (Option ModType) :=
  if !checkDirectDeps then .ok none
  else
    match mod.depsModTypeFor typedef with
    | .error f =>
      .error (f.wrap ("failed to get " ++ env.kindString typedef.Kind ++ " from dependency: "))
    | .ok r => .ok r

/-- The method `modTypeForPrimitive`. -/
def Module.modTypeForPrimitive (_mod : Module) (typedef : TypeDef) : Option ModType :=
  some (.PrimitiveType typedef)

/-- The loop of `modTypeForObject` over `mod.ObjectDefs`, looking for `name`, the
`Name` of the object asked for; `obj.AsObject.Value.Name` panics on a stored
definition without object payload. -/
def Module.modTypeForObjectIn (mod : Module) (name : String) :
    List TypeDef → Except Fault (Option ModType)
  | [] => .ok none
  | obj :: rest =>
    match obj.Kind with
    | .Object o =>
      if o.Name = name then .ok (some (.ModuleObjectType o mod.asMod))
      else Module.modTypeForObjectIn mod name rest
    | _ => .error (.panic "nil pointer dereference")

/-- The method `modTypeForObject`; `name` is `typeDef.AsObject.Value.Name`. -/
def Module.modTypeForObject (mod : Module) (name : String) : Except Fault (Option ModType) :=
  mod.modTypeForObjectIn name mod.ObjectDefs

/-- The loop of `modTypeForInterface` over `mod.InterfaceDefs`. -/
def Module.modTypeForInterfaceIn (mod : Module) (name : String) :
    List TypeDef → Except Fault (Option ModType)
  | [] => .ok none
  | iface :: rest =>
    match iface.Kind with
    | .Interface i =>
      if i.Name = name then .ok (some (.InterfaceType i mod.asMod))
      else Module.modTypeForInterfaceIn mod name rest
    | _ => .error (.panic "nil pointer dereference")

/-- The method `modTypeForInterface`; `name` is `typeDef.AsInterface.Value.Name`. -/
def Module.modTypeForInterface (mod : Module) (name : String) :
    Except Fault (Option ModType) :=
  mod.modTypeForInterfaceIn name mod.InterfaceDefs

/-- The loop of `modTypeForEnum` over `mod.EnumDefs`. -/
def Module.modTypeForEnumIn (mod : Module) (name : String) :
    List TypeDef → Except Fault (Option ModType)
  | [] => .ok none
  | enum :: rest =>
    match enum.Kind with
    | .Enum e =>
      if e.Name = name then .ok (some (.ModuleEnumType e mod.asMod))
      else Module.modTypeForEnumIn mod name rest
    | _ => .error (.panic "nil pointer dereference")

/-- The method `modTypeForEnum`; `name` is `typeDef.AsEnum.Value.Name`. -/
def Module.modTypeForEnum (mod : Module) (name : String) : Except Fault (Option ModType) :=
  mod.modTypeForEnumIn name mod.EnumDefs

/-- The method `WithOptional` of a TypeDef. -/
def TypeDef.WithOptional (typeDef : TypeDef) (optional : Bool) : TypeDef :=
  .mk typeDef.Kind optional

/-- The tail of `ModTypeFor` after the `switch`: not found stays not found, and a
found type of an optional TypeDef is wrapped in a `NullableType`. -/
def Module.wrapOptional (typeDef : TypeDef) : Option ModType → Option ModType
  | none => none
  | some modType =>
    if typeDef.Optional then some (.NullableType (typeDef.WithOptional false) modType)
    else some modType

/-- The method `ModTypeFor`, with `modTypeForList` inlined in the list case: the
triple `(modType, ok, err)` is an error, not found (`none`) or the found type. -/
def Module.ModTypeFor (env : Env) (mod : Module) :
    TypeDef → Bool → Except Fault (Option ModType)
  | .mk .String opt, _ =>
    .ok (Module.wrapOptional (.mk .String opt) (mod.modTypeForPrimitive (.mk .String opt)))
  | .mk .Integer opt, _ =>
    .ok (Module.wrapOptional (.mk .Integer opt) (mod.modTypeForPrimitive (.mk .Integer opt)))
  | .mk .Float opt, _ =>
    .ok (Module.wrapOptional (.mk .Float opt) (mod.modTypeForPrimitive (.mk .Float opt)))
  | .mk .Boolean opt, _ =>
    .ok (Module.wrapOptional (.mk .Boolean opt) (mod.modTypeForPrimitive (.mk .Boolean opt)))
  | .mk .Void opt, _ =>
    .ok (Module.wrapOptional (.mk .Void opt) (mod.modTypeForPrimitive (.mk .Void opt)))
  | .mk (.List elem) opt, checkDirectDeps =>
    match Module.ModTypeFor env mod elem checkDirectDeps with
    | .error f =>
      .error ((f.wrap "failed to get underlying type: ").wrap "failed to get mod type: ")
    | .ok none => .ok none
    | .ok (some underlyingType) =>
      .ok (Module.wrapOptional (.mk (.List elem) opt) (some (.ListType elem underlyingType)))
  | .mk (.Object obj) opt, checkDirectDeps =>
    match mod.modTypeFromDeps env (.mk (.Object obj) opt) checkDirectDeps with
    | .error f => .error f
    | .ok (some modType) => .ok (some modType)
    | .ok none =>
      match mod.modTypeForObject obj.Name with
      | .error f => .error f
      | .ok r => .ok (Module.wrapOptional (.mk (.Object obj) opt) r)
  | .mk (.Interface iface) opt, checkDirectDeps =>
    match mod.modTypeFromDeps env (.mk (.Interface iface) opt) checkDirectDeps with
    | .error f => .error f
    | .ok (some modType) => .ok (some modType)
    | .ok none =>
      match mod.modTypeForInterface iface.Name with
      | .error f => .error f
      | .ok r => .ok (Module.wrapOptional (.mk (.Interface iface) opt) r)
  | .mk (.Scalar scalar) opt, checkDirectDeps =>
    match mod.modTypeFromDeps env (.mk (.Scalar scalar) opt) checkDirectDeps with
    | .error f => .error f
    | .ok (some modType) => .ok (some modType)
    | .ok none => .ok none
  | .mk (.Enum enum) opt, checkDirectDeps =>
    match mod.modTypeFromDeps env (.mk (.Enum enum) opt) checkDirectDeps with
    | .error f => .error f
    | .ok (some modType) => .ok (some modType)
    | .ok none =>
      match mod.modTypeForEnum enum.Name with
      | .error f => .error f
      | .ok r => .ok (Module.wrapOptional (.mk (.Enum enum) opt) r)
  | .mk (.Other kind) _, _ =>
    .error (.error ("unexpected type def kind " ++ env.kindString (.Other kind)))

/-- The method `Clone` of a TypeDef, a deep copy: the same value. -/
def TypeDef.Clone (typeDef : TypeDef) : TypeDef :=
  typeDef

/-- The method `Clone` of a module: a copy of the struct, with cloned definitions,
at a new address `fresh`. -/
def Module.Clone (mod : Module) (fresh : Nat) : Module :=
  { mod with
    addr := fresh
    ObjectDefs := mod.ObjectDefs.map TypeDef.Clone
    InterfaceDefs := mod.InterfaceDefs.map TypeDef.Clone
    EnumDefs := mod.EnumDefs.map TypeDef.Clone }

/-- The steps shared by `WithObject`, `WithInterface` and `WithEnum` between the kind
check and the append, on the clone `mod`: validate when `mod.Deps != nil`, then
namespace a clone of `def` when `mod.NameField != ""`; the result is the definition
to append. -/
def Module.validateAndNamespace (env : Env) (mod : Module) (typeDef : TypeDef) :
    Except Fault TypeDef :=
  match (match mod.Deps with
         | some _ => wrapErr "failed to validate type def: " (mod.validateTypeDef env typeDef)
         | none => .ok ()) with
  | .error f => .error f
  | .ok _ =>
    if mod.NameField ≠ "" then
      match mod.modulePath with
      | .error f => .error f
      | .ok modPath =>
        match mod.namespaceTypeDef env modPath typeDef.Clone with
        | (_, some f) => .error (f.wrap "failed to namespace type def: ")
        | (typeDef', none) => .ok typeDef'
    else .ok typeDef

/-- The method `WithObject`; `fresh` is the address of the clone it returns. -/
def Module.WithObject (env : Env) (mod : Module) (fresh : Nat) (typeDef : TypeDef) :
    Except Fault Module :=
  let mod := mod.Clone fresh
  match typeDef.Kind with
  | .Object _ =>
    match mod.validateAndNamespace env typeDef with
    | .error f => .error f
    | .ok typeDef' => .ok { mod with ObjectDefs := mod.ObjectDefs ++ [typeDef'] }
  | _ =>
    .error (.error ("expected object type def, got " ++ env.kindString typeDef.Kind ++ ": "
      ++ env.fmtTypeDef typeDef))

/-- The method `WithInterface`; `fresh` is the address of the clone it returns. -/
def Module.WithInterface (env : Env) (mod : Module) (fresh : Nat) (typeDef : TypeDef) :
    Except Fault Module :=
  let mod := mod.Clone fresh
  match typeDef.Kind with
  | .Interface _ =>
    match mod.validateAndNamespace env typeDef with
    | .error f => .error f
    | .ok typeDef' => .ok { mod with InterfaceDefs := mod.InterfaceDefs ++ [typeDef'] }
  | _ =>
    .error (.error ("expected interface type def, got " ++ env.kindString typeDef.Kind ++ ": "
      ++ env.fmtTypeDef typeDef))

/-- The method `WithEnum`; `fresh` is the address of the clone it returns. -/
def Module.WithEnum (env : Env) (mod : Module) (fresh : Nat) (typeDef : TypeDef) :
    Except Fault Module :=
  let mod := mod.Clone fresh
  match typeDef.Kind with
  | .Enum _ =>
    match mod.validateAndNamespace env typeDef with
    | .error f => .error f
    | .ok typeDef' => .ok { mod with EnumDefs := mod.EnumDefs ++ [typeDef'] }
  | _ =>
    .error (.error ("expected enum type def, got " ++ env.kindString typeDef.Kind ++ ": "
      ++ env.fmtTypeDef typeDef))

/-- The values `(modType, ok, err)` that `ModTypeFor` and its helpers return: a nil
`modType` and a nil `err` are `none`. -/
structure Resolved where
  modType : Option ModType
  ok : Bool
  err : Option String

/-- The method `modTypeFromDeps`, with the triple it returns; `none` when the call
panics. -/
def Module.modTypeFromDepsTriple (env : Env) (mod : Module) (typedef : TypeDef)
    (checkDirectDeps : Bool) : Option Resolved :=
  if !checkDirectDeps then some ⟨none, false, none⟩
  else
    match mod.depsModTypeFor typedef with
    | .error (.panic _) => none
    | .error (.error e) =>
      some ⟨none, false,
        some ("failed to get " ++ env.kindString typedef.Kind ++ " from dependency: " ++ e)⟩
    | .ok depType => some ⟨depType, depType.isSome, none⟩

/-- The tail of `ModTypeFor` after the `switch`, on the `modType`, `ok` and `err` the
`switch` leaves: the triple it returns. -/
def Module.returnTriple (typeDef : TypeDef) (modType : Option ModType) (ok : Bool)
    (err : Option String) : Resolved :=
  match err with
  | some e => ⟨none, false, some ("failed to get mod type: " ++ e)⟩
  | none =>
    if !ok then ⟨none, false, none⟩
    else if typeDef.Optional then
      ⟨modType.map (ModType.NullableType (typeDef.WithOptional false)), true, none⟩
    else ⟨modType, true, none⟩

/-- The method `modTypeForList` on the triple of the element's resolution: the triple
it returns. -/
def Module.modTypeForListTriple (elem : TypeDef) (underlying : Resolved) : Resolved :=
  match underlying.err with
  | some e => ⟨none, false, some ("failed to get underlying type: " ++ e)⟩
  | none =>
    if !underlying.ok then ⟨none, false, none⟩
    else ⟨underlying.modType.map (ModType.ListType elem), true, none⟩

/-- The local lookup after a miss in the Dependency Set: `modType, ok =
mod.modTypeForObject(typeDef)` (or interface, enum) and the tail; `none` when the
lookup panics. -/
def Module.localTriple (typeDef : TypeDef) : Except Fault (Option ModType) → Option Resolved
  | .error _ => none
  | .ok r => some (Module.returnTriple typeDef r r.isSome none)

/-- The early return `if ok || err != nil { return modType, ok, err }` after
`modTypeFromDeps`, and the local lookup otherwise. -/
def Module.depsOrLocal (typeDef : TypeDef) (fromDeps : Option Resolved)
    (localLookup : Except Fault (Option ModType)) : Option Resolved :=
  match fromDeps with
  | none => none
  | some d =>
    if d.ok || d.err.isSome then some d
    else Module.localTriple typeDef localLookup

/-- The method `ModTypeFor` with the triple `(modType, ok, err)` it returns, return
statement by return statement; `none` when the call panics. The last case is that
of the primitive kinds. -/
def Module.ModTypeForTriple (env : Env) (mod : Module) : TypeDef → Bool → Option Resolved
  | .mk (.List elem) opt, checkDirectDeps =>
    match Module.ModTypeForTriple env mod elem checkDirectDeps with
    | none => none
    | some underlying =>
      let l := Module.modTypeForListTriple elem underlying
      some (Module.returnTriple (.mk (.List elem) opt) l.modType l.ok l.err)
  | .mk (.Object obj) opt, checkDirectDeps =>
    Module.depsOrLocal (.mk (.Object obj) opt)
      (mod.modTypeFromDepsTriple env (.mk (.Object obj) opt) checkDirectDeps)
      (mod.modTypeForObject obj.Name)
  | .mk (.Interface iface) opt, checkDirectDeps =>
    Module.depsOrLocal (.mk (.Interface iface) opt)
      (mod.modTypeFromDepsTriple env (.mk (.Interface iface) opt) checkDirectDeps)
      (mod.modTypeForInterface iface.Name)
  | .mk (.Scalar scalar) opt, checkDirectDeps =>
    Module.depsOrLocal (.mk (.Scalar scalar) opt)
      (mod.modTypeFromDepsTriple env (.mk (.Scalar scalar) opt) checkDirectDeps)
      (.ok none)
  | .mk (.Enum enum) opt, checkDirectDeps =>
    Module.depsOrLocal (.mk (.Enum enum) opt)
      (mod.modTypeFromDepsTriple env (.mk (.Enum enum) opt) checkDirectDeps)
      (mod.modTypeForEnum enum.Name)
  | .mk (.Other kind) _, _ =>
    some ⟨none, false, some ("unexpected type def kind " ++ env.kindString (.Other kind))⟩
  | typeDef, _ =>
    some (Module.returnTriple typeDef (mod.modTypeForPrimitive typeDef) true none)

/-- The triple as the result `ModTypeFor` stands for: the error when `err` is not
nil, else the type when `ok` and not found otherwise. -/
def Resolved.toResult : Option Resolved → Except Fault (Option ModType)
  | none => .error (.panic "nil pointer dereference")
  | some ⟨_, _, some e⟩ => .error (.error e)
  | some ⟨modType, ok, none⟩ => .ok (if ok then modType else none)

/-- A call of an `Install` method on the schema server: on the `ModuleObject` that
`Install` builds from the module and an object definition, on the `InterfaceType` it
builds from an interface definition and the module, or on the `ModuleEnum` it builds
from an enum definition. -/
inductive Installed where
  | ModuleObject (Module : Mod) (TypeDef : ObjectTypeDef)
  | InterfaceType (typeDef : InterfaceTypeDef) (mod : Mod)
  | ModuleEnum (TypeDef : EnumTypeDef)

/-- The methods `ModuleObject.Install` and `InterfaceType.Install` (not part of
`module.go`), given by the error they return, if any, on a schema server that has
received the calls `dag` before. `ModuleEnum.Install` returns nothing. -/
structure Installers where
  ModuleObject : List Installed → Mod → ObjectTypeDef → Option String
  InterfaceType : List Installed → InterfaceTypeDef → Mod → Option String

/-- The loop `for _, def := range mod.ObjectDefs` of `Install`, on a schema server
that has received the calls `dag`: the calls it has received when the loop ends, and
the fault the loop ends in, if any. `objDef.Name` panics on a stored definition
without object payload, and `modType.SourceMod().Name()` on a resolved type without
owner. -/
def Module.installObjects (env : Env) (ins : Installers) (mod : Module) :
    List TypeDef → List Installed → List Installed × Option Fault
  | [], dag => (dag, none)
  | typeDef :: rest, dag =>
    match typeDef.Kind with
    | .Object objDef =>
      match mod.depsModTypeFor typeDef with
      | .error f => (dag, some (f.wrap "failed to get mod type for type def: "))
      | .ok (some modType) =>
        match modType.SourceMod with
        | none => (dag, some (.panic "nil pointer dereference"))
        | some sourceMod =>
          (dag, some (.error ("type " ++ env.quote objDef.Name
            ++ " is already defined by module " ++ env.quote sourceMod.Name)))
      | .ok none =>
        match ins.ModuleObject dag mod.asMod objDef with
        | some err => (dag ++ [.ModuleObject mod.asMod objDef], some (.error err))
        | none =>
          Module.installObjects env ins mod rest (dag ++ [.ModuleObject mod.asMod objDef])
    | _ => (dag, some (.panic "nil pointer dereference"))

/-- The loop `for _, def := range mod.InterfaceDefs` of `Install`. -/
def Module.installInterfaces (ins : Installers) (mod : Module) :
    List TypeDef → List Installed → List Installed × Option Fault
  | [], dag => (dag, none)
  | typeDef :: rest, dag =>
    match typeDef.Kind with
    | .Interface ifaceDef =>
      match ins.InterfaceType dag ifaceDef mod.asMod with
      | some err => (dag ++ [.InterfaceType ifaceDef mod.asMod], some (.error err))
      | none =>
        Module.installInterfaces ins mod rest (dag ++ [.InterfaceType ifaceDef mod.asMod])
    | _ => (dag, some (.panic "nil pointer dereference"))

/-- The loop `for _, def := range mod.EnumDefs` of `Install`. -/
def Module.installEnums (mod : Module) :
    List TypeDef → List Installed → List Installed × Option Fault
  | [], dag => (dag, none)
  | typeDef :: rest, dag =>
    match typeDef.Kind with
    | .Enum enumDef => Module.installEnums mod rest (dag ++ [.ModuleEnum enumDef])
    | _ => (dag, some (.panic "nil pointer dereference"))

/-- The method `Install` on a schema server that has received the calls `dag`: the
calls the server has received when `Install` ends, and the fault it ends in, `none`
for a nil error. -/
def Module.Install (env : Env) (ins : Installers) (mod : Module) (dag : List Installed) :
    List Installed × Option Fault :=
  match mod.installObjects env ins mod.ObjectDefs dag with
  | (dag', some f) => (dag', some f)
  | (dag', none) =>
    match mod.installInterfaces ins mod.InterfaceDefs dag' with
    | (dag'', some f) => (dag'', some f)
    | (dag'', none) => mod.installEnums mod.EnumDefs dag''

/-- The `SourceModuleName` of an object. -/
def ObjectTypeDef.SourceModuleName : ObjectTypeDef → String
  | .mk _ _ s _ _ _ _ => s

/-- The `SourceModuleName` of an interface. -/
def InterfaceTypeDef.SourceModuleName : InterfaceTypeDef → String
  | .mk _ _ s _ _ => s

/-- The step `typeDef := def.Clone(); if typeDef.AsObject.Valid {
typeDef.AsObject.Value.SourceModuleName = mod.Name() }` of `TypeDefs`. -/
def Module.typeDefsObject (mod : Module) (typeDef : TypeDef) : TypeDef :=
  match typeDef.Clone with
  | .mk (.Object (.mk name originalName _ sourceMap fields functions ctor)) opt =>
    .mk (.Object (.mk name originalName mod.Name sourceMap fields functions ctor)) opt
  | typeDef' => typeDef'

/-- The step of `TypeDefs` on an interface definition. -/
def Module.typeDefsInterface (mod : Module) (typeDef : TypeDef) : TypeDef :=
  match typeDef.Clone with
  | .mk (.Interface (.mk name originalName _ sourceMap functions)) opt =>
    .mk (.Interface (.mk name originalName mod.Name sourceMap functions)) opt
  | typeDef' => typeDef'

/-- The step of `TypeDefs` on an enum definition. -/
def Module.typeDefsEnum (mod : Module) (typeDef : TypeDef) : TypeDef :=
  match typeDef.Clone with
  | .mk (.Enum enum) opt => .mk (.Enum { enum with SourceModuleName := mod.Name }) opt
  | typeDef' => typeDef'

/-- The method `TypeDefs`: the list it returns; its error is always nil. -/
def Module.TypeDefs (mod : Module) : Except Fault (List TypeDef) :=
  .ok (mod.ObjectDefs.map mod.typeDefsObject ++ mod.InterfaceDefs.map mod.typeDefsInterface
    ++ mod.EnumDefs.map mod.typeDefsEnum)

/-! ## The Dependency Set as a collection of modules -/

/-- Modelled from the spec: the lookup of a Dependency Set, "an ordered collection of
already-resolved Modules", over its modules in order. Each module is asked through
`ModTypeFor` with `checkDirectDeps` false; the first that reports found gives the
answer, and a module that fails ends the lookup with its error. -/
def ModDeps.lookup (env : Env) (typeDef : TypeDef) :
    List Module → Except String (Option ModType)
  | [] => .ok none
  | mod :: rest =>
    match mod.ModTypeFor env typeDef false with
    | .error (.error msg) =>
      .error ("failed to get type from mod " ++ env.quote mod.Name ++ ": " ++ msg)
    | .error (.panic msg) => .error msg
    | .ok (some modType) => .ok (some modType)
    | .ok none => ModDeps.lookup env typeDef rest

/-- Modelled from the spec: the Dependency Set that holds the modules `mods`. -/
def ModDeps.ofModules (env : Env) (mods : List Module) : ModDeps where
  ModTypeFor := fun typeDef => ModDeps.lookup env typeDef mods

/-! ## The enumeration of definitions in memory

`TypeDefs` hands out pointers: it clones every stored definition and assigns
`SourceModuleName` through the pointer to the clone. The definitions below follow it
on a memory of TypeDef cells, so that which cells it writes is part of the model. A
cell holds a TypeDef with everything below it; the method `Clone` of a TypeDef is
outside `module.go` and is taken to copy everything below the TypeDef into a new
cell, as the spec has it ("deep copy of all definitions"). -/

/-- The memory of TypeDefs: the TypeDef allocated at each address, `none` where
nothing is allocated (the nil pointer among them), and the address of the next
allocation. -/
structure Heap where
  typeDefs : Nat → Option TypeDef
  next : Nat

/-- The allocation of a new cell that holds `typeDef`: the memory after it and the
address of the cell. -/
def Heap.alloc (h : Heap) (typeDef : TypeDef) : Heap × Nat :=
  ({ typeDefs := fun a => if a = h.next then some typeDef else h.typeDefs a
     next := h.next + 1 }, h.next)

/-- A write through the pointer `p`: the cell at `p` holds `typeDef` after it. -/
def Heap.write (h : Heap) (p : Nat) (typeDef : TypeDef) : Heap :=
  { h with typeDefs := fun a => if a = p then some typeDef else h.typeDefs a }

/-- One loop of `TypeDefs` in memory, over the slice of pointers of one collection:
`typeDef := def.Clone()` allocates a cell for the clone, a panic on a nil `def`; the
assignment to `SourceModuleName` is a write into that cell, which `step` (one of
`typeDefsObject`, `typeDefsInterface`, `typeDefsEnum`) gives the content of; the
pointer to the clone is appended. The result is the memory after the loop and the
pointers appended. -/
def Heap.typeDefsLoop (step : TypeDef → TypeDef) (h : Heap) :
    List Nat → Heap × Except Fault (List Nat)
  | [] => (h, .ok [])
  | p :: rest =>
    match h.typeDefs p with
    | none => (h, .error (.panic "nil pointer dereference"))
    | some stored =>
      match h.alloc stored.Clone with
      | (h, typeDef) =>
        match Heap.typeDefsLoop step (h.write typeDef (step stored)) rest with
        | (h, .error f) => (h, .error f)
        | (h, .ok typeDefs) => (h, .ok (typeDef :: typeDefs))

/-- The method `TypeDefs` in memory, for the module `mod` whose collections are the
slices of pointers `objectDefs`, `interfaceDefs` and `enumDefs`: the memory after the
call, and the slice of pointers it returns. -/
def Heap.TypeDefs (h : Heap) (mod : Module) (objectDefs interfaceDefs enumDefs : List Nat) :
    Heap × Except Fault (List Nat) :=
  match Heap.typeDefsLoop mod.typeDefsObject h objectDefs with
  | (h, .error f) => (h, .error f)
  | (h, .ok objects) =>
    match Heap.typeDefsLoop mod.typeDefsInterface h interfaceDefs with
    | (h, .error f) => (h, .error f)
    | (h, .ok interfaces) =>
      match Heap.typeDefsLoop mod.typeDefsEnum h enumDefs with
      | (h, .error f) => (h, .error f)
      | (h, .ok enums) => (h, .ok (objects ++ interfaces ++ enums))

/-! ## The enum path in memory

An enum TypeDef points to an `EnumTypeDef` whose `Values` is a slice of pointers to
`EnumValueTypeDef`s. For an enum that the Dependency Set resolves, `namespaceTypeDef`
assigns the slice of the resolved type to the enum it works on
(`enum.Values = mtype.TypeDef().AsEnum.Value.Values`) and then assigns the
`SourceMap` of every value through these pointers. The definitions below follow
`Clone`, `namespaceTypeDef` and `WithEnum` on an enum statement by statement, on a
memory in which a module, an enum and every enum value has a cell of its own, so
that what the methods share and what they write is part of the model. A source map
is held in the cell of the enum or value it belongs to. The module cells have the
fields that the enum path reads and writes. -/

/-- An enum TypeDef in memory: the `Optional` flag of the `TypeDef` and the fields of
the `EnumTypeDef` it points to; `Values` is the slice of pointers to the values. -/
structure EnumCell where
  Optional : Bool
  Name : String
  OriginalName : String
  SourceModuleName : String
  SourceMap : Option SourceMap
  Values : List Nat

/-- The Dependency Set in memory: `ModTypeFor` is `mod.Deps.ModTypeFor(ctx, typeDef)`
on an enum TypeDef, and its answer, when found, is the address of the enum of the
resolved type, what `mtype.TypeDef().AsEnum.Value` points to. -/
structure MemDeps where
  ModTypeFor : EnumCell → Except String (Option Nat)

/-- A module in memory: `Source`, the two names, the Dependency Set and `EnumDefs`, a
slice of pointers to enum TypeDefs. -/
structure ModuleCell where
  Source : Option ModuleSource
  NameField : String
  OriginalName : String
  Deps : Option MemDeps
  EnumDefs : List Nat

/-- The memory: the module, enum and enum value allocated at each address, `none`
where nothing is allocated (the nil pointer among them), and the address of the next
allocation. -/
structure Mem where
  modules : Nat → Option ModuleCell
  enums : Nat → Option EnumCell
  values : Nat → Option EnumValueTypeDef
  next : Nat

/-- A write through a pointer to an enum value. -/
def Mem.setValue (mem : Mem) (p : Nat) (value : EnumValueTypeDef) : Mem :=
  { mem with values := fun a => if a = p then some value else mem.values a }

/-- A write through a pointer to an enum. -/
def Mem.setEnum (mem : Mem) (p : Nat) (enum : EnumCell) : Mem :=
  { mem with enums := fun a => if a = p then some enum else mem.enums a }

/-- A write through a pointer to a module. -/
def Mem.setModule (mem : Mem) (p : Nat) (mod : ModuleCell) : Mem :=
  { mem with modules := fun a => if a = p then some mod else mem.modules a }

/-- The allocation of an enum value: the memory after it and the new address. -/
def Mem.newValue (mem : Mem) (value : EnumValueTypeDef) : Mem × Nat :=
  ({ mem.setValue mem.next value with next := mem.next + 1 }, mem.next)

/-- The allocation of an enum: the memory after it and the new address. -/
def Mem.newEnum (mem : Mem) (enum : EnumCell) : Mem × Nat :=
  ({ mem.setEnum mem.next enum with next := mem.next + 1 }, mem.next)

/-- The allocation of a module: the memory after it and the new address. -/
def Mem.newModule (mem : Mem) (mod : ModuleCell) : Mem × Nat :=
  ({ mem.setModule mem.next mod with next := mem.next + 1 }, mem.next)

/-- The module of a cell as the methods that read only its source and its names see
it. -/
def ModuleCell.view (mod : ModuleCell) : Module where
  addr := 0
  Source := mod.Source
  NameField := mod.NameField
  OriginalName := mod.OriginalName
  Deps := none
  Description := ""
  ObjectDefs := []
  InterfaceDefs := []
  EnumDefs := []

/-- Modelled from the spec: the method `Clone` on the values of an enum, a deep copy:
a new cell for every value, with the content of the value. A nil value is a panic. -/
def Mem.cloneValues (mem : Mem) : List Nat → Except Fault (Mem × List Nat)
  | [] => .ok (mem, [])
  | p :: rest =>
    match mem.values p with
    | none => .error (.panic "nil pointer dereference")
    | some value =>
      match mem.newValue value with
      | (mem, p') =>
        match Mem.cloneValues mem rest with
        | .error f => .error f
        | .ok (mem, rest') => .ok (mem, p' :: rest')

/-- Modelled from the spec: the method `Clone` of a TypeDef, on an enum, a deep copy:
a new enum cell with the fields of the enum and clones of its values. -/
def Mem.cloneTypeDef (mem : Mem) (typeDef : Nat) : Except Fault (Mem × Nat) :=
  match mem.enums typeDef with
  | none => .error (.panic "nil pointer dereference")
  | some enum =>
    match mem.cloneValues enum.Values with
    | .error f => .error f
    | .ok (mem, values) => .ok (mem.newEnum { enum with Values := values })

/-- The loop `for i, def := range mod.EnumDefs { cp.EnumDefs[i] = def.Clone() }` of
`Clone`. -/
def Mem.cloneDefs (mem : Mem) : List Nat → Except Fault (Mem × List Nat)
  | [] => .ok (mem, [])
  | typeDef :: rest =>
    match mem.cloneTypeDef typeDef with
    | .error f => .error f
    | .ok (mem, typeDef') =>
      match Mem.cloneDefs mem rest with
      | .error f => .error f
      | .ok (mem, rest') => .ok (mem, typeDef' :: rest')

/-- The method `Clone` of a module in memory: a copy of the struct in a new cell, with
clones of the definitions; the source and the Dependency Set are copied with it. -/
def Mem.Clone (mem : Mem) (mod : ModuleCell) : Except Fault (Mem × Nat) :=
  match mem.cloneDefs mod.EnumDefs with
  | .error f => .error f
  | .ok (mem, enumDefs) => .ok (mem.newModule { mod with EnumDefs := enumDefs })

/-- The loop `for _, value := range enum.Values { value.SourceMap =
mod.namespaceSourceMap(modPath, value.SourceMap) }` of `namespaceTypeDef` in memory:
every assignment is a write through the pointer to the value. The result is the
memory after the loop and the fault that stopped it, if any. -/
def Mem.namespaceEnumValues (env : Env) (mod : ModuleCell) (modPath : String) (mem : Mem) :
    List Nat → Mem × Option Fault
  | [] => (mem, none)
  | p :: rest =>
    match mem.values p with
    | none => (mem, some (.panic "nil pointer dereference"))
    | some value =>
      match mod.view.namespaceSourceMap env modPath value.SourceMap with
      | .error f => (mem, some f)
      | .ok sourceMap =>
        Mem.namespaceEnumValues env mod modPath
          (mem.setValue p { value with SourceMap := sourceMap }) rest

/-- The `case TypeDefKindEnum` of `namespaceTypeDef` in memory; `typeDef` is the
address of the enum. On a hit of the Dependency Set, `enum.Values` becomes the slice
of the resolved enum: the same pointers. On a miss, the name and the source map of
the enum are rewritten. Then the loop over `enum.Values`. The result is the memory
after the call and the fault it ended in, if any. -/
def Mem.namespaceTypeDef (env : Env) (mod : ModuleCell) (modPath : String) (mem : Mem)
    (typeDef : Nat) : Mem × Option Fault :=
  match mem.enums typeDef with
  | none => (mem, some (.panic "nil pointer dereference"))
  | some enum =>
    match mod.Deps with
    | none => (mem, some (.panic "nil pointer dereference"))
    | some deps =>
      match deps.ModTypeFor enum with
      | .error e => (mem, some (.error ("failed to get mod type for type def: " ++ e)))
      | .ok (some mtype) =>
        match mem.enums mtype with
        | none => (mem, some (.panic "nil pointer dereference"))
        | some resolved =>
          Mem.namespaceEnumValues env mod modPath
            (mem.setEnum typeDef { enum with Values := resolved.Values }) resolved.Values
      | .ok none =>
        match mod.view.namespaceSourceMap env modPath enum.SourceMap with
        | .error f =>
          (mem.setEnum typeDef { enum with
            Name := env.namespaceObject enum.OriginalName mod.view.Name mod.OriginalName },
            some f)
        | .ok sourceMap =>
          Mem.namespaceEnumValues env mod modPath
            (mem.setEnum typeDef { enum with
              Name := env.namespaceObject enum.OriginalName mod.view.Name mod.OriginalName
              SourceMap := sourceMap }) enum.Values

/-- The method `WithEnum` in memory, on a TypeDef of kind enum (the check
`def.AsEnum.Valid` passes, and `validateTypeDef` has no case for an enum): `modAddr`
is the receiver and `typeDef` the argument `def`. The result is the memory after the
call and the `*Module` returned, or the fault. -/
def Mem.WithEnum (env : Env) (mem : Mem) (modAddr typeDef : Nat) : Mem × Except Fault Nat :=
  match mem.modules modAddr with
  | none => (mem, .error (.panic "nil pointer dereference"))
  | some recv =>
    match mem.Clone recv with
    | .error f => (mem, .error f)
    | .ok (mem, modAddr') =>
      match mem.modules modAddr', mem.enums typeDef with
      | some mod, some _ =>
        if mod.NameField ≠ "" then
          match mem.cloneTypeDef typeDef with
          | .error f => (mem, .error f)
          | .ok (mem, typeDef') =>
            match mod.view.modulePath with
            | .error f => (mem, .error f)
            | .ok modPath =>
              match Mem.namespaceTypeDef env mod modPath mem typeDef' with
              | (mem, some f) => (mem, .error (f.wrap "failed to namespace type def: "))
              | (mem, none) =>
                (mem.setModule modAddr' { mod with EnumDefs := mod.EnumDefs ++ [typeDef'] },
                  .ok modAddr')
        else
          (mem.setModule modAddr' { mod with EnumDefs := mod.EnumDefs ++ [typeDef] },
            .ok modAddr')
      | _, _ => (mem, .error (.panic "nil pointer dereference"))

/-! ## Predicates used to state the properties -/

/-- A result that is not a panic. -/
def NoPanic {α : Type} (r : Except Fault α) : Prop :=
  ∀ msg, r ≠ .error (.panic msg)

/-- The Dependency Set of `mod` resolves `t` to a type whose owning module is not nil,
is not the core module and is not `mod`. -/
def Module.Leaks (env : Env) (mod : Module) (t : TypeDef) : Prop :=
  ∃ d modType owner, mod.Deps = some d ∧ d.ModTypeFor t = .ok (some modType) ∧
    modType.SourceMod = some owner ∧ owner.Name ≠ env.ModuleName ∧ owner.addr ≠ mod.addr

/-- The message `msg` contains the text `part`. -/
def msgContains (msg part : String) : Prop :=
  part.data <:+: msg.data

instance (msg part : String) : Decidable (msgContains msg part) :=
  inferInstanceAs (Decidable (part.data <:+: msg.data))

/-- The `Name` of an Object, Interface or Enum node. -/
def TypeDef.nodeName : TypeDef → Option String
  | .mk (.Object o) _ => some o.Name
  | .mk (.Interface i) _ => some i.Name
  | .mk (.Enum e) _ => some e.Name
  | _ => none

/-- The `OriginalName` of an Object, Interface or Enum node. -/
def TypeDef.nodeOriginalName : TypeDef → Option String
  | .mk (.Object o) _ => some o.OriginalName
  | .mk (.Interface i) _ => some i.OriginalName
  | .mk (.Enum e) _ => some e.OriginalName
  | _ => none

mutual

/-- A TypeDef without what namespacing may rewrite: the `Name` of every object,
interface and enum, every `SourceMap`, and the `Values` of every enum are blanked;
every `OriginalName`, the member names, the flags and the shape of the tree stay. -/
def TypeDef.erase : TypeDef → TypeDef
  | .mk (.List elem) opt => .mk (.List elem.erase) opt
  | .mk (.Object obj) opt => .mk (.Object obj.erase) opt
  | .mk (.Interface iface) opt => .mk (.Interface iface.erase) opt
  | .mk (.Enum enum) opt =>
    .mk (.Enum { enum with Name := "", SourceMap := none, Values := [] }) opt
  | typeDef => typeDef

/-- An object without what namespacing may rewrite. -/
def ObjectTypeDef.erase : ObjectTypeDef → ObjectTypeDef
  | .mk _ originalName srcModName _ fields functions none =>
    .mk "" originalName srcModName none (FieldTypeDef.eraseAll fields)
      (Function.eraseAll functions) none
  | .mk _ originalName srcModName _ fields functions (some fn) =>
    .mk "" originalName srcModName none (FieldTypeDef.eraseAll fields)
      (Function.eraseAll functions) (some fn.erase)

/-- An interface without what namespacing may rewrite. -/
def InterfaceTypeDef.erase : InterfaceTypeDef → InterfaceTypeDef
  | .mk _ originalName srcModName _ functions =>
    .mk "" originalName srcModName none (Function.eraseAll functions)

/-- The fields of an object without what namespacing may rewrite. -/
def FieldTypeDef.eraseAll : List FieldTypeDef → List FieldTypeDef
  | [] => []
  | .mk name originalName typeDef _ :: rest =>
    .mk name originalName typeDef.erase none :: FieldTypeDef.eraseAll rest

/-- A function without what namespacing may rewrite. -/
def Function.erase : Function → Function
  | .mk name originalName returnType args _ =>
    .mk name originalName returnType.erase (FunctionArg.eraseAll args) none

/-- A list of functions without what namespacing may rewrite. -/
def Function.eraseAll : List Function → List Function
  | [] => []
  | fn :: rest => fn.erase :: Function.eraseAll rest

/-- The arguments of a function without what namespacing may rewrite. -/
def FunctionArg.eraseAll : List FunctionArg → List FunctionArg
  | [] => []
  | .mk name originalName typeDef _ :: rest =>
    .mk name originalName typeDef.erase none :: FunctionArg.eraseAll rest

end

/-- The `Values` of an Enum node. -/
def TypeDef.nodeValues : TypeDef → Option (List EnumValueTypeDef)
  | .mk (.Enum e) _ => some e.Values
  | _ => none

mutual

/-- The TypeDef nodes of a tree, in the order `namespaceTypeDef` visits them: the node
itself, then for a list its element, for an object the types of its fields, the
return and argument types of its functions and of its constructor, for an interface
the return and argument types of its functions. -/
def TypeDef.nodes : TypeDef → List TypeDef
  | .mk (.List elem) opt => .mk (.List elem) opt :: elem.nodes
  | .mk (.Object obj) opt => .mk (.Object obj) opt :: obj.nodes
  | .mk (.Interface iface) opt => .mk (.Interface iface) opt :: iface.nodes
  | typeDef => [typeDef]

/-- The TypeDef nodes below an object. -/
def ObjectTypeDef.nodes : ObjectTypeDef → List TypeDef
  | .mk _ _ _ _ fields functions none =>
    FieldTypeDef.nodesAll fields ++ Function.nodesAll functions
  | .mk _ _ _ _ fields functions (some fn) =>
    FieldTypeDef.nodesAll fields ++ Function.nodesAll functions ++ fn.nodes

/-- The TypeDef nodes below an interface. -/
def InterfaceTypeDef.nodes : InterfaceTypeDef → List TypeDef
  | .mk _ _ _ _ functions => Function.nodesAll functions

/-- The TypeDef nodes below the fields of an object. -/
def FieldTypeDef.nodesAll : List FieldTypeDef → List TypeDef
  | [] => []
  | .mk _ _ typeDef _ :: rest => typeDef.nodes ++ FieldTypeDef.nodesAll rest

/-- The TypeDef nodes below a function. -/
def Function.nodes : Function → List TypeDef
  | .mk _ _ returnType args _ => returnType.nodes ++ FunctionArg.nodesAll args

/-- The TypeDef nodes below a list of functions. -/
def Function.nodesAll : List Function → List TypeDef
  | [] => []
  | fn :: rest => fn.nodes ++ Function.nodesAll rest

/-- The TypeDef nodes below the arguments of a function. -/
def FunctionArg.nodesAll : List FunctionArg → List TypeDef
  | [] => []
  | .mk _ _ typeDef _ :: rest => typeDef.nodes ++ FunctionArg.nodesAll rest

end

/-- An enum value without its source map. -/
def EnumValueTypeDef.withoutSourceMap (value : EnumValueTypeDef) : EnumValueTypeDef :=
  { value with SourceMap := none }

/-- A TypeDef built only from the primitive kinds (String, Integer, Float, Boolean,
Void) and List. -/
def TypeDef.primitivesAndLists : TypeDef → Bool
  | .mk .String _ => true
  | .mk .Integer _ => true
  | .mk .Float _ => true
  | .mk .Boolean _ => true
  | .mk .Void _ => true
  | .mk (.List elem) _ => elem.primitivesAndLists
  | _ => false

/-- The resolved type `modType` of `typeDef`, inside a Nullable that carries `typeDef`
with `Optional` cleared when `typeDef` is marked Optional. -/
def TypeDef.nullableIfOptional (typeDef : TypeDef) (modType : ModType) : ModType :=
  if typeDef.Optional then .NullableType (typeDef.WithOptional false) modType else modType

/-- The resolved type with the nesting of a TypeDef of primitives and lists: a
Primitive for a primitive, a List of the element TypeDef over the element's type
for a list, and a Nullable around it at each node marked Optional. -/
def TypeDef.mirror : TypeDef → ModType
  | .mk (.List elem) opt =>
    (TypeDef.mk (.List elem) opt).nullableIfOptional (.ListType elem elem.mirror)
  | typeDef => typeDef.nullableIfOptional (.PrimitiveType typeDef)

/-- The TypeDef has object payload. -/
def TypeDef.isObject : TypeDef → Bool
  | .mk (.Object _) _ => true
  | _ => false

/-- The TypeDef has interface payload. -/
def TypeDef.isInterface : TypeDef → Bool
  | .mk (.Interface _) _ => true
  | _ => false

/-- The TypeDef has enum payload. -/
def TypeDef.isEnum : TypeDef → Bool
  | .mk (.Enum _) _ => true
  | _ => false

/-- Every stored definition has the payload of its collection, as `WithObject`,
`WithInterface` and `WithEnum` leave the collections. -/
def Module.WellFormed (mod : Module) : Bool :=
  mod.ObjectDefs.all TypeDef.isObject && mod.InterfaceDefs.all TypeDef.isInterface
    && mod.EnumDefs.all TypeDef.isEnum

/-- The collection of the module that matches the kind of `typeDef`: `ObjectDefs` for
an object, `InterfaceDefs` for an interface, `EnumDefs` for an enum. -/
def Module.localDefs (mod : Module) : TypeDef → List TypeDef
  | .mk (.Object _) _ => mod.ObjectDefs
  | .mk (.Interface _) _ => mod.InterfaceDefs
  | .mk (.Enum _) _ => mod.EnumDefs
  | _ => []

/-- The resolved type that carries a stored definition and is owned by `mod`. -/
def Module.localType (mod : Module) : TypeDef → Option ModType
  | .mk (.Object obj) _ => some (.ModuleObjectType obj mod.asMod)
  | .mk (.Interface iface) _ => some (.InterfaceType iface mod.asMod)
  | .mk (.Enum enum) _ => some (.ModuleEnumType enum mod.asMod)
  | _ => none

/-- The first stored definition of the module's matching collection, in declaration
order, whose `Name` is the `Name` of `typeDef`. -/
def Module.firstLocal (mod : Module) (typeDef : TypeDef) : Option TypeDef :=
  (mod.localDefs typeDef).find? (fun stored => decide (stored.nodeName = typeDef.nodeName))

/-- The `Install` call that publishes a stored definition of the module: on a
`ModuleObject` for an object, an `InterfaceType` for an interface, a `ModuleEnum`
for an enum. -/
def Module.publishCall (mod : Module) : TypeDef → Option Installed
  | .mk (.Object obj) _ => some (.ModuleObject mod.asMod obj)
  | .mk (.Interface iface) _ => some (.InterfaceType iface mod.asMod)
  | .mk (.Enum enum) _ => some (.ModuleEnum enum)
  | _ => none

/-- The calls that publish the definitions `defs`, one for each, in their order. -/
def Module.publishCalls (mod : Module) (defs : List TypeDef) : List Installed :=
  defs.filterMap mod.publishCall

/-- The `SourceModuleName` of an Object, Interface or Enum node. -/
def TypeDef.nodeSourceModuleName : TypeDef → Option String
  | .mk (.Object obj) _ => some obj.SourceModuleName
  | .mk (.Interface iface) _ => some iface.SourceModuleName
  | .mk (.Enum enum) _ => some enum.SourceModuleName
  | _ => none

/-- The TypeDef with the `SourceModuleName` of its object, interface or enum payload
set to `name` and nothing else changed. -/
def TypeDef.withSourceModuleName (name : String) : TypeDef → TypeDef
  | .mk (.Object (.mk n originalName _ sourceMap fields functions ctor)) opt =>
    .mk (.Object (.mk n originalName name sourceMap fields functions ctor)) opt
  | .mk (.Interface (.mk n originalName _ sourceMap functions)) opt =>
    .mk (.Interface (.mk n originalName name sourceMap functions)) opt
  | .mk (.Enum enum) opt => .mk (.Enum { enum with SourceModuleName := name }) opt
  | typeDef => typeDef

/-- The message `msg` names `s`: it contains `s` as `%q` renders it, and so `s` itself
whenever the rendering of `s` contains `s`. -/
def Env.msgNames (env : Env) (msg s : String) : Prop :=
  msgContains msg (env.quote s) ∧ (msgContains (env.quote s) s → msgContains msg s)

/-- The TypeDefs that the pointers `ptrs` point to in the memory `h`, when each of
them is allocated. -/
def Heap.readAll (h : Heap) : List Nat → Option (List TypeDef)
  | [] => some []
  | p :: rest =>
    match h.typeDefs p, Heap.readAll h rest with
    | some typeDef, some typeDefs => some (typeDef :: typeDefs)
    | _, _ => none

/-- Nothing is allocated in `h` from the address of the next allocation on. -/
def Heap.Fresh (h : Heap) : Prop :=
  ∀ a, h.next ≤ a → h.typeDefs a = none

/-- Every cell allocated in `h` is in `h'` with the content it has in `h`: nothing
that was allocated in `h` has been written. -/
def Heap.Preserved (h h' : Heap) : Prop :=
  ∀ p typeDef, h.typeDefs p = some typeDef → h'.typeDefs p = some typeDef

/-- The values that the pointers `ptrs` point to in `mem`, when each is allocated. -/
def Mem.readValues (mem : Mem) : List Nat → Option (List EnumValueTypeDef)
  | [] => some []
  | p :: rest =>
    match mem.values p, Mem.readValues mem rest with
    | some value, some values => some (value :: values)
    | _, _ => none

/-- The enum TypeDef at `p` in `mem` as a value, with the values its pointers point
to. -/
def Mem.readEnum (mem : Mem) (p : Nat) : Option TypeDef :=
  match mem.enums p with
  | none => none
  | some enum =>
    match mem.readValues enum.Values with
    | none => none
    | some values =>
      some (.mk (.Enum { Name := enum.Name, OriginalName := enum.OriginalName,
                         SourceModuleName := enum.SourceModuleName,
                         SourceMap := enum.SourceMap, Values := values }) enum.Optional)

/-- The enum TypeDefs that the pointers `ptrs` point to in `mem`, as values. -/
def Mem.readEnums (mem : Mem) : List Nat → Option (List TypeDef)
  | [] => some []
  | p :: rest =>
    match mem.readEnum p, Mem.readEnums mem rest with
    | some typeDef, some typeDefs => some (typeDef :: typeDefs)
    | _, _ => none

/-- The collection `EnumDefs` of the module at `modAddr` in `mem`, as values. -/
def Mem.readEnumDefs (mem : Mem) (modAddr : Nat) : Option (List TypeDef) :=
  match mem.modules modAddr with
  | none => none
  | some mod => mem.readEnums mod.EnumDefs

/-! ## Sample inputs -/

/-- A sample environment: the core module is named `daggercore`, `gqlFieldName` lowers
the first letter (lower camel case of a one-word name), `%q` puts a string of plain
letters between double quotes, and paths are joined with a slash. -/
def sampleEnv : Env where
  ModuleName := "daggercore"
  gqlFieldName := fun s =>
    match s.data with
    | [] => ""
    | c :: cs => String.mk (c.toLower :: cs)
  namespaceObject := fun objOriginalName modFinalName _ => modFinalName ++ objOriginalName
  filepathJoin := fun dir file => dir ++ "/" ++ file
  quote := fun s => "\"" ++ s ++ "\""
  kindString := fun k =>
    match k with
    | .String => "STRING_KIND"
    | .Integer => "INTEGER_KIND"
    | .Float => "FLOAT_KIND"
    | .Boolean => "BOOLEAN_KIND"
    | .Void => "VOID_KIND"
    | .List _ => "LIST_KIND"
    | .Object _ => "OBJECT_KIND"
    | .Interface _ => "INTERFACE_KIND"
    | .Scalar _ => "SCALAR_KIND"
    | .Enum _ => "ENUM_KIND"
    | .Other kind => kind
  fmtTypeDef := fun _ => "&{}"

/-- The module `a` as a dependency sees it. -/
def modA : Mod :=
  { addr := 100, Name := "a" }

/-- The object `Foo` that module `a` defines. -/
def fooObj : ObjectTypeDef :=
  .mk "Foo" "Foo" "a" none [] [] none

/-- The TypeDef of `Foo`. -/
def fooDef : TypeDef :=
  .mk (.Object fooObj) false

/-- A Dependency Set that holds module `a`: it resolves the object named `Foo` to the
object type owned by `a` and nothing else. -/
def depsOnA : ModDeps where
  ModTypeFor := fun t =>
    match t.Kind with
    | .Object o => if o.Name = "Foo" then .ok (some (.ModuleObjectType fooObj modA)) else .ok none
    | _ => .ok none

/-- An empty Dependency Set: it resolves nothing. -/
def noDeps : ModDeps where
  ModTypeFor := fun _ => .ok none

/-- A finalized module `b`, local source at `b`, that depends on `a`. -/
def modB : Module where
  addr := 1
  Source := some { Kind := .Local, SourceSubpath := "b" }
  NameField := "b"
  OriginalName := "b"
  Deps := some depsOnA
  Description := ""
  ObjectDefs := []
  InterfaceDefs := []
  EnumDefs := []

/-- The module `b` with an empty Dependency Set: it does not depend on `a`. -/
def modBAlone : Module :=
  { modB with Deps := some noDeps }

/-- An object `Bar` with one field `foo` whose type is the object `Foo` of `a`. -/
def barObj : ObjectTypeDef :=
  .mk "Bar" "Bar" "" none [.mk "foo" "foo" fooDef none] [] none

/-- An object `Baz` with a field named `Id`. -/
def bazObj : ObjectTypeDef :=
  .mk "Baz" "Baz" "" none [.mk "Id" "Id" (.mk .String false) none] [] none

/-- An object `Foo` as module `b` would extend it: a field `id` and a field typed by
`Foo` itself. -/
def fooExtendedObj : ObjectTypeDef :=
  .mk "Foo" "Foo" "" none
    [.mk "id" "id" (.mk .String false) none, .mk "self" "self" fooDef none] [] none

/-- An interface `Maker` with one function `make` that returns the object `Foo` of
`a` and takes an argument `from` of that type. -/
def makerIface : InterfaceTypeDef :=
  .mk "Maker" "Maker" "" none
    [.mk "make" "make" fooDef [.mk "from" "from" fooDef none] none]

/-- The object with the members of `Maker`. -/
def makerObj : ObjectTypeDef :=
  .mk "Maker" "Maker" "" none []
    [.mk "make" "make" fooDef [.mk "from" "from" fooDef none] none] none

/-- An object `Obj` with a field named `id`. -/
def objWithId : ObjectTypeDef :=
  .mk "Obj" "Obj" "" none [.mk "id" "id" (.mk .String false) none] [] none

/-- An interface `Iface` whose first function `first` returns `Obj` and whose second
function is named `id`. -/
def ifaceTwo : InterfaceTypeDef :=
  .mk "Iface" "Iface" "" none
    [.mk "first" "first" (.mk (.Object objWithId) false) [] none,
     .mk "id" "id" (.mk .String false) [] none]

/-- An interface `Named` whose only function is named `Id`. -/
def ifaceId : InterfaceTypeDef :=
  .mk "Named" "Named" "" none [.mk "Id" "Id" (.mk .String false) [] none]

/-- The canonical values of the enum `Color` that module `a` defines. -/
def colorValues : List EnumValueTypeDef :=
  [{ Name := "RED", OriginalName := "RED",
     SourceMap := some { Module := "a", Filename := "color.go", Line := 3, Column := 1 } }]

/-- The enum `Color` that module `a` defines. -/
def colorEnum : EnumTypeDef :=
  { Name := "Color", OriginalName := "Color", SourceModuleName := "a", SourceMap := none,
    Values := colorValues }

/-- A local copy of `Color` in module `b` with a stale value list. -/
def staleColorEnum : EnumTypeDef :=
  { Name := "Color", OriginalName := "Color", SourceModuleName := "", SourceMap := none,
    Values := [{ Name := "BLUE", OriginalName := "BLUE", SourceMap := none }] }

/-- The TypeDef of the local copy of `Color`. -/
def staleColorDef : TypeDef :=
  .mk (.Enum staleColorEnum) false

/-- A Dependency Set that holds module `a` with its enum: it resolves the enum named
`Color` to the enum type owned by `a` and nothing else. -/
def depsOnColor : ModDeps where
  ModTypeFor := fun t =>
    match t.Kind with
    | .Enum e => if e.Name = "Color" then .ok (some (.ModuleEnumType colorEnum modA)) else .ok none
    | _ => .ok none

/-- The module `b` depending on the module that defines `Color`. -/
def modBColor : Module :=
  { modB with Deps := some depsOnColor }

/-- The module `greet` as a dependency sees it. -/
def modGreet : Mod :=
  { addr := 200, Name := "greet" }

/-- The object `Greeter` of `greet`, with the function `Hello(name: String) -> String`. -/
def greeterObj : ObjectTypeDef :=
  .mk "Greeter" "Greeter" "greet" none []
    [.mk "hello" "Hello" (.mk .String false) [.mk "name" "name" (.mk .String false) none] none]
    none

/-- A Dependency Set that holds `greet`: it resolves the object named `Greeter`. -/
def depsOnGreet : ModDeps where
  ModTypeFor := fun t =>
    match t.Kind with
    | .Object o =>
      if o.Name = "Greeter" then .ok (some (.ModuleObjectType greeterObj modGreet))
      else .ok none
    | _ => .ok none

/-- A module that depends on `greet` and also holds a definition named `Greeter` of
its own. -/
def modCaller : Module where
  addr := 2
  Source := some { Kind := .Local, SourceSubpath := "caller" }
  NameField := "caller"
  OriginalName := "caller"
  Deps := some depsOnGreet
  Description := ""
  ObjectDefs := [.mk (.Object (.mk "Greeter" "Greeter" "" none [] [] none)) false]
  InterfaceDefs := []
  EnumDefs := []

/-- The TypeDef `Optional(List(Optional(Integer)))`. -/
def optListOptInt : TypeDef :=
  .mk (.List (.mk .Integer true)) true

/-- The TypeDef of `Greeter`, marked Optional. -/
def optGreeterDef : TypeDef :=
  .mk (.Object greeterObj) true

/-- The TypeDef of the scalar `Platform`. -/
def platformDef : TypeDef :=
  .mk (.Scalar { Name := "Platform", OriginalName := "Platform", SourceModuleName := "" }) false

/-- A Dependency Set that resolves the scalar named `Platform` to a type of the core
module and nothing else. -/
def depsOnPlatform : ModDeps where
  ModTypeFor := fun t =>
    match t.Kind with
    | .Scalar s =>
      if s.Name = "Platform" then
        .ok (some (.Other (some { addr := 0, Name := "daggercore" }) platformDef))
      else .ok none
    | _ => .ok none

/-- The module `caller` with interface and enum definitions of its own besides its
two objects named `Greeter`, the second with a field. -/
def modCallerFull : Module :=
  { modCaller with
    ObjectDefs := [.mk (.Object (.mk "Greeter" "Greeter" "" none [] [] none)) false,
      .mk (.Object (.mk "Greeter" "Second" "" none
        [.mk "n" "n" (.mk .Integer false) none] [] none)) false]
    InterfaceDefs := [.mk (.Interface ifaceId) false]
    EnumDefs := [staleColorDef] }

/-- Installers that never fail. -/
def installersOk : Installers where
  ModuleObject := fun _ _ _ => none
  InterfaceType := fun _ _ _ => none

/-- Installers that fail on the object named `First` and on nothing else. -/
def installersFirstFails : Installers where
  ModuleObject := fun _ _ obj => if obj.Name = "First" then some "cannot install" else none
  InterfaceType := fun _ _ _ => none

/-- The module `caller` holding an object `First` and then an object `Greeter`, which
its Dependency Set resolves to the object of `greet`, and an interface and an enum. -/
def modConflict : Module :=
  { modCaller with
    ObjectDefs := [.mk (.Object (.mk "First" "First" "" none [] [] none)) false,
      .mk (.Object greeterObj) false]
    InterfaceDefs := [.mk (.Interface ifaceId) false]
    EnumDefs := [staleColorDef] }

/-- The interface `Maker` that module `a` defines. -/
def makerOfA : InterfaceTypeDef :=
  .mk "Maker" "Maker" "a" none []

/-- A Dependency Set that holds module `a` with its interface: it resolves the
interface named `Maker` to the interface type owned by `a`, and the object named
`Foo` to the object type owned by `a`. -/
def depsOnMaker : ModDeps where
  ModTypeFor := fun t =>
    match t.Kind with
    | .Interface i =>
      if i.Name = "Maker" then .ok (some (.InterfaceType makerOfA modA)) else .ok none
    | .Object o => if o.Name = "Foo" then .ok (some (.ModuleObjectType fooObj modA)) else .ok none
    | _ => .ok none

/-- The module `b`, depending on `a`, that holds an interface named `Maker` of its
own. -/
def modBMaker : Module :=
  { modB with
    Deps := some depsOnMaker
    InterfaceDefs := [.mk (.Interface makerIface) false] }

/-- The module `b`, depending on `a`, that holds an object named `Foo` of its own. -/
def modBFoo : Module :=
  { modB with
    Deps := some depsOnMaker
    ObjectDefs := [.mk (.Object fooExtendedObj) false] }

/-- The module `b` with an empty Dependency Set and an object, an interface and an
enum. -/
def modBThree : Module :=
  { modBAlone with
    ObjectDefs := [.mk (.Object barObj) false]
    InterfaceDefs := [.mk (.Interface ifaceId) false]
    EnumDefs := [staleColorDef] }


/-- The module `caller` with a Dependency Set that resolves the scalar `Platform`. -/
def modPlatform : Module :=
  { modCaller with Deps := some depsOnPlatform }

/-- A module under raw construction: no name, no Dependency Set, no source. -/
def modRaw : Module where
  addr := 3
  Source := none
  NameField := ""
  OriginalName := ""
  Deps := none
  Description := ""
  ObjectDefs := [.mk (.Object barObj) false]
  InterfaceDefs := []
  EnumDefs := []

/-- A Dependency Set whose lookup fails on every TypeDef. -/
def depsFailing : ModDeps where
  ModTypeFor := fun _ => .error "lookup failed"

/-- A source map of module `a`. -/
def aSourceMap : SourceMap :=
  { Module := "a", Filename := "color.go", Line := 3, Column := 1 }

/-- An object `Taker` with one function `take` that returns a string and takes an
argument `from` typed by the object `Foo` of `a`. -/
def takerObj : ObjectTypeDef :=
  .mk "Taker" "Taker" "" none []
    [.mk "take" "take" (.mk .String false) [.mk "from" "from" fooDef none] none] none

/-- The module `b` with a Dependency Set whose lookup fails. -/
def modBFailing : Module :=
  { modB with Deps := some depsFailing, ObjectDefs := [.mk (.Object fooExtendedObj) false] }

/-- The module `b` holding its own object named `Foo`, next to the dependency on `a`
that defines an object of that name too. -/
def modBOwnFoo : Module :=
  { modB with ObjectDefs := [.mk (.Object fooExtendedObj) false] }

/-- The verb `%q` of Go on a text of printable ASCII characters: the text in double
quotes, with a backslash put before every double quote and every backslash of the
text. -/
def goQuote (s : String) : String :=
  "\"" ++ String.join (s.data.map fun c =>
    if c = Char.ofNat 34 ∨ c = Char.ofNat 92 then
      String.singleton (Char.ofNat 92) ++ String.singleton c
    else String.singleton c) ++ "\""

/-- The sample environment with `%q` as Go renders it. -/
def goEnv : Env :=
  { sampleEnv with quote := goQuote }

/-- An object whose name has a double quote in it, with a field typed by the object
`Foo` of `a`. -/
def quotedObj : ObjectTypeDef :=
  .mk "Ba\"z" "Ba\"z" "" none [.mk "foo" "foo" fooDef none] [] none

/-- The module `greet`, which holds the object `Greeter`. -/
def greetModule : Module where
  addr := 200
  Source := some { Kind := .Git, SourceSubpath := "" }
  NameField := "greet"
  OriginalName := "greet"
  Deps := none
  Description := ""
  ObjectDefs := [.mk (.Object greeterObj) false]
  InterfaceDefs := []
  EnumDefs := []

/-- The module `caller` with the module `greet` as its Dependency Set. -/
def modCallerOfGreet : Module :=
  { modCaller with Deps := some (ModDeps.ofModules sampleEnv [greetModule]) }

/-- A memory that holds the three definitions of `modBThree`: the object `Bar` at 10,
the interface `Named` at 11 and the enum `Color` at 12; the next allocation is at 20. -/
def defsHeap : Heap where
  typeDefs := fun a =>
    if a = 10 then some (.mk (.Object barObj) false)
    else if a = 11 then some (.mk (.Interface ifaceId) false)
    else if a = 12 then some staleColorDef
    else none
  next := 20

/-- The value `RED` of the enum `Color` with a source map in module `modName`, file
`file`. -/
def redAt (modName file : String) : EnumValueTypeDef :=
  { Name := "RED", OriginalName := "RED",
    SourceMap := some { Module := modName, Filename := file, Line := 3, Column := 1 } }

/-- The enum `Color` as module `a` holds it, with the values `values`. -/
def colorOfA (values : List EnumValueTypeDef) : TypeDef :=
  .mk (.Enum { colorEnum with Values := values }) false

/-- The local copy of `Color`, with the values `values`. -/
def colorCopy (values : List EnumValueTypeDef) : TypeDef :=
  .mk (.Enum { staleColorEnum with Values := values }) false

/-- The Dependency Set of `b` in memory: it resolves the enum named `Color` to the
enum of `a`, which is at address 20. -/
def colorMemDeps : MemDeps where
  ModTypeFor := fun enum => if enum.Name = "Color" then .ok (some 20) else .ok none

/-- The module `b` in memory: local source at `b`, depending on `a`, no definitions
yet. -/
def modBCell : ModuleCell where
  Source := some { Kind := .Local, SourceSubpath := "b" }
  NameField := "b"
  OriginalName := "b"
  Deps := some colorMemDeps
  EnumDefs := []

/-- The enum `Color` of `a` in memory, with its value at address 10. -/
def colorCell : EnumCell where
  Optional := false
  Name := "Color"
  OriginalName := "Color"
  SourceModuleName := "a"
  SourceMap := none
  Values := [10]

/-- The local copy of `Color` in memory, with its stale value at address 11. -/
def staleColorCell : EnumCell where
  Optional := false
  Name := "Color"
  OriginalName := "Color"
  SourceModuleName := ""
  SourceMap := none
  Values := [11]

/-- A memory with the module `b` at 1, the enum `Color` that the dependency `a` holds
at 20, its value `RED` at 10, and a local copy of `Color` at 21 with the stale value
`BLUE` at 11; the next allocation is at 30. -/
def colorMem : Mem where
  modules := fun a => if a = 1 then some modBCell else none
  enums := fun a =>
    if a = 20 then some colorCell else if a = 21 then some staleColorCell else none
  values := fun a =>
    if a = 10 then some (redAt "a" "color.go")
    else if a = 11 then some { Name := "BLUE", OriginalName := "BLUE", SourceMap := none }
    else none
  next := 30

/-- The memory after `namespaceTypeDef`, run by `b` with the path `b`, on the local
copy of `Color`. -/
def colorMemNamespaced : Mem :=
  (Mem.namespaceTypeDef sampleEnv modBCell "b" colorMem 21).1

/-- The memory after `WithEnum` on `b` with the local copy of `Color`. -/
def colorMemFirst : Mem :=
  (Mem.WithEnum sampleEnv colorMem 1 21).1

/-! ## Lemmas on the validator -/

theorem depsModTypeFor_of_deps {mod : Module} {d : ModDeps} (h : mod.Deps = some d)
    (t : TypeDef) :
    mod.depsModTypeFor t =
      match d.ModTypeFor t with
      | .ok r => .ok r
      | .error e => .error (.error e) := by
  simp [Module.depsModTypeFor, h]

theorem depsModTypeFor_error {mod : Module} {d : ModDeps} (h : mod.Deps = some d)
    (t : TypeDef) {f : Fault} (hf : mod.depsModTypeFor t = .error f) :
    ∃ e, f = .error e := by
  rw [depsModTypeFor_of_deps h] at hf
  split at hf
  · cases hf
  · cases hf; exact ⟨_, rfl⟩

theorem depsModTypeFor_ok {mod : Module} {d : ModDeps} (h : mod.Deps = some d)
    {t : TypeDef} {r : Option ModType} (hr : d.ModTypeFor t = .ok r) :
    mod.depsModTypeFor t = .ok r := by
  rw [depsModTypeFor_of_deps h, hr]

theorem leakedFrom_of_owner {env : Env} {mod : Module} {modType : ModType} {owner : Mod}
    (hown : modType.SourceMod = some owner) (hcore : owner.Name ≠ env.ModuleName)
    (hcur : owner.addr ≠ mod.addr) : leakedFrom env mod modType = some owner.Name := by
  simp [leakedFrom, hown, hcore, hcur]

theorem ownedByOther_of_owner {mod : Module} {modType : ModType} {owner : Mod}
    (hown : modType.SourceMod = some owner) (hcur : owner.addr ≠ mod.addr) :
    ownedByOther mod modType = true := by
  simp [ownedByOther, hown, hcur]

theorem error_of_noPanic_of_ne_ok {r : Except Fault Unit} (hp : NoPanic r)
    (hne : r ≠ .ok ()) : ∃ msg, r = .error (.error msg) := by
  match r, hp, hne with
  | .ok (), _, hne => exact absurd rfl hne
  | .error (.error msg), _, _ => exact ⟨msg, rfl⟩
  | .error (.panic msg), hp, _ => exact absurd rfl (hp msg)

mutual

theorem validateTypeDef_noPanic (env : Env) (mod : Module) (d : ModDeps)
    (h : mod.Deps = some d) : ∀ t : TypeDef, NoPanic (mod.validateTypeDef env t)
  | .mk (.List elem) _ => by
    simp only [Module.validateTypeDef]
    exact validateTypeDef_noPanic env mod d h elem
  | .mk (.Object obj) opt => by
    simp only [Module.validateTypeDef]
    exact validateObjectTypeDef_noPanic env mod d h _ obj
  | .mk (.Interface iface) opt => by
    simp only [Module.validateTypeDef]
    exact validateInterfaceTypeDef_noPanic env mod d h _ iface
  | .mk .String _ => by simp [Module.validateTypeDef, NoPanic]
  | .mk .Integer _ => by simp [Module.validateTypeDef, NoPanic]
  | .mk .Float _ => by simp [Module.validateTypeDef, NoPanic]
  | .mk .Boolean _ => by simp [Module.validateTypeDef, NoPanic]
  | .mk .Void _ => by simp [Module.validateTypeDef, NoPanic]
  | .mk (.Scalar _) _ => by simp [Module.validateTypeDef, NoPanic]
  | .mk (.Enum _) _ => by simp [Module.validateTypeDef, NoPanic]
  | .mk (.Other _) _ => by simp [Module.validateTypeDef, NoPanic]

theorem validateObjectTypeDef_noPanic (env : Env) (mod : Module) (d : ModDeps)
    (h : mod.Deps = some d) (t : TypeDef) :
    ∀ obj : ObjectTypeDef, NoPanic (mod.validateObjectTypeDef env t obj)
  | .mk name originalName _ _ fields functions _ => by
    intro msg hm
    simp only [Module.validateObjectTypeDef] at hm
    split at hm
    · rename_i f hf
      obtain ⟨e, rfl⟩ := depsModTypeFor_error h t hf
      simp [Fault.wrap] at hm
    · split at hm
      · cases hm
      · split at hm
        · rename_i f hf
          cases hm
          exact validateObjectFields_noPanic env mod d h name originalName fields msg hf
        · exact validateObjectFunctions_noPanic env mod d h name originalName functions msg hm

theorem validateObjectFields_noPanic (env : Env) (mod : Module) (d : ModDeps)
    (h : mod.Deps = some d) (n o : String) :
    ∀ fs : List FieldTypeDef, NoPanic (mod.validateObjectFields env n o fs)
  | [] => by simp [Module.validateObjectFields, NoPanic]
  | .mk name originalName ft _ :: rest => by
    intro msg hm
    simp only [Module.validateObjectFields] at hm
    split at hm
    · cases hm
    · split at hm
      · rename_i f hf
        obtain ⟨e, rfl⟩ := depsModTypeFor_error h ft hf
        simp [Fault.wrap] at hm
      · split at hm
        · cases hm
        · split at hm
          · rename_i f hf
            cases hm
            exact validateTypeDef_noPanic env mod d h ft msg hf
          · exact validateObjectFields_noPanic env mod d h n o rest msg hm

theorem validateObjectFunctions_noPanic (env : Env) (mod : Module) (d : ModDeps)
    (h : mod.Deps = some d) (n o : String) :
    ∀ fns : List Function, NoPanic (mod.validateObjectFunctions env n o fns)
  | [] => by simp [Module.validateObjectFunctions, NoPanic]
  | .mk name originalName ret args _ :: rest => by
    intro msg hm
    simp only [Module.validateObjectFunctions] at hm
    split at hm
    · cases hm
    · split at hm
      · rename_i f hf
        obtain ⟨e, rfl⟩ := depsModTypeFor_error h ret hf
        simp [Fault.wrap] at hm
      · split at hm
        · cases hm
        · split at hm
          · rename_i f hf
            cases hm
            exact validateTypeDef_noPanic env mod d h ret msg hf
          · split at hm
            · rename_i f hf
              cases hm
              exact validateObjectArgs_noPanic env mod d h o originalName args msg hf
            · exact validateObjectFunctions_noPanic env mod d h n o rest msg hm

theorem validateObjectArgs_noPanic (env : Env) (mod : Module) (d : ModDeps)
    (h : mod.Deps = some d) (o fo : String) :
    ∀ as : List FunctionArg, NoPanic (mod.validateObjectArgs env o fo as)
  | [] => by simp [Module.validateObjectArgs, NoPanic]
  | .mk _ originalName at_ _ :: rest => by
    intro msg hm
    simp only [Module.validateObjectArgs] at hm
    split at hm
    · rename_i f hf
      obtain ⟨e, rfl⟩ := depsModTypeFor_error h at_ hf
      simp [Fault.wrap] at hm
    · split at hm
      · cases hm
      · split at hm
        · rename_i f hf
          cases hm
          exact validateTypeDef_noPanic env mod d h at_ msg hf
        · exact validateObjectArgs_noPanic env mod d h o fo rest msg hm

theorem validateInterfaceTypeDef_noPanic (env : Env) (mod : Module) (d : ModDeps)
    (h : mod.Deps = some d) (t : TypeDef) :
    ∀ iface : InterfaceTypeDef, NoPanic (mod.validateInterfaceTypeDef env t iface)
  | .mk name _ _ _ functions => by
    intro msg hm
    simp only [Module.validateInterfaceTypeDef] at hm
    split at hm
    · rename_i f hf
      obtain ⟨e, rfl⟩ := depsModTypeFor_error h t hf
      simp [Fault.wrap] at hm
    · split at hm
      · cases hm
      · exact validateInterfaceFunctions_noPanic env mod d h name functions msg hm

theorem validateInterfaceFunctions_noPanic (env : Env) (mod : Module) (d : ModDeps)
    (h : mod.Deps = some d) (n : String) :
    ∀ fns : List Function, NoPanic (mod.validateInterfaceFunctions env n fns)
  | [] => by simp [Module.validateInterfaceFunctions, NoPanic]
  | .mk name _ ret args _ :: rest => by
    intro msg hm
    simp only [Module.validateInterfaceFunctions] at hm
    split at hm
    · cases hm
    · split at hm
      · rename_i f hf
        cases hm
        exact validateTypeDef_noPanic env mod d h ret msg hf
      · split at hm
        · rename_i f hf
          cases hm
          exact validateInterfaceArgs_noPanic env mod d h args msg hf
        · exact validateInterfaceFunctions_noPanic env mod d h n rest msg hm

theorem validateInterfaceArgs_noPanic (env : Env) (mod : Module) (d : ModDeps)
    (h : mod.Deps = some d) :
    ∀ as : List FunctionArg, NoPanic (mod.validateInterfaceArgs env as)
  | [] => by simp [Module.validateInterfaceArgs, NoPanic]
  | .mk _ _ at_ _ :: rest => by
    intro msg hm
    simp only [Module.validateInterfaceArgs] at hm
    split at hm
    · rename_i f hf
      cases hm
      exact validateTypeDef_noPanic env mod d h at_ msg hf
    · exact validateInterfaceArgs_noPanic env mod d h rest msg hm

end

theorem depsModTypeFor_of_leaks {env : Env} {mod : Module} {t : TypeDef}
    (h : mod.Leaks env t) :
    ∃ modType owner, mod.depsModTypeFor t = .ok (some modType) ∧
      leakedFrom env mod modType = some owner := by
  obtain ⟨d, modType, owner, hd, hr, hown, hcore, hcur⟩ := h
  exact ⟨modType, owner.Name, depsModTypeFor_ok hd hr, leakedFrom_of_owner hown hcore hcur⟩

/-- The loop over the fields does not finish without error when a field has a
reserved name or a leaking type. -/
theorem validateObjectFields_ne_ok (env : Env) (mod : Module) (n o : String) :
    ∀ fs : List FieldTypeDef,
      (∃ f ∈ fs, env.gqlFieldName f.Name = "id" ∨ mod.Leaks env f.TypeDef) →
      mod.validateObjectFields env n o fs ≠ .ok ()
  | [], h => by simp at h
  | .mk name originalName ft sm :: rest, h => by
    intro hok
    simp only [Module.validateObjectFields] at hok
    split at hok
    · cases hok
    · rename_i hid
      split at hok
      · cases hok
      · rename_i r hr
        split at hok
        · cases hok
        · rename_i hleak
          split at hok
          · cases hok
          · obtain ⟨f, hf, hbad⟩ := h
            rcases List.mem_cons.mp hf with rfl | hf
            · rcases hbad with hbad | hbad
              · exact hid hbad
              · obtain ⟨modType, owner, h1, h2⟩ := depsModTypeFor_of_leaks hbad
                simp only [FieldTypeDef.TypeDef] at h1
                rw [h1] at hr
                cases hr
                simp [h2] at hleak
            · exact validateObjectFields_ne_ok env mod n o rest ⟨f, hf, hbad⟩ hok

/-- The loop over the arguments does not finish without error when an argument has a
leaking type. -/
theorem validateObjectArgs_ne_ok (env : Env) (mod : Module) (o fo : String) :
    ∀ as : List FunctionArg, (∃ a ∈ as, mod.Leaks env a.TypeDef) →
      mod.validateObjectArgs env o fo as ≠ .ok ()
  | [], h => by simp at h
  | .mk name originalName at_ sm :: rest, h => by
    intro hok
    simp only [Module.validateObjectArgs] at hok
    split at hok
    · cases hok
    · rename_i r hr
      split at hok
      · cases hok
      · rename_i hleak
        split at hok
        · cases hok
        · obtain ⟨a, ha, hbad⟩ := h
          rcases List.mem_cons.mp ha with rfl | ha
          · obtain ⟨modType, owner, h1, h2⟩ := depsModTypeFor_of_leaks hbad
            simp only [FunctionArg.TypeDef] at h1
            rw [h1] at hr
            cases hr
            simp [h2] at hleak
          · exact validateObjectArgs_ne_ok env mod o fo rest ⟨a, ha, hbad⟩ hok

/-- The loop over the functions does not finish without error when a function has a
reserved name, a leaking return type or a leaking argument type. -/
theorem validateObjectFunctions_ne_ok (env : Env) (mod : Module) (n o : String) :
    ∀ fns : List Function,
      (∃ fn ∈ fns, env.gqlFieldName fn.Name = "id" ∨ mod.Leaks env fn.ReturnType ∨
        ∃ a ∈ fn.Args, mod.Leaks env a.TypeDef) →
      mod.validateObjectFunctions env n o fns ≠ .ok ()
  | [], h => by simp at h
  | .mk name originalName ret args sm :: rest, h => by
    intro hok
    simp only [Module.validateObjectFunctions] at hok
    split at hok
    · cases hok
    · rename_i hid
      split at hok
      · cases hok
      · rename_i r hr
        split at hok
        · cases hok
        · rename_i hleak
          split at hok
          · cases hok
          · split at hok
            · cases hok
            · rename_i hargs
              obtain ⟨fn, hfn, hbad⟩ := h
              rcases List.mem_cons.mp hfn with rfl | hfn
              · rcases hbad with hbad | hbad | hbad
                · exact hid hbad
                · obtain ⟨modType, owner, h1, h2⟩ := depsModTypeFor_of_leaks hbad
                  simp only [Function.ReturnType] at h1
                  rw [h1] at hr
                  cases hr
                  simp [h2] at hleak
                · exact validateObjectArgs_ne_ok env mod o originalName args hbad hargs
              · exact validateObjectFunctions_ne_ok env mod n o rest ⟨fn, hfn, hbad⟩ hok

/-- An object that the Dependency Set does not attribute to another module is
rejected when a member has a reserved name or a leaking type. -/
theorem validateObjectTypeDef_error (env : Env) (mod : Module) (d : ModDeps)
    (obj : ObjectTypeDef) (opt : Bool) (hdeps : mod.Deps = some d)
    (hself : ∀ modType, d.ModTypeFor (.mk (.Object obj) opt) = .ok (some modType) →
      ownedByOther mod modType = false)
    (hbad : (∃ f ∈ obj.Fields, env.gqlFieldName f.Name = "id" ∨ mod.Leaks env f.TypeDef) ∨
      ∃ fn ∈ obj.Functions, env.gqlFieldName fn.Name = "id" ∨ mod.Leaks env fn.ReturnType ∨
        ∃ a ∈ fn.Args, mod.Leaks env a.TypeDef) :
    ∃ msg, mod.validateTypeDef env (.mk (.Object obj) opt) = .error (.error msg) := by
  apply error_of_noPanic_of_ne_ok (validateTypeDef_noPanic env mod d hdeps _)
  obtain ⟨name, originalName, smn, sm, fields, functions, ctor⟩ := obj
  intro hok
  simp only [Module.validateTypeDef, Module.validateObjectTypeDef] at hok
  rw [depsModTypeFor_of_deps hdeps] at hok
  split at hok
  · cases hok
  · rename_i r hr
    split at hr
    · rename_i r' hr'
      cases hr
      split at hok
      · rename_i hown
        split at hown
        · rename_i modType
          rw [hself modType hr'] at hown
          cases hown
        · cases hown
      · split at hok
        · cases hok
        · rename_i hfields
          rcases hbad with hbad | hbad
          · exact validateObjectFields_ne_ok env mod name originalName fields hbad hfields
          · exact validateObjectFunctions_ne_ok env mod name originalName functions hbad hok
    · cases hr

/-- A failed validation fails the builder step. -/
theorem validateAndNamespace_error (env : Env) (mod : Module) (d : ModDeps) (t : TypeDef)
    (hdeps : mod.Deps = some d) {msg : String}
    (h : mod.validateTypeDef env t = .error (.error msg)) :
    mod.validateAndNamespace env t =
      .error (.error ("failed to validate type def: " ++ msg)) := by
  simp [Module.validateAndNamespace, hdeps, h, wrapErr, Fault.wrap]

theorem WithObject_error_of_validate (env : Env) (orig : Module) (fresh : Nat) (d : ModDeps)
    (obj : ObjectTypeDef) (opt : Bool) (hdeps : (orig.Clone fresh).Deps = some d)
    {msg : String}
    (h : (orig.Clone fresh).validateTypeDef env (.mk (.Object obj) opt) = .error (.error msg)) :
    orig.WithObject env fresh (.mk (.Object obj) opt) =
      .error (.error ("failed to validate type def: " ++ msg)) := by
  simp [Module.WithObject, TypeDef.Kind, validateAndNamespace_error env _ d _ hdeps h]

theorem ownedByOther_eq_false_of_self {mod : Module} {modType : ModType}
    (h : ∀ owner, modType.SourceMod = some owner → owner.addr = mod.addr) :
    ownedByOther mod modType = false := by
  unfold ownedByOther
  split
  · rfl
  · rename_i owner hown
    simp [h owner hown]

/-! ## The validator -/

/-- C1. An object that the Dependency Set does not itself resolve is rejected by
`validateTypeDef` when some field type, function return type or function argument
type is resolved by the Dependency Set to a type whose owning module is not nil, is
not the core module and is not the current module; and `WithObject`, whose clone is
that current module, fails with it. -/
theorem validateTypeDef_object_leak (env : Env) (mod : Module) (d : ModDeps)
    (obj : ObjectTypeDef) (opt : Bool) (t : TypeDef) (modType : ModType) (owner : Mod)
    (hdeps : mod.Deps = some d)
    (hself : d.ModTypeFor (.mk (.Object obj) opt) = .ok none)
    (hmem : (∃ f ∈ obj.Fields, f.TypeDef = t) ∨
      ∃ fn ∈ obj.Functions, fn.ReturnType = t ∨ ∃ a ∈ fn.Args, a.TypeDef = t)
    (hres : d.ModTypeFor t = .ok (some modType))
    (hown : modType.SourceMod = some owner)
    (hcore : owner.Name ≠ env.ModuleName)
    (hcur : owner.addr ≠ mod.addr) :
    (∃ msg, mod.validateTypeDef env (.mk (.Object obj) opt) = .error (.error msg)) ∧
    ∀ orig : Module, orig.Clone mod.addr = mod →
      ∃ msg, orig.WithObject env mod.addr (.mk (.Object obj) opt) = .error (.error msg) := by
  have hleak : mod.Leaks env t := ⟨d, modType, owner, hdeps, hres, hown, hcore, hcur⟩
  have hv : ∃ msg, mod.validateTypeDef env (.mk (.Object obj) opt) = .error (.error msg) := by
    apply validateObjectTypeDef_error env mod d obj opt hdeps
    · intro modType' h'
      rw [hself] at h'
      cases h'
    · rcases hmem with ⟨f, hf, rfl⟩ | ⟨fn, hfn, rfl | ⟨a, ha, rfl⟩⟩
      · exact Or.inl ⟨f, hf, Or.inr hleak⟩
      · exact Or.inr ⟨fn, hfn, Or.inr (Or.inl hleak)⟩
      · exact Or.inr ⟨fn, hfn, Or.inr (Or.inr ⟨a, ha, hleak⟩)⟩
  refine ⟨hv, ?_⟩
  intro orig horig
  obtain ⟨msg, hmsg⟩ := hv
  rw [← horig] at hdeps hmsg
  exact ⟨_, WithObject_error_of_validate env orig mod.addr d obj opt hdeps hmsg⟩

theorem validateTypeDef_object_leak_witness :
    (∃ msg, modB.validateTypeDef sampleEnv (.mk (.Object barObj) false)
      = .error (.error msg)) ∧
    ∃ msg, modB.WithObject sampleEnv 1 (.mk (.Object barObj) false) = .error (.error msg) :=
  have h := validateTypeDef_object_leak sampleEnv modB depsOnA barObj false fooDef
    (.ModuleObjectType fooObj modA) modA rfl rfl
    (Or.inl ⟨.mk "foo" "foo" fooDef none, by simp [barObj, ObjectTypeDef.Fields], rfl⟩)
    rfl rfl (by decide) (by decide)
  ⟨h.1, h.2 modB rfl⟩

/-- C3. An object that the Dependency Set does not resolve to a type owned by another
module is rejected by `validateTypeDef` when a field or a function has a name whose
normalized form is `id`. -/
theorem validateTypeDef_object_reserved_name (env : Env) (mod : Module) (d : ModDeps)
    (obj : ObjectTypeDef) (opt : Bool)
    (hdeps : mod.Deps = some d)
    (hself : ∀ modType owner, d.ModTypeFor (.mk (.Object obj) opt) = .ok (some modType) →
      modType.SourceMod = some owner → owner.addr = mod.addr)
    (hid : (∃ f ∈ obj.Fields, env.gqlFieldName f.Name = "id") ∨
      ∃ fn ∈ obj.Functions, env.gqlFieldName fn.Name = "id") :
    ∃ msg, mod.validateTypeDef env (.mk (.Object obj) opt) = .error (.error msg) := by
  apply validateObjectTypeDef_error env mod d obj opt hdeps
  · intro modType h'
    exact ownedByOther_eq_false_of_self (fun owner hown => hself modType owner h' hown)
  · rcases hid with ⟨f, hf, h⟩ | ⟨fn, hfn, h⟩
    · exact Or.inl ⟨f, hf, Or.inl h⟩
    · exact Or.inr ⟨fn, hfn, Or.inl h⟩

theorem validateTypeDef_object_reserved_name_witness :
    ∃ msg, modB.validateTypeDef sampleEnv (.mk (.Object bazObj) false) = .error (.error msg) :=
  validateTypeDef_object_reserved_name sampleEnv modB depsOnA bazObj false rfl
    (fun _ _ h => by cases h)
    (Or.inl ⟨.mk "Id" "Id" (.mk .String false) none, by simp [bazObj, ObjectTypeDef.Fields],
      by decide⟩)

/-- C6. An object or interface that the Dependency Set resolves to a type whose owning
module is not nil and is not the current module passes `validateTypeDef`, whatever
its fields and functions are. -/
theorem validateTypeDef_short_circuit (env : Env) (mod : Module) (d : ModDeps)
    (t : TypeDef) (modType : ModType) (owner : Mod)
    (hkind : (∃ obj, t.Kind = .Object obj) ∨ ∃ iface, t.Kind = .Interface iface)
    (hdeps : mod.Deps = some d)
    (hres : d.ModTypeFor t = .ok (some modType))
    (hown : modType.SourceMod = some owner)
    (hcur : owner.addr ≠ mod.addr) :
    mod.validateTypeDef env t = .ok () := by
  obtain ⟨k, opt⟩ := t
  rcases hkind with ⟨obj, hk⟩ | ⟨iface, hk⟩
  · simp only [TypeDef.Kind] at hk
    subst hk
    obtain ⟨name, originalName, smn, sm, fields, functions, ctor⟩ := obj
    simp only [Module.validateTypeDef, Module.validateObjectTypeDef]
    simp [depsModTypeFor_ok hdeps hres, ownedByOther_of_owner hown hcur]
  · simp only [TypeDef.Kind] at hk
    subst hk
    obtain ⟨name, originalName, smn, sm, functions⟩ := iface
    simp only [Module.validateTypeDef, Module.validateInterfaceTypeDef]
    simp [depsModTypeFor_ok hdeps hres, ownedByOther_of_owner hown hcur]

theorem validateTypeDef_short_circuit_witness :
    modB.validateTypeDef sampleEnv (.mk (.Object fooExtendedObj) false) = .ok () :=
  validateTypeDef_short_circuit sampleEnv modB depsOnA (.mk (.Object fooExtendedObj) false)
    (.ModuleObjectType fooObj modA) modA (Or.inl ⟨_, rfl⟩) rfl rfl rfl (by decide)

/-- C2. The interface `Maker`, which the Dependency Set of `b` does not resolve, has a
function whose return type and argument type the Dependency Set resolves to `Foo`,
owned by the dependency `a` (not the core module, not `b`); `validateTypeDef`
accepts it and `WithInterface` adds it, while the object with the same members is
rejected. -/
theorem validateTypeDef_interface_leak_accepted :
    depsOnA.ModTypeFor (.mk (.Interface makerIface) false) = .ok none ∧
    depsOnA.ModTypeFor fooDef = .ok (some (.ModuleObjectType fooObj modA)) ∧
    (ModType.ModuleObjectType fooObj modA).SourceMod = some modA ∧
    modA.Name ≠ sampleEnv.ModuleName ∧ modA.addr ≠ modB.addr ∧
    modB.validateTypeDef sampleEnv (.mk (.Interface makerIface) false) = .ok () ∧
    (∃ m, modB.WithInterface sampleEnv 1 (.mk (.Interface makerIface) false) = .ok m) ∧
    modB.validateTypeDef sampleEnv (.mk (.Object makerObj) false) =
      .error (.error ("object \"Maker\" function \"make\" cannot return external type "
        ++ "from dependency module \"a\"")) :=
  ⟨rfl, rfl, rfl, by decide, by decide, rfl, ⟨_, rfl⟩, rfl⟩

/-! ## Error messages -/

theorem msgContains_mid (a part b : String) : msgContains (a ++ part ++ b) part := by
  refine ⟨a.data, b.data, ?_⟩
  simp [String.data_append]

theorem msgContains_end (a part : String) : msgContains (a ++ part) part := by
  refine ⟨a.data, [], ?_⟩
  simp [String.data_append]

theorem msgContains_append_left {msg part : String} (b : String)
    (h : msgContains msg part) : msgContains (msg ++ b) part := by
  obtain ⟨s, t, hst⟩ := h
  refine ⟨s, t ++ b.data, ?_⟩
  simp [String.data_append, ← hst]

theorem msgContains_append_right {msg part : String} (a : String)
    (h : msgContains msg part) : msgContains (a ++ msg) part := by
  obtain ⟨s, t, hst⟩ := h
  refine ⟨a.data ++ s, t, ?_⟩
  simp [String.data_append, ← hst]

/-- The loop over the functions of an interface does not finish without error when a
function has a reserved name. -/
theorem validateInterfaceFunctions_ne_ok (env : Env) (mod : Module) (n : String) :
    ∀ fns : List Function, (∃ fn ∈ fns, env.gqlFieldName fn.Name = "id") →
      mod.validateInterfaceFunctions env n fns ≠ .ok ()
  | [], h => by simp at h
  | .mk name originalName ret args sm :: rest, h => by
    intro hok
    simp only [Module.validateInterfaceFunctions] at hok
    split at hok
    · cases hok
    · rename_i hid
      split at hok
      · cases hok
      · split at hok
        · cases hok
        · obtain ⟨fn, hfn, hbad⟩ := h
          rcases List.mem_cons.mp hfn with rfl | hfn
          · exact hid hbad
          · exact validateInterfaceFunctions_ne_ok env mod n rest ⟨fn, hfn, hbad⟩ hok

/-- The loop over the functions of an interface, after functions that pass, goes on
with the rest. -/
theorem validateInterfaceFunctions_append (env : Env) (mod : Module) (n : String)
    (rest : List Function) :
    ∀ pre : List Function, mod.validateInterfaceFunctions env n pre = .ok () →
      mod.validateInterfaceFunctions env n (pre ++ rest)
        = mod.validateInterfaceFunctions env n rest
  | [], _ => rfl
  | .mk name originalName ret args sm :: pre, h => by
    simp only [Module.validateInterfaceFunctions] at h
    simp only [List.cons_append, Module.validateInterfaceFunctions]
    split at h
    · cases h
    · rename_i hid
      rw [if_neg hid]
      split at h
      · cases h
      · split at h
        · cases h
        · exact validateInterfaceFunctions_append env mod n rest pre h

/-- The loop over the fields of an object, after fields that pass, goes on with the
rest. -/
theorem validateObjectFields_append (env : Env) (mod : Module) (n o : String)
    (rest : List FieldTypeDef) :
    ∀ pre : List FieldTypeDef, mod.validateObjectFields env n o pre = .ok () →
      mod.validateObjectFields env n o (pre ++ rest)
        = mod.validateObjectFields env n o rest
  | [], _ => rfl
  | .mk name originalName ft sm :: pre, h => by
    simp only [Module.validateObjectFields] at h
    simp only [List.cons_append, Module.validateObjectFields]
    split at h
    · cases h
    · rename_i hid
      rw [if_neg hid]
      split at h
      · cases h
      · split at h
        · cases h
        · split at h
          · cases h
          · exact validateObjectFields_append env mod n o rest pre h

/-- C4, the claim as stated fails: the interface `Iface` is not resolved by the
Dependency Set and has a function named `id`, and `validateTypeDef` returns the error
of the object `Obj` that an earlier function returns; the message does not contain
the name `Iface`. -/
theorem validateTypeDef_interface_reserved_name_counterexample :
    modB.Deps = some depsOnA ∧
    depsOnA.ModTypeFor (.mk (.Interface ifaceTwo) false) = .ok none ∧
    (∃ fn ∈ ifaceTwo.Functions, fn.Name = "id" ∧ sampleEnv.gqlFieldName fn.Name = "id") ∧
    modB.validateTypeDef sampleEnv (.mk (.Interface ifaceTwo) false) =
      .error (.error "cannot define field with reserved name \"id\" on object \"Obj\"") ∧
    ¬ msgContains "cannot define field with reserved name \"id\" on object \"Obj\""
      ifaceTwo.Name :=
  ⟨rfl, rfl, ⟨.mk "id" "id" (.mk .String false) [] none,
    by simp [ifaceTwo, InterfaceTypeDef.Functions], rfl, by decide⟩, rfl, by decide⟩

/-- C4, amended. An interface that the Dependency Set does not resolve to a type
owned by another module is rejected by `validateTypeDef` when a function has a name
whose normalized form is `id`; and when the lookup of the interface returns without
error and the functions before that one pass, the error is the reserved-name error
of that function, whose message contains the function's name and the interface's
name as `%q` renders them. -/
theorem validateTypeDef_interface_reserved_name (env : Env) (mod : Module) (d : ModDeps)
    (name originalName srcModName : String) (sourceMap : Option SourceMap)
    (pre post : List Function) (fn : Function) (opt : Bool)
    (hdeps : mod.Deps = some d)
    (hself : ∀ modType owner,
      d.ModTypeFor (.mk (.Interface (.mk name originalName srcModName sourceMap
        (pre ++ fn :: post))) opt) = .ok (some modType) →
      modType.SourceMod = some owner → owner.addr = mod.addr)
    (hid : env.gqlFieldName fn.Name = "id") :
    (∃ msg, mod.validateTypeDef env (.mk (.Interface (.mk name originalName srcModName
      sourceMap (pre ++ fn :: post))) opt) = .error (.error msg)) ∧
    ((∃ r, d.ModTypeFor (.mk (.Interface (.mk name originalName srcModName sourceMap
        (pre ++ fn :: post))) opt) = .ok r) →
      mod.validateInterfaceFunctions env name pre = .ok () →
      ∃ msg, mod.validateTypeDef env (.mk (.Interface (.mk name originalName srcModName
          sourceMap (pre ++ fn :: post))) opt) = .error (.error msg) ∧
        msg = "cannot define function with reserved name " ++ env.quote fn.Name
          ++ " on interface " ++ env.quote name ∧
        msgContains msg (env.quote fn.Name) ∧ msgContains msg (env.quote name)) := by
  have hstep : ∀ r, d.ModTypeFor (.mk (.Interface (.mk name originalName srcModName sourceMap
      (pre ++ fn :: post))) opt) = .ok r →
      mod.validateTypeDef env (.mk (.Interface (.mk name originalName srcModName
        sourceMap (pre ++ fn :: post))) opt)
        = mod.validateInterfaceFunctions env name (pre ++ fn :: post) := by
    intro r hr
    simp only [Module.validateTypeDef, Module.validateInterfaceTypeDef]
    rw [depsModTypeFor_ok hdeps hr]
    cases r with
    | none => simp
    | some modType =>
      have := @ownedByOther_eq_false_of_self mod modType
        (fun owner hown => hself modType owner hr hown)
      simp [this]
  constructor
  · apply error_of_noPanic_of_ne_ok (validateTypeDef_noPanic env mod d hdeps _)
    intro hok
    cases hr : d.ModTypeFor (.mk (.Interface (.mk name originalName srcModName sourceMap
      (pre ++ fn :: post))) opt) with
    | error e =>
      simp only [Module.validateTypeDef, Module.validateInterfaceTypeDef] at hok
      rw [depsModTypeFor_of_deps hdeps, hr] at hok
      cases hok
    | ok r =>
      rw [hstep r hr] at hok
      exact validateInterfaceFunctions_ne_ok env mod name _ ⟨fn, by simp, hid⟩ hok
  · rintro ⟨r, hr⟩ hpre
    refine ⟨_, ?_, rfl, ?_, ?_⟩
    · rw [hstep r hr, validateInterfaceFunctions_append env mod name _ pre hpre]
      obtain ⟨fname, forig, ret, args, fsm⟩ := fn
      simp only [Function.Name] at hid
      simp [Module.validateInterfaceFunctions, hid, Function.Name]
    · exact msgContains_append_left _ (msgContains_append_left _ (msgContains_end _ _))
    · exact msgContains_end _ _

theorem validateTypeDef_interface_reserved_name_witness :
    (∃ msg, modB.validateTypeDef sampleEnv (.mk (.Interface ifaceId) false)
      = .error (.error msg)) ∧
    ∃ msg, modB.validateTypeDef sampleEnv (.mk (.Interface ifaceId) false)
        = .error (.error msg) ∧
      msg = "cannot define function with reserved name " ++ sampleEnv.quote "Id"
        ++ " on interface " ++ sampleEnv.quote "Named" ∧
      msgContains msg (sampleEnv.quote "Id") ∧ msgContains msg (sampleEnv.quote "Named") :=
  have h := validateTypeDef_interface_reserved_name sampleEnv modB depsOnA "Named" "Named" ""
    none [] [] (.mk "Id" "Id" (.mk .String false) [] none) false rfl
    (fun _ _ h => by cases h) (by decide)
  ⟨h.1, h.2 ⟨none, rfl⟩ rfl⟩

/-- C5, the claim as stated fails: module `b` has a Dependency Set that does not hold
`a` and does not resolve `Foo`; `WithObject` on `b` with the object `Bar`, whose field
type is the `Foo` of `a`, returns a module and no error, and `Foo` is namespaced as a
type of `b`. -/
theorem WithObject_leak_without_dependency_counterexample :
    modBAlone.Deps = some noDeps ∧ noDeps.ModTypeFor fooDef = .ok none ∧
    (∃ f ∈ barObj.Fields, f.TypeDef = fooDef) ∧
    ∃ m, modBAlone.WithObject sampleEnv 2 (.mk (.Object barObj) false) = .ok m ∧
      m.ObjectDefs = [.mk (.Object (.mk "bBar" "Bar" "" none
        [.mk "foo" "foo" (.mk (.Object (.mk "bFoo" "Foo" "a" none [] [] none)) false) none]
        [] none)) false] :=
  ⟨rfl, rfl, ⟨.mk "foo" "foo" fooDef none, by simp [barObj, ObjectTypeDef.Fields], rfl⟩,
    _, rfl, rfl⟩

/-- C5, amended. Given module A defining `Foo` and a module B whose Dependency Set
resolves `Foo` to the type owned by A (A is not the core module and not B's clone),
`WithObject` on B with an object that the Dependency Set does not resolve, whose
fields before `f` pass and whose field `f` has type `Foo` and no reserved name,
fails with the error that names the object, the field `f` and module A, as `%q`
renders them. -/
theorem WithObject_leak_with_dependency (env : Env) (orig : Module) (fresh : Nat)
    (d : ModDeps) (name originalName srcModName : String) (sourceMap : Option SourceMap)
    (pre post : List FieldTypeDef) (f : FieldTypeDef) (functions : List Function)
    (ctor : Option Function) (opt : Bool) (foo : ModType) (modA : Mod)
    (hdeps : orig.Deps = some d)
    (hself : d.ModTypeFor (.mk (.Object (.mk name originalName srcModName sourceMap
      (pre ++ f :: post) functions ctor)) opt) = .ok none)
    (hpre : (orig.Clone fresh).validateObjectFields env name originalName pre = .ok ())
    (hname : env.gqlFieldName f.Name ≠ "id")
    (hres : d.ModTypeFor f.TypeDef = .ok (some foo))
    (hown : foo.SourceMod = some modA)
    (hcore : modA.Name ≠ env.ModuleName)
    (hcur : modA.addr ≠ fresh) :
    ∃ msg, orig.WithObject env fresh (.mk (.Object (.mk name originalName srcModName
        sourceMap (pre ++ f :: post) functions ctor)) opt) = .error (.error msg) ∧
      msg = "failed to validate type def: " ++ ("object " ++ env.quote originalName
        ++ " field " ++ env.quote f.OriginalName
        ++ " cannot reference external type from dependency module "
        ++ env.quote modA.Name) ∧
      msgContains msg (env.quote originalName) ∧ msgContains msg (env.quote f.OriginalName) ∧
      msgContains msg (env.quote modA.Name) := by
  have hd : (orig.Clone fresh).Deps = some d := hdeps
  have hcur' : modA.addr ≠ (orig.Clone fresh).addr := hcur
  refine ⟨_, ?_, rfl, ?_, ?_, ?_⟩
  · apply WithObject_error_of_validate env orig fresh d _ opt hd
    simp only [Module.validateTypeDef, Module.validateObjectTypeDef]
    rw [depsModTypeFor_ok hd hself]
    simp only [Bool.false_eq_true, if_false]
    rw [validateObjectFields_append env _ name originalName _ pre hpre]
    obtain ⟨fname, forig, ft, fsm⟩ := f
    simp only [FieldTypeDef.Name, FieldTypeDef.TypeDef, FieldTypeDef.OriginalName] at *
    simp only [Module.validateObjectFields, if_neg hname, depsModTypeFor_ok hd hres,
      leakedFrom_of_owner hown hcore hcur']
  · exact msgContains_append_right _ (msgContains_append_left _ (msgContains_append_left _
      (msgContains_append_left _ (msgContains_append_left _ (msgContains_end _ _)))))
  · exact msgContains_append_right _ (msgContains_append_left _ (msgContains_append_left _
      (msgContains_end _ _)))
  · exact msgContains_append_right _ (msgContains_end _ _)

theorem WithObject_leak_with_dependency_witness :
    ∃ msg, modB.WithObject sampleEnv 2 (.mk (.Object barObj) false) = .error (.error msg) ∧
      msg = "failed to validate type def: " ++ ("object " ++ sampleEnv.quote "Bar"
        ++ " field " ++ sampleEnv.quote "foo"
        ++ " cannot reference external type from dependency module "
        ++ sampleEnv.quote "a") ∧
      msgContains msg (sampleEnv.quote "Bar") ∧ msgContains msg (sampleEnv.quote "foo") ∧
      msgContains msg (sampleEnv.quote "a") :=
  WithObject_leak_with_dependency sampleEnv modB 2 depsOnA "Bar" "Bar" "" none [] []
    (.mk "foo" "foo" fooDef none) [] none false (.ModuleObjectType fooObj modA) modA
    rfl rfl rfl (by decide) rfl rfl (by decide) (by decide)

/-! ## The namespacer -/

theorem namespaceEnumTypeDef_erase (env : Env) (mod : Module) (modPath : String)
    (enum : EnumTypeDef) (r : Option ModType) :
    (TypeDef.mk (.Enum (mod.namespaceEnumTypeDef env modPath r enum).1) false).erase
      = (TypeDef.mk (.Enum enum) false).erase := by
  simp only [Module.namespaceEnumTypeDef]
  repeat' split
  all_goals simp_all [TypeDef.erase]

mutual

theorem namespaceTypeDef_erase (env : Env) (mod : Module) (modPath : String) :
    ∀ t : TypeDef, (mod.namespaceTypeDef env modPath t).1.erase = t.erase
  | .mk (.List elem) opt => by
    have ih := namespaceTypeDef_erase env mod modPath elem
    simp only [Module.namespaceTypeDef, TypeDef.erase, ih]
  | .mk (.Object obj) opt => by
    have ih := namespaceObjectTypeDef_erase env mod modPath obj
    simp only [Module.namespaceTypeDef]
    split
    · rfl
    · simp only [TypeDef.erase, ih]
  | .mk (.Interface iface) opt => by
    have ih := namespaceInterfaceTypeDef_erase env mod modPath iface
    simp only [Module.namespaceTypeDef]
    split
    · rfl
    · simp only [TypeDef.erase, ih]
  | .mk (.Enum enum) opt => by
    have ih := namespaceEnumTypeDef_erase env mod modPath enum
    simp only [Module.namespaceTypeDef]
    repeat' split
    all_goals simp_all [TypeDef.erase]
  | .mk .String _ => by simp [Module.namespaceTypeDef]
  | .mk .Integer _ => by simp [Module.namespaceTypeDef]
  | .mk .Float _ => by simp [Module.namespaceTypeDef]
  | .mk .Boolean _ => by simp [Module.namespaceTypeDef]
  | .mk .Void _ => by simp [Module.namespaceTypeDef]
  | .mk (.Scalar _) _ => by simp [Module.namespaceTypeDef]
  | .mk (.Other _) _ => by simp [Module.namespaceTypeDef]

theorem namespaceObjectTypeDef_erase (env : Env) (mod : Module) (modPath : String) :
    ∀ (obj : ObjectTypeDef) (ok : Bool),
      (mod.namespaceObjectTypeDef env modPath ok obj).1.erase = obj.erase
  | .mk name originalName srcModName sourceMap fields functions none, ok => by
    have ihf := namespaceFields_erase env mod modPath fields
    have ihfn := namespaceFunctions_erase env mod modPath functions
    simp only [Module.namespaceObjectTypeDef, Module.namespaceConstructor]
    repeat' split
    all_goals simp_all [ObjectTypeDef.erase]
  | .mk name originalName srcModName sourceMap fields functions (some fn), ok => by
    have ihf := namespaceFields_erase env mod modPath fields
    have ihfn := namespaceFunctions_erase env mod modPath functions
    have ihc := namespaceFunction_erase env mod modPath fn
    simp only [Module.namespaceObjectTypeDef, Module.namespaceConstructor]
    repeat' split
    all_goals simp_all [ObjectTypeDef.erase]

theorem namespaceInterfaceTypeDef_erase (env : Env) (mod : Module) (modPath : String) :
    ∀ (iface : InterfaceTypeDef) (ok : Bool),
      (mod.namespaceInterfaceTypeDef env modPath ok iface).1.erase = iface.erase
  | .mk name originalName srcModName sourceMap functions, ok => by
    have ihfn := namespaceFunctions_erase env mod modPath functions
    simp only [Module.namespaceInterfaceTypeDef]
    repeat' split
    all_goals simp_all [InterfaceTypeDef.erase]

theorem namespaceFields_erase (env : Env) (mod : Module) (modPath : String) :
    ∀ fs : List FieldTypeDef,
      FieldTypeDef.eraseAll (mod.namespaceFields env modPath fs).1 = FieldTypeDef.eraseAll fs
  | [] => by simp [Module.namespaceFields]
  | .mk name originalName ft sm :: rest => by
    have ih := namespaceTypeDef_erase env mod modPath ft
    have ihr := namespaceFields_erase env mod modPath rest
    simp only [Module.namespaceFields]
    repeat' split
    all_goals simp_all [FieldTypeDef.eraseAll]

theorem namespaceFunction_erase (env : Env) (mod : Module) (modPath : String) :
    ∀ fn : Function, (mod.namespaceFunction env modPath fn).1.erase = fn.erase
  | .mk name originalName ret args sm => by
    have ih := namespaceTypeDef_erase env mod modPath ret
    have iha := namespaceArgs_erase env mod modPath args
    simp only [Module.namespaceFunction]
    repeat' split
    all_goals simp_all [Function.erase]

theorem namespaceFunctions_erase (env : Env) (mod : Module) (modPath : String) :
    ∀ fns : List Function,
      Function.eraseAll (mod.namespaceFunctions env modPath fns).1 = Function.eraseAll fns
  | [] => by simp [Module.namespaceFunctions]
  | fn :: rest => by
    have ih := namespaceFunction_erase env mod modPath fn
    have ihr := namespaceFunctions_erase env mod modPath rest
    simp only [Module.namespaceFunctions]
    repeat' split
    all_goals simp_all [Function.eraseAll]

theorem namespaceArgs_erase (env : Env) (mod : Module) (modPath : String) :
    ∀ as : List FunctionArg,
      FunctionArg.eraseAll (mod.namespaceArgs env modPath as).1 = FunctionArg.eraseAll as
  | [] => by simp [Module.namespaceArgs]
  | .mk name originalName at_ sm :: rest => by
    have ih := namespaceTypeDef_erase env mod modPath at_
    have ihr := namespaceArgs_erase env mod modPath rest
    simp only [Module.namespaceArgs]
    repeat' split
    all_goals simp_all [FunctionArg.eraseAll]

end

mutual

theorem namespaceTypeDef_nodes (env : Env) (mod : Module) (modPath : String) :
    ∀ t : TypeDef, (mod.namespaceTypeDef env modPath t).2 = none →
      (mod.namespaceTypeDef env modPath t).1.nodes
        = t.nodes.map (fun n => (mod.namespaceTypeDef env modPath n).1)
  | .mk (.List elem) opt => by
    have ih := namespaceTypeDef_nodes env mod modPath elem
    intro h
    simp only [Module.namespaceTypeDef] at h ⊢
    simp only [TypeDef.nodes, List.map_cons, Module.namespaceTypeDef, ih h]
  | .mk (.Object obj) opt => by
    have ih := namespaceObjectTypeDef_nodes env mod modPath obj
    intro h
    simp only [TypeDef.nodes, List.map_cons]
    simp only [Module.namespaceTypeDef] at h ⊢
    split at h
    · cases h
    · simp only [TypeDef.nodes, ih _ h]
  | .mk (.Interface iface) opt => by
    have ih := namespaceInterfaceTypeDef_nodes env mod modPath iface
    intro h
    simp only [TypeDef.nodes, List.map_cons]
    simp only [Module.namespaceTypeDef] at h ⊢
    split at h
    · cases h
    · simp only [TypeDef.nodes, ih _ h]
  | .mk (.Enum enum) opt => by
    intro _
    simp only [Module.namespaceTypeDef]
    split <;> simp [TypeDef.nodes, Module.namespaceTypeDef, *]
  | .mk .String _ => by simp [Module.namespaceTypeDef, TypeDef.nodes]
  | .mk .Integer _ => by simp [Module.namespaceTypeDef, TypeDef.nodes]
  | .mk .Float _ => by simp [Module.namespaceTypeDef, TypeDef.nodes]
  | .mk .Boolean _ => by simp [Module.namespaceTypeDef, TypeDef.nodes]
  | .mk .Void _ => by simp [Module.namespaceTypeDef, TypeDef.nodes]
  | .mk (.Scalar _) _ => by simp [Module.namespaceTypeDef, TypeDef.nodes]
  | .mk (.Other _) _ => by simp [Module.namespaceTypeDef, TypeDef.nodes]

theorem namespaceObjectTypeDef_nodes (env : Env) (mod : Module) (modPath : String) :
    ∀ (obj : ObjectTypeDef) (ok : Bool),
      (mod.namespaceObjectTypeDef env modPath ok obj).2 = none →
      (mod.namespaceObjectTypeDef env modPath ok obj).1.nodes
        = obj.nodes.map (fun n => (mod.namespaceTypeDef env modPath n).1)
  | .mk name originalName srcModName sourceMap fields functions none, ok => by
    have ihf := namespaceFields_nodes env mod modPath fields
    have ihfn := namespaceFunctions_nodes env mod modPath functions
    intro h
    simp only [Module.namespaceObjectTypeDef, Module.namespaceConstructor] at h ⊢
    repeat' split at h
    all_goals simp_all [ObjectTypeDef.nodes]
  | .mk name originalName srcModName sourceMap fields functions (some fn), ok => by
    have ihf := namespaceFields_nodes env mod modPath fields
    have ihfn := namespaceFunctions_nodes env mod modPath functions
    have ihc := namespaceFunction_nodes env mod modPath fn
    intro h
    simp only [Module.namespaceObjectTypeDef, Module.namespaceConstructor] at h ⊢
    repeat' split at h
    all_goals simp_all [ObjectTypeDef.nodes]

theorem namespaceInterfaceTypeDef_nodes (env : Env) (mod : Module) (modPath : String) :
    ∀ (iface : InterfaceTypeDef) (ok : Bool),
      (mod.namespaceInterfaceTypeDef env modPath ok iface).2 = none →
      (mod.namespaceInterfaceTypeDef env modPath ok iface).1.nodes
        = iface.nodes.map (fun n => (mod.namespaceTypeDef env modPath n).1)
  | .mk name originalName srcModName sourceMap functions, ok => by
    have ihfn := namespaceFunctions_nodes env mod modPath functions
    intro h
    simp only [Module.namespaceInterfaceTypeDef] at h ⊢
    repeat' split at h
    all_goals simp_all [InterfaceTypeDef.nodes]

theorem namespaceFields_nodes (env : Env) (mod : Module) (modPath : String) :
    ∀ fs : List FieldTypeDef, (mod.namespaceFields env modPath fs).2 = none →
      FieldTypeDef.nodesAll (mod.namespaceFields env modPath fs).1
        = (FieldTypeDef.nodesAll fs).map (fun n => (mod.namespaceTypeDef env modPath n).1)
  | [] => by simp [Module.namespaceFields, FieldTypeDef.nodesAll]
  | .mk name originalName ft sm :: rest => by
    have ih := namespaceTypeDef_nodes env mod modPath ft
    have ihr := namespaceFields_nodes env mod modPath rest
    intro h
    simp only [Module.namespaceFields] at h ⊢
    repeat' split at h
    all_goals simp_all [FieldTypeDef.nodesAll]

theorem namespaceFunction_nodes (env : Env) (mod : Module) (modPath : String) :
    ∀ fn : Function, (mod.namespaceFunction env modPath fn).2 = none →
      (mod.namespaceFunction env modPath fn).1.nodes
        = fn.nodes.map (fun n => (mod.namespaceTypeDef env modPath n).1)
  | .mk name originalName ret args sm => by
    have ih := namespaceTypeDef_nodes env mod modPath ret
    have iha := namespaceArgs_nodes env mod modPath args
    intro h
    simp only [Module.namespaceFunction] at h ⊢
    repeat' split at h
    all_goals simp_all [Function.nodes]

theorem namespaceFunctions_nodes (env : Env) (mod : Module) (modPath : String) :
    ∀ fns : List Function, (mod.namespaceFunctions env modPath fns).2 = none →
      Function.nodesAll (mod.namespaceFunctions env modPath fns).1
        = (Function.nodesAll fns).map (fun n => (mod.namespaceTypeDef env modPath n).1)
  | [] => by simp [Module.namespaceFunctions, Function.nodesAll]
  | fn :: rest => by
    have ih := namespaceFunction_nodes env mod modPath fn
    have ihr := namespaceFunctions_nodes env mod modPath rest
    intro h
    simp only [Module.namespaceFunctions] at h ⊢
    repeat' split at h
    all_goals simp_all [Function.nodesAll]

theorem namespaceArgs_nodes (env : Env) (mod : Module) (modPath : String) :
    ∀ as : List FunctionArg, (mod.namespaceArgs env modPath as).2 = none →
      FunctionArg.nodesAll (mod.namespaceArgs env modPath as).1
        = (FunctionArg.nodesAll as).map (fun n => (mod.namespaceTypeDef env modPath n).1)
  | [] => by simp [Module.namespaceArgs, FunctionArg.nodesAll]
  | .mk name originalName at_ sm :: rest => by
    have ih := namespaceTypeDef_nodes env mod modPath at_
    have ihr := namespaceArgs_nodes env mod modPath rest
    intro h
    simp only [Module.namespaceArgs] at h ⊢
    repeat' split at h
    all_goals simp_all [FunctionArg.nodesAll]

end

theorem namespaceName_miss (env : Env) (mod : Module) (modPath : String)
    (name originalName : String) (sourceMap : Option SourceMap) :
    (mod.namespaceName env modPath false name originalName sourceMap).1
      = env.namespaceObject originalName mod.Name mod.OriginalName := by
  simp only [Module.namespaceName, Bool.false_eq_true, if_false]
  split <;> rfl

theorem namespaceName_hit (env : Env) (mod : Module) (modPath : String)
    (name originalName : String) (sourceMap : Option SourceMap) :
    mod.namespaceName env modPath true name originalName sourceMap = (name, sourceMap, none) := by
  simp [Module.namespaceName]

theorem namespaceObjectTypeDef_name (env : Env) (mod : Module) (modPath : String) (ok : Bool)
    (obj : ObjectTypeDef) :
    (mod.namespaceObjectTypeDef env modPath ok obj).1.Name
      = (mod.namespaceName env modPath ok obj.Name obj.OriginalName obj.SourceMap).1 := by
  obtain ⟨name, originalName, smn, sm, fields, functions, ctor⟩ := obj
  simp only [Module.namespaceObjectTypeDef]
  repeat' split
  all_goals simp_all [ObjectTypeDef.Name, ObjectTypeDef.OriginalName, ObjectTypeDef.SourceMap]

theorem namespaceInterfaceTypeDef_name (env : Env) (mod : Module) (modPath : String)
    (ok : Bool) (iface : InterfaceTypeDef) :
    (mod.namespaceInterfaceTypeDef env modPath ok iface).1.Name
      = (mod.namespaceName env modPath ok iface.Name iface.OriginalName iface.SourceMap).1 := by
  obtain ⟨name, originalName, smn, sm, functions⟩ := iface
  simp only [Module.namespaceInterfaceTypeDef]
  repeat' split
  all_goals simp_all [InterfaceTypeDef.Name, InterfaceTypeDef.OriginalName,
    InterfaceTypeDef.SourceMap]

theorem namespaceEnumTypeDef_name_miss (env : Env) (mod : Module) (modPath : String)
    (enum : EnumTypeDef) :
    (mod.namespaceEnumTypeDef env modPath none enum).1.Name
      = env.namespaceObject enum.OriginalName mod.Name mod.OriginalName := by
  have h := namespaceName_miss env mod modPath enum.Name enum.OriginalName enum.SourceMap
  simp only [Module.namespaceEnumTypeDef]
  repeat' split
  all_goals simp_all

theorem namespaceEnumTypeDef_name_hit (env : Env) (mod : Module) (modPath : String)
    (enum : EnumTypeDef) (mtype : ModType) :
    (mod.namespaceEnumTypeDef env modPath (some mtype) enum).1.Name = enum.Name := by
  simp only [Module.namespaceEnumTypeDef]
  repeat' split
  all_goals simp_all

/-- The name of a node that the Dependency Set does not resolve, after the call. -/
theorem namespaceTypeDef_miss_name (env : Env) (mod : Module) (d : ModDeps)
    (modPath : String) (t : TypeDef) (originalName : String)
    (hdeps : mod.Deps = some d) (hmiss : d.ModTypeFor t = .ok none)
    (hnode : t.nodeOriginalName = some originalName) :
    (mod.namespaceTypeDef env modPath t).1.nodeName
      = some (env.namespaceObject originalName mod.Name mod.OriginalName) := by
  have hl := depsModTypeFor_ok hdeps hmiss
  match t, hnode, hl with
  | .mk (.Object obj) opt, hnode, hl =>
    simp only [TypeDef.nodeOriginalName, Option.some.injEq] at hnode
    simp only [Module.namespaceTypeDef, hl, Option.isSome_none, TypeDef.nodeName,
      namespaceObjectTypeDef_name, namespaceName_miss, hnode]
  | .mk (.Interface iface) opt, hnode, hl =>
    simp only [TypeDef.nodeOriginalName, Option.some.injEq] at hnode
    simp only [Module.namespaceTypeDef, hl, Option.isSome_none, TypeDef.nodeName,
      namespaceInterfaceTypeDef_name, namespaceName_miss, hnode]
  | .mk (.Enum enum) opt, hnode, hl =>
    simp only [TypeDef.nodeOriginalName, Option.some.injEq] at hnode
    simp only [Module.namespaceTypeDef, hl, TypeDef.nodeName,
      namespaceEnumTypeDef_name_miss, hnode]

/-- The name of a node that the Dependency Set resolves, after the call. -/
theorem namespaceTypeDef_hit_name (env : Env) (mod : Module) (d : ModDeps)
    (modPath : String) (t : TypeDef) (mtype : ModType)
    (hdeps : mod.Deps = some d) (hres : d.ModTypeFor t = .ok (some mtype)) :
    (mod.namespaceTypeDef env modPath t).1.nodeName = t.nodeName := by
  have hl := depsModTypeFor_ok hdeps hres
  match t, hl with
  | .mk (.Object obj) opt, hl =>
    simp only [Module.namespaceTypeDef, hl, Option.isSome_some, TypeDef.nodeName,
      namespaceObjectTypeDef_name, namespaceName_hit]
  | .mk (.Interface iface) opt, hl =>
    simp only [Module.namespaceTypeDef, hl, Option.isSome_some, TypeDef.nodeName,
      namespaceInterfaceTypeDef_name, namespaceName_hit]
  | .mk (.Enum enum) opt, hl =>
    simp only [Module.namespaceTypeDef, hl, TypeDef.nodeName, namespaceEnumTypeDef_name_hit]
  | .mk (.List elem) opt, hl => simp [Module.namespaceTypeDef, TypeDef.nodeName]
  | .mk .String _, _ => rfl
  | .mk .Integer _, _ => rfl
  | .mk .Float _, _ => rfl
  | .mk .Boolean _, _ => rfl
  | .mk .Void _, _ => rfl
  | .mk (.Scalar _) _, _ => rfl
  | .mk (.Other _) _, _ => rfl

/-- The node at a position of the tree after a call that ends without fault is the
node at that position before, as a call on it leaves it. -/
theorem namespaceTypeDef_node_at (env : Env) (mod : Module) (modPath : String) (t : TypeDef)
    (h : (mod.namespaceTypeDef env modPath t).2 = none) (i : Nat) (n : TypeDef)
    (hn : t.nodes[i]? = some n) :
    (mod.namespaceTypeDef env modPath t).1.nodes[i]?
      = some (mod.namespaceTypeDef env modPath n).1 := by
  rw [namespaceTypeDef_nodes env mod modPath t h, List.getElem?_map, hn]
  rfl

/-- C7. For an Object, Interface or Enum node that the Dependency Set does not
resolve, the node's `Name` after `namespaceTypeDef` is
`namespaceObject(OriginalName, mod.Name(), mod.OriginalName)`, a function of the
`OriginalName` and the module's names only: so for the node the call is made on,
whatever the call ends in, and so for every node of the tree when the call ends
without fault. -/
theorem namespaceTypeDef_local_name (env : Env) (mod : Module) (d : ModDeps)
    (modPath : String) (t : TypeDef) (hdeps : mod.Deps = some d) :
    (∀ originalName, d.ModTypeFor t = .ok none → t.nodeOriginalName = some originalName →
      (mod.namespaceTypeDef env modPath t).1.nodeName
        = some (env.namespaceObject originalName mod.Name mod.OriginalName)) ∧
    ((mod.namespaceTypeDef env modPath t).2 = none →
      ∀ (i : Nat) (n : TypeDef) (originalName : String), t.nodes[i]? = some n →
        d.ModTypeFor n = .ok none → n.nodeOriginalName = some originalName →
        ((mod.namespaceTypeDef env modPath t).1.nodes[i]?).bind TypeDef.nodeName
          = some (env.namespaceObject originalName mod.Name mod.OriginalName)) := by
  refine ⟨fun o hmiss hnode => namespaceTypeDef_miss_name env mod d modPath t o hdeps hmiss hnode,
    ?_⟩
  intro h i n o hn hmiss hnode
  rw [namespaceTypeDef_node_at env mod modPath t h i n hn]
  exact namespaceTypeDef_miss_name env mod d modPath n o hdeps hmiss hnode

theorem namespaceTypeDef_local_name_witness :
    (modBAlone.namespaceTypeDef sampleEnv "b" (.mk (.Object barObj) false)).1.nodeName
      = some (sampleEnv.namespaceObject "Bar" modBAlone.Name modBAlone.OriginalName) ∧
    ((modBAlone.namespaceTypeDef sampleEnv "b" (.mk (.Object barObj) false)).1.nodes[1]?).bind
      TypeDef.nodeName
      = some (sampleEnv.namespaceObject "Foo" modBAlone.Name modBAlone.OriginalName) :=
  have h := namespaceTypeDef_local_name sampleEnv modBAlone noDeps "b"
    (.mk (.Object barObj) false) rfl
  ⟨h.1 "Bar" rfl rfl, h.2 rfl 1 fooDef "Foo" rfl rfl rfl⟩

theorem namespaceEnumValues_withoutSourceMap (env : Env) (mod : Module) (modPath : String) :
    ∀ values : List EnumValueTypeDef,
      (mod.namespaceEnumValues env modPath values).1.map EnumValueTypeDef.withoutSourceMap
        = values.map EnumValueTypeDef.withoutSourceMap
  | [] => by simp [Module.namespaceEnumValues]
  | value :: rest => by
    have ih := namespaceEnumValues_withoutSourceMap env mod modPath rest
    simp only [Module.namespaceEnumValues]
    split
    · rfl
    · simp [ih, EnumValueTypeDef.withoutSourceMap]

theorem namespaceEnumValues_of_nil_sourceMaps (env : Env) (mod : Module) (modPath : String) :
    ∀ values : List EnumValueTypeDef, (∀ v ∈ values, v.SourceMap = none) →
      mod.namespaceEnumValues env modPath values = (values, none)
  | [], _ => by simp [Module.namespaceEnumValues]
  | value :: rest, h => by
    have ih := namespaceEnumValues_of_nil_sourceMaps env mod modPath rest
      (fun v hv => h v (List.mem_cons_of_mem _ hv))
    have hv : value.SourceMap = none := h value (List.mem_cons_self _ _)
    simp only [Module.namespaceEnumValues, hv, Module.namespaceSourceMap, ih]
    rw [← hv]

/-- The values of an enum node that the Dependency Set resolves, after the call. -/
theorem namespaceTypeDef_hit_values (env : Env) (mod : Module) (d : ModDeps)
    (modPath : String) (enum : EnumTypeDef) (opt : Bool) (mtype : ModType)
    (canonical : List EnumValueTypeDef)
    (hdeps : mod.Deps = some d) (hres : d.ModTypeFor (.mk (.Enum enum) opt) = .ok (some mtype))
    (hcanon : mtype.TypeDef.nodeValues = some canonical) :
    (mod.namespaceTypeDef env modPath (.mk (.Enum enum) opt)).1.nodeValues
      = some (mod.namespaceEnumValues env modPath canonical).1 := by
  have hl := depsModTypeFor_ok hdeps hres
  have hv : mtype.enumValues = .ok canonical := by
    unfold ModType.enumValues
    generalize mtype.TypeDef = td at hcanon
    match td, hcanon with
    | .mk (.Enum e) _, hcanon =>
      simp only [TypeDef.nodeValues, Option.some.injEq] at hcanon
      simp [TypeDef.Kind, hcanon]
  simp only [Module.namespaceTypeDef, hl, Module.namespaceEnumTypeDef, hv, TypeDef.nodeValues]

/-- The node of a type that the Dependency Set resolves, after `namespaceTypeDef`, as a
value: the `Name` is as before, and the `Values` of an Enum node are the values of
the resolved type in their order, as the loop over the values leaves them: equal to
them in everything but the source maps, and equal to them when none of them has a
source map, whatever the local `Values` were before. In a call that ends without
fault this holds for every node of the tree. -/
theorem namespaceTypeDef_dependency_owned (env : Env) (mod : Module) (d : ModDeps)
    (modPath : String) (t : TypeDef) (hdeps : mod.Deps = some d) :
    (∀ mtype, d.ModTypeFor t = .ok (some mtype) →
      (mod.namespaceTypeDef env modPath t).1.nodeName = t.nodeName ∧
      ∀ enum opt canonical, t = .mk (.Enum enum) opt →
        mtype.TypeDef.nodeValues = some canonical →
        ∃ values, (mod.namespaceTypeDef env modPath t).1.nodeValues = some values ∧
          values.map EnumValueTypeDef.withoutSourceMap
            = canonical.map EnumValueTypeDef.withoutSourceMap ∧
          ((∀ v ∈ canonical, v.SourceMap = none) → values = canonical)) ∧
    ((mod.namespaceTypeDef env modPath t).2 = none →
      ∀ (i : Nat) (n : TypeDef) (mtype : ModType), t.nodes[i]? = some n →
        d.ModTypeFor n = .ok (some mtype) →
        ((mod.namespaceTypeDef env modPath t).1.nodes[i]?).bind TypeDef.nodeName = n.nodeName ∧
        ∀ enum opt canonical, n = .mk (.Enum enum) opt →
          mtype.TypeDef.nodeValues = some canonical →
          ∃ values,
            ((mod.namespaceTypeDef env modPath t).1.nodes[i]?).bind TypeDef.nodeValues
              = some values ∧
            values.map EnumValueTypeDef.withoutSourceMap
              = canonical.map EnumValueTypeDef.withoutSourceMap ∧
            ((∀ v ∈ canonical, v.SourceMap = none) → values = canonical)) := by
  have root : ∀ (n : TypeDef) (mtype : ModType), d.ModTypeFor n = .ok (some mtype) →
      (mod.namespaceTypeDef env modPath n).1.nodeName = n.nodeName ∧
      ∀ enum opt canonical, n = .mk (.Enum enum) opt →
        mtype.TypeDef.nodeValues = some canonical →
        ∃ values, (mod.namespaceTypeDef env modPath n).1.nodeValues = some values ∧
          values.map EnumValueTypeDef.withoutSourceMap
            = canonical.map EnumValueTypeDef.withoutSourceMap ∧
          ((∀ v ∈ canonical, v.SourceMap = none) → values = canonical) := by
    intro n mtype hres
    refine ⟨namespaceTypeDef_hit_name env mod d modPath n mtype hdeps hres, ?_⟩
    intro enum opt canonical hn hcanon
    subst hn
    refine ⟨_, namespaceTypeDef_hit_values env mod d modPath enum opt mtype canonical hdeps
      hres hcanon, namespaceEnumValues_withoutSourceMap env mod modPath canonical, ?_⟩
    intro hnil
    rw [namespaceEnumValues_of_nil_sourceMaps env mod modPath canonical hnil]
  refine ⟨root t, ?_⟩
  intro h i n mtype hn hres
  rw [namespaceTypeDef_node_at env mod modPath t h i n hn]
  exact root n mtype hres

theorem namespaceTypeDef_dependency_owned_witness :
    (modBColor.namespaceTypeDef sampleEnv "b" staleColorDef).1.nodeName
      = staleColorDef.nodeName ∧
    ∃ values, (modBColor.namespaceTypeDef sampleEnv "b" staleColorDef).1.nodeValues
        = some values ∧
      values.map EnumValueTypeDef.withoutSourceMap
        = colorValues.map EnumValueTypeDef.withoutSourceMap ∧
      ((∀ v ∈ colorValues, v.SourceMap = none) → values = colorValues) :=
  have h := (namespaceTypeDef_dependency_owned sampleEnv modBColor depsOnColor "b"
    staleColorDef rfl).1 (.ModuleEnumType colorEnum modA) rfl
  ⟨h.1, h.2 staleColorEnum false colorValues rfl rfl⟩

theorem map_Clone (defs : List TypeDef) : defs.map TypeDef.Clone = defs := by
  have h : TypeDef.Clone = id := funext fun _ => rfl
  rw [h, List.map_id]

theorem validateAndNamespace_erase (env : Env) (mod : Module) (t t' : TypeDef)
    (h : mod.validateAndNamespace env t = .ok t') : t'.erase = t.erase := by
  simp only [Module.validateAndNamespace] at h
  split at h
  · cases h
  · split at h
    · split at h
      · cases h
      · rename_i modPath _
        have ih := namespaceTypeDef_erase env mod modPath t.Clone
        split at h
        · cases h
        · rename_i t'' hns
          cases h
          rw [hns] at ih
          exact ih
    · cases h
      rfl

/-- C9. `namespaceTypeDef` leaves the `OriginalName` of every object, interface, enum,
field, function and argument of the tree unchanged: the tree after the call and the
tree before it are equal once the `Name` of objects, interfaces and enums, the source
maps and the enum `Values` are blanked. So the definition that `WithObject`,
`WithInterface` or `WithEnum` appends differs from the TypeDef it was given in
nothing else. -/
theorem namespaceTypeDef_preserves_originalName (env : Env) (mod : Module)
    (modPath : String) (t : TypeDef) (fresh : Nat) :
    (mod.namespaceTypeDef env modPath t).1.erase = t.erase ∧
    (∀ m, mod.WithObject env fresh t = .ok m →
      ∃ t', m.ObjectDefs = mod.ObjectDefs ++ [t'] ∧ t'.erase = t.erase) ∧
    (∀ m, mod.WithInterface env fresh t = .ok m →
      ∃ t', m.InterfaceDefs = mod.InterfaceDefs ++ [t'] ∧ t'.erase = t.erase) ∧
    (∀ m, mod.WithEnum env fresh t = .ok m →
      ∃ t', m.EnumDefs = mod.EnumDefs ++ [t'] ∧ t'.erase = t.erase) := by
  refine ⟨namespaceTypeDef_erase env mod modPath t, ?_, ?_, ?_⟩
  · intro m h
    simp only [Module.WithObject] at h
    split at h
    · split at h
      · cases h
      · rename_i t' ht'
        cases h
        exact ⟨t', by simp [Module.Clone, map_Clone],
          validateAndNamespace_erase env _ t t' ht'⟩
    · cases h
  · intro m h
    simp only [Module.WithInterface] at h
    split at h
    · split at h
      · cases h
      · rename_i t' ht'
        cases h
        exact ⟨t', by simp [Module.Clone, map_Clone],
          validateAndNamespace_erase env _ t t' ht'⟩
    · cases h
  · intro m h
    simp only [Module.WithEnum] at h
    split at h
    · split at h
      · cases h
      · rename_i t' ht'
        cases h
        exact ⟨t', by simp [Module.Clone, map_Clone],
          validateAndNamespace_erase env _ t t' ht'⟩
    · cases h

theorem namespaceTypeDef_preserves_originalName_witness :
    (modBAlone.namespaceTypeDef sampleEnv "b" (.mk (.Object barObj) false)).1.erase
      = (TypeDef.mk (.Object barObj) false).erase ∧
    ∃ t', (modBAlone.Clone 2).ObjectDefs ++ [.mk (.Object (.mk "bBar" "Bar" "" none
        [.mk "foo" "foo" (.mk (.Object (.mk "bFoo" "Foo" "a" none [] [] none)) false) none]
        [] none)) false] = modBAlone.ObjectDefs ++ [t'] ∧
      t'.erase = (TypeDef.mk (.Object barObj) false).erase :=
  have h := namespaceTypeDef_preserves_originalName sampleEnv modBAlone "b"
    (.mk (.Object barObj) false) 2
  ⟨h.1, h.2.1 _ rfl⟩

/-! ## The resolver -/

/-- C10. For an Object, Interface, Scalar or Enum TypeDef that the Dependency Set
resolves, `ModTypeFor` with `checkDirectDeps` true returns the Dependency Set's
result, found and without error, whatever definitions the module itself holds. -/
theorem ModTypeFor_dependency_precedence (env : Env) (mod : Module) (d : ModDeps)
    (t : TypeDef) (modType : ModType)
    (hkind : (∃ obj, t.Kind = .Object obj) ∨ (∃ iface, t.Kind = .Interface iface) ∨
      (∃ scalar, t.Kind = .Scalar scalar) ∨ ∃ enum, t.Kind = .Enum enum)
    (hdeps : mod.Deps = some d)
    (hres : d.ModTypeFor t = .ok (some modType)) :
    mod.ModTypeFor env t true = .ok (some modType) := by
  have hl := depsModTypeFor_ok hdeps hres
  obtain ⟨k, opt⟩ := t
  simp only [TypeDef.Kind] at hkind
  rcases hkind with ⟨x, rfl⟩ | ⟨x, rfl⟩ | ⟨x, rfl⟩ | ⟨x, rfl⟩ <;>
    simp [Module.ModTypeFor, Module.modTypeFromDeps, hl]

theorem ModTypeFor_dependency_precedence_witness :
    modCaller.ModTypeFor sampleEnv (.mk (.Object greeterObj) false) true
      = .ok (some (.ModuleObjectType greeterObj modGreet)) :=
  ModTypeFor_dependency_precedence sampleEnv modCaller depsOnGreet
    (.mk (.Object greeterObj) false) (.ModuleObjectType greeterObj modGreet)
    (Or.inl ⟨_, rfl⟩) rfl rfl

theorem modTypeFromDeps_false (env : Env) (mod : Module) (t : TypeDef) :
    mod.modTypeFromDeps env t false = .ok none := by
  simp [Module.modTypeFromDeps]

theorem modTypeFromDeps_true_ok (env : Env) (mod : Module) (t : TypeDef)
    (r : Option ModType) (h : mod.depsModTypeFor t = .ok r) :
    mod.modTypeFromDeps env t true = .ok r := by
  simp [Module.modTypeFromDeps, h]

theorem modTypeFromDeps_some (env : Env) (mod : Module) (t : TypeDef) (c : Bool)
    (r : ModType) (h : mod.modTypeFromDeps env t c = .ok (some r)) :
    c = true ∧ mod.depsModTypeFor t = .ok (some r) := by
  cases c with
  | false => simp [Module.modTypeFromDeps] at h
  | true =>
    refine ⟨rfl, ?_⟩
    simp only [Module.modTypeFromDeps, Bool.not_true, Bool.false_eq_true, if_false] at h
    split at h
    · cases h
    · rename_i r' hr'
      cases h
      exact hr'

theorem wrapOptional_some (t : TypeDef) (m : ModType) :
    Module.wrapOptional t (some m) = some (t.nullableIfOptional m) := by
  simp only [Module.wrapOptional, TypeDef.nullableIfOptional]
  split <;> rfl

theorem depsModTypeFor_eq_ok {mod : Module} {t : TypeDef} {r : Option ModType}
    (h : mod.depsModTypeFor t = .ok r) : ∃ d, mod.Deps = some d ∧ d.ModTypeFor t = .ok r := by
  unfold Module.depsModTypeFor at h
  split at h
  · cases h
  · rename_i d hd
    refine ⟨d, hd, ?_⟩
    split at h
    · rename_i r' hr'
      cases h
      exact hr'
    · cases h

theorem modTypeForObjectIn_some (mod : Module) (name : String) (m : ModType) :
    ∀ defs : List TypeDef, mod.modTypeForObjectIn name defs = .ok (some m) →
      ∃ o, m = .ModuleObjectType o mod.asMod
  | [], h => by simp [Module.modTypeForObjectIn] at h
  | .mk k opt :: rest, h => by
    simp only [Module.modTypeForObjectIn, TypeDef.Kind] at h
    split at h
    · split at h
      · cases h
        exact ⟨_, rfl⟩
      · exact modTypeForObjectIn_some mod name m rest h
    · cases h

theorem modTypeForInterfaceIn_some (mod : Module) (name : String) (m : ModType) :
    ∀ defs : List TypeDef, mod.modTypeForInterfaceIn name defs = .ok (some m) →
      ∃ i, m = .InterfaceType i mod.asMod
  | [], h => by simp [Module.modTypeForInterfaceIn] at h
  | .mk k opt :: rest, h => by
    simp only [Module.modTypeForInterfaceIn, TypeDef.Kind] at h
    split at h
    · split at h
      · cases h
        exact ⟨_, rfl⟩
      · exact modTypeForInterfaceIn_some mod name m rest h
    · cases h

theorem modTypeForEnumIn_some (mod : Module) (name : String) (m : ModType) :
    ∀ defs : List TypeDef, mod.modTypeForEnumIn name defs = .ok (some m) →
      ∃ e, m = .ModuleEnumType e mod.asMod
  | [], h => by simp [Module.modTypeForEnumIn] at h
  | .mk k opt :: rest, h => by
    simp only [Module.modTypeForEnumIn, TypeDef.Kind] at h
    split at h
    · split at h
      · cases h
        exact ⟨_, rfl⟩
      · exact modTypeForEnumIn_some mod name m rest h
    · cases h

/-- The two ways `ModTypeFor` reports found for a TypeDef marked Optional: the hit of
the Dependency Set, handed on as the Dependency Set gave it, or a Nullable around the
kind-specific resolution that the module made itself. -/
theorem ModTypeFor_optional_cases (env : Env) (mod : Module) (t : TypeDef) (c : Bool)
    (r : ModType) (hopt : t.Optional = true)
    (hfound : mod.ModTypeFor env t c = .ok (some r)) :
    (c = true ∧ ((∃ obj, t.Kind = .Object obj) ∨ (∃ iface, t.Kind = .Interface iface) ∨
        (∃ scalar, t.Kind = .Scalar scalar) ∨ ∃ enum, t.Kind = .Enum enum) ∧
      ∃ d, mod.Deps = some d ∧ d.ModTypeFor t = .ok (some r)) ∨
    ∃ inner, r = .NullableType (t.WithOptional false) inner ∧
      (∀ innerDef inner', inner ≠ .NullableType innerDef inner') ∧
      (t.primitivesAndLists = true → (∀ elem, t.Kind ≠ .List elem) →
        inner = .PrimitiveType t) ∧
      (∀ elem, t.Kind = .List elem →
        ∃ u, mod.ModTypeFor env elem c = .ok (some u) ∧ inner = .ListType elem u) ∧
      (∀ obj, t.Kind = .Object obj → mod.modTypeForObject obj.Name = .ok (some inner)) ∧
      (∀ iface, t.Kind = .Interface iface →
        mod.modTypeForInterface iface.Name = .ok (some inner)) ∧
      (∀ enum, t.Kind = .Enum enum → mod.modTypeForEnum enum.Name = .ok (some inner)) := by
  obtain ⟨k, opt⟩ := t
  simp only [TypeDef.Optional] at hopt
  subst hopt
  cases k with
  | String | Integer | Float | Boolean | Void =>
    right
    simp only [Module.ModTypeFor, Module.modTypeForPrimitive, wrapOptional_some,
      TypeDef.nullableIfOptional, TypeDef.Optional, if_true, Except.ok.injEq,
      Option.some.injEq] at hfound
    subst hfound
    exact ⟨_, rfl, fun _ _ h => (by cases h), fun _ _ => rfl,
      fun _ h => (by simp [TypeDef.Kind] at h), fun _ h => (by simp [TypeDef.Kind] at h),
      fun _ h => (by simp [TypeDef.Kind] at h), fun _ h => (by simp [TypeDef.Kind] at h)⟩
  | List elem =>
    right
    simp only [Module.ModTypeFor] at hfound
    split at hfound
    · cases hfound
    · cases hfound
    · rename_i u hu
      simp only [wrapOptional_some, TypeDef.nullableIfOptional, TypeDef.Optional, if_true,
        Except.ok.injEq, Option.some.injEq] at hfound
      subst hfound
      refine ⟨_, rfl, fun _ _ h => (by cases h), fun _ h => absurd rfl (h elem), ?_,
        fun _ h => (by simp [TypeDef.Kind] at h), fun _ h => (by simp [TypeDef.Kind] at h),
        fun _ h => (by simp [TypeDef.Kind] at h)⟩
      intro elem' h
      simp only [TypeDef.Kind, Kind.List.injEq] at h
      subst h
      exact ⟨u, hu, rfl⟩
  | Object obj =>
    simp only [Module.ModTypeFor] at hfound
    split at hfound
    · cases hfound
    · rename_i m hm
      cases hfound
      obtain ⟨hc, hd⟩ := modTypeFromDeps_some env mod _ c _ hm
      exact Or.inl ⟨hc, Or.inl ⟨obj, rfl⟩, depsModTypeFor_eq_ok hd⟩
    · right
      split at hfound
      · cases hfound
      · rename_i r' hr'
        cases r' with
        | none => simp [Module.wrapOptional] at hfound
        | some m =>
          simp only [wrapOptional_some, TypeDef.nullableIfOptional, TypeDef.Optional, if_true,
            Except.ok.injEq, Option.some.injEq] at hfound
          subst hfound
          obtain ⟨o, ho⟩ := modTypeForObjectIn_some mod _ m _ hr'
          refine ⟨_, rfl, fun _ _ h => (by rw [ho] at h; cases h),
            fun h => (by simp [TypeDef.primitivesAndLists] at h),
            fun _ h => (by simp [TypeDef.Kind] at h), ?_,
            fun _ h => (by simp [TypeDef.Kind] at h), fun _ h => (by simp [TypeDef.Kind] at h)⟩
          intro obj' h
          simp only [TypeDef.Kind, Kind.Object.injEq] at h
          subst h
          exact hr'
  | Interface iface =>
    simp only [Module.ModTypeFor] at hfound
    split at hfound
    · cases hfound
    · rename_i m hm
      cases hfound
      obtain ⟨hc, hd⟩ := modTypeFromDeps_some env mod _ c _ hm
      exact Or.inl ⟨hc, Or.inr (Or.inl ⟨iface, rfl⟩), depsModTypeFor_eq_ok hd⟩
    · right
      split at hfound
      · cases hfound
      · rename_i r' hr'
        cases r' with
        | none => simp [Module.wrapOptional] at hfound
        | some m =>
          simp only [wrapOptional_some, TypeDef.nullableIfOptional, TypeDef.Optional, if_true,
            Except.ok.injEq, Option.some.injEq] at hfound
          subst hfound
          obtain ⟨o, ho⟩ := modTypeForInterfaceIn_some mod _ m _ hr'
          refine ⟨_, rfl, fun _ _ h => (by rw [ho] at h; cases h),
            fun h => (by simp [TypeDef.primitivesAndLists] at h),
            fun _ h => (by simp [TypeDef.Kind] at h), fun _ h => (by simp [TypeDef.Kind] at h),
            ?_, fun _ h => (by simp [TypeDef.Kind] at h)⟩
          intro iface' h
          simp only [TypeDef.Kind, Kind.Interface.injEq] at h
          subst h
          exact hr'
  | Scalar scalar =>
    simp only [Module.ModTypeFor] at hfound
    split at hfound
    · cases hfound
    · rename_i m hm
      cases hfound
      obtain ⟨hc, hd⟩ := modTypeFromDeps_some env mod _ c _ hm
      exact Or.inl ⟨hc, Or.inr (Or.inr (Or.inl ⟨scalar, rfl⟩)), depsModTypeFor_eq_ok hd⟩
    · cases hfound
  | Enum enum =>
    simp only [Module.ModTypeFor] at hfound
    split at hfound
    · cases hfound
    · rename_i m hm
      cases hfound
      obtain ⟨hc, hd⟩ := modTypeFromDeps_some env mod _ c _ hm
      exact Or.inl ⟨hc, Or.inr (Or.inr (Or.inr ⟨enum, rfl⟩)), depsModTypeFor_eq_ok hd⟩
    · right
      split at hfound
      · cases hfound
      · rename_i r' hr'
        cases r' with
        | none => simp [Module.wrapOptional] at hfound
        | some m =>
          simp only [wrapOptional_some, TypeDef.nullableIfOptional, TypeDef.Optional, if_true,
            Except.ok.injEq, Option.some.injEq] at hfound
          subst hfound
          obtain ⟨o, ho⟩ := modTypeForEnumIn_some mod _ m _ hr'
          refine ⟨_, rfl, fun _ _ h => (by rw [ho] at h; cases h),
            fun h => (by simp [TypeDef.primitivesAndLists] at h),
            fun _ h => (by simp [TypeDef.Kind] at h), fun _ h => (by simp [TypeDef.Kind] at h),
            fun _ h => (by simp [TypeDef.Kind] at h), ?_⟩
          intro enum' h
          simp only [TypeDef.Kind, Kind.Enum.injEq] at h
          subst h
          exact hr'
  | Other kind =>
    simp [Module.ModTypeFor] at hfound

theorem ModDeps.lookup_found (env : Env) (t : TypeDef) (r : ModType) :
    ∀ mods : List Module, ModDeps.lookup env t mods = .ok (some r) →
      ∃ m ∈ mods, m.ModTypeFor env t false = .ok (some r)
  | [], h => by simp [ModDeps.lookup] at h
  | m :: rest, h => by
    simp only [ModDeps.lookup] at h
    split at h
    · cases h
    · cases h
    · rename_i modType hm
      cases h
      exact ⟨m, List.mem_cons_self _ _, hm⟩
    · obtain ⟨m', hm', h'⟩ := ModDeps.lookup_found env t r rest h
      exact ⟨m', List.mem_cons_of_mem _ hm', h'⟩

/-- A module asked with `checkDirectDeps` false does not find a Scalar. -/
theorem ModTypeFor_scalar_false (env : Env) (mod : Module) (scalar : ScalarTypeDef)
    (opt : Bool) : mod.ModTypeFor env (.mk (.Scalar scalar) opt) false = .ok none := by
  simp [Module.ModTypeFor, modTypeFromDeps_false]

/-- C11. For a module whose Dependency Set is a collection of modules, a TypeDef
marked Optional, of any kind, and either value of `checkDirectDeps`: whenever
`ModTypeFor` reports found, the type returned is a Nullable whose `InnerDef` is the
TypeDef with `Optional` cleared and whose `Inner` is the kind-specific resolution of
the TypeDef (the Primitive of the TypeDef, the List over the element's resolution,
the object, interface or enum type of the module itself or, with `checkDirectDeps`
true, of a module of the Dependency Set) and is not itself a Nullable. The wrapper is
there exactly once, also when the resolution came from the Dependency Set: the
module of the Dependency Set added it in its own `ModTypeFor`, and the module asked
hands the answer on as it is. A Dependency Set of modules resolves no Scalar. -/
theorem ModTypeFor_optional (env : Env) (mod : Module) (mods : List Module) (t : TypeDef)
    (c : Bool) (r : ModType)
    (hdeps : ∀ d, mod.Deps = some d → d = ModDeps.ofModules env mods)
    (hopt : t.Optional = true)
    (hfound : mod.ModTypeFor env t c = .ok (some r)) :
    ∃ inner, r = .NullableType (t.WithOptional false) inner ∧
      (∀ innerDef inner', inner ≠ .NullableType innerDef inner') ∧
      (t.primitivesAndLists = true → (∀ elem, t.Kind ≠ .List elem) →
        inner = .PrimitiveType t) ∧
      (∀ elem, t.Kind = .List elem →
        ∃ u, mod.ModTypeFor env elem c = .ok (some u) ∧ inner = .ListType elem u) ∧
      (∀ obj, t.Kind = .Object obj → ∃ owner, (owner = mod ∨ (c = true ∧ owner ∈ mods)) ∧
        owner.modTypeForObject obj.Name = .ok (some inner)) ∧
      (∀ iface, t.Kind = .Interface iface →
        ∃ owner, (owner = mod ∨ (c = true ∧ owner ∈ mods)) ∧
          owner.modTypeForInterface iface.Name = .ok (some inner)) ∧
      (∀ enum, t.Kind = .Enum enum → ∃ owner, (owner = mod ∨ (c = true ∧ owner ∈ mods)) ∧
        owner.modTypeForEnum enum.Name = .ok (some inner)) ∧
      ∀ scalar, t.Kind ≠ .Scalar scalar := by
  rcases ModTypeFor_optional_cases env mod t c r hopt hfound with
    ⟨hc, hk, d, hd, hres⟩ | ⟨inner, hr, hnn, hprim, hlist, hobj, hiface, henum⟩
  · have hof := hdeps d hd
    subst hof
    obtain ⟨m, hm, hmf⟩ := ModDeps.lookup_found env t r mods hres
    rcases ModTypeFor_optional_cases env m t false r hopt hmf with
      ⟨hc', _⟩ | ⟨inner, hr, hnn, hprim, hlist, hobj, hiface, henum⟩
    · cases hc'
    · refine ⟨inner, hr, hnn, hprim, ?_, fun obj h => ⟨m, Or.inr ⟨hc, hm⟩, hobj obj h⟩,
        fun iface h => ⟨m, Or.inr ⟨hc, hm⟩, hiface iface h⟩,
        fun enum h => ⟨m, Or.inr ⟨hc, hm⟩, henum enum h⟩, ?_⟩
      · intro elem h
        rcases hk with ⟨x, hx⟩ | ⟨x, hx⟩ | ⟨x, hx⟩ | ⟨x, hx⟩ <;> rw [h] at hx <;> cases hx
      · intro scalar h
        obtain ⟨k, opt⟩ := t
        simp only [TypeDef.Kind] at h
        subst h
        rw [ModTypeFor_scalar_false] at hmf
        cases hmf
  · refine ⟨inner, hr, hnn, hprim, hlist, fun obj h => ⟨mod, Or.inl rfl, hobj obj h⟩,
      fun iface h => ⟨mod, Or.inl rfl, hiface iface h⟩,
      fun enum h => ⟨mod, Or.inl rfl, henum enum h⟩, ?_⟩
    intro scalar h
    obtain ⟨k, opt⟩ := t
    simp only [TypeDef.Kind] at h
    subst h
    simp only [Module.ModTypeFor] at hfound
    split at hfound
    · cases hfound
    · rename_i m hm
      cases hfound
      obtain ⟨hc, hd⟩ := modTypeFromDeps_some env mod _ c _ hm
      obtain ⟨d, hd', hres⟩ := depsModTypeFor_eq_ok hd
      have hof := hdeps d hd'
      subst hof
      obtain ⟨m', _, hmf⟩ := ModDeps.lookup_found env _ _ mods hres
      rw [ModTypeFor_scalar_false] at hmf
      cases hmf
    · cases hfound

theorem ModTypeFor_optional_witness :
    ∃ inner, ModType.NullableType (.mk (.Object greeterObj) false)
        (.ModuleObjectType greeterObj modGreet)
        = .NullableType (optGreeterDef.WithOptional false) inner ∧
      (∀ innerDef inner', inner ≠ .NullableType innerDef inner') ∧
      (optGreeterDef.primitivesAndLists = true → (∀ elem, optGreeterDef.Kind ≠ .List elem) →
        inner = .PrimitiveType optGreeterDef) ∧
      (∀ elem, optGreeterDef.Kind = .List elem →
        ∃ u, modCallerOfGreet.ModTypeFor sampleEnv elem true = .ok (some u) ∧
          inner = .ListType elem u) ∧
      (∀ obj, optGreeterDef.Kind = .Object obj →
        ∃ owner, (owner = modCallerOfGreet ∨ (true = true ∧ owner ∈ [greetModule])) ∧
          owner.modTypeForObject obj.Name = .ok (some inner)) ∧
      (∀ iface, optGreeterDef.Kind = .Interface iface →
        ∃ owner, (owner = modCallerOfGreet ∨ (true = true ∧ owner ∈ [greetModule])) ∧
          owner.modTypeForInterface iface.Name = .ok (some inner)) ∧
      (∀ enum, optGreeterDef.Kind = .Enum enum →
        ∃ owner, (owner = modCallerOfGreet ∨ (true = true ∧ owner ∈ [greetModule])) ∧
          owner.modTypeForEnum enum.Name = .ok (some inner)) ∧
      ∀ scalar, optGreeterDef.Kind ≠ .Scalar scalar :=
  ModTypeFor_optional sampleEnv modCallerOfGreet [greetModule] optGreeterDef true
    (.NullableType (.mk (.Object greeterObj) false) (.ModuleObjectType greeterObj modGreet))
    (fun d h => by cases h; rfl) rfl rfl

/-- C12. For a TypeDef built only from the primitive kinds and List, with any
Optional flags and for either value of `checkDirectDeps`, `ModTypeFor` returns found
with no error, and the result has the nesting of the TypeDef: a Primitive for each
primitive, a List of the element TypeDef over the element's resolution for each
list, and a Nullable exactly at the nodes marked Optional. -/
theorem ModTypeFor_mirrors_structure (env : Env) (mod : Module) :
    ∀ (t : TypeDef) (c : Bool), t.primitivesAndLists = true →
      mod.ModTypeFor env t c = .ok (some t.mirror)
  | .mk .String opt, c, _ => by
    simp [Module.ModTypeFor, Module.modTypeForPrimitive, wrapOptional_some, TypeDef.mirror]
  | .mk .Integer opt, c, _ => by
    simp [Module.ModTypeFor, Module.modTypeForPrimitive, wrapOptional_some, TypeDef.mirror]
  | .mk .Float opt, c, _ => by
    simp [Module.ModTypeFor, Module.modTypeForPrimitive, wrapOptional_some, TypeDef.mirror]
  | .mk .Boolean opt, c, _ => by
    simp [Module.ModTypeFor, Module.modTypeForPrimitive, wrapOptional_some, TypeDef.mirror]
  | .mk .Void opt, c, _ => by
    simp [Module.ModTypeFor, Module.modTypeForPrimitive, wrapOptional_some, TypeDef.mirror]
  | .mk (.List elem) opt, c, h => by
    simp only [TypeDef.primitivesAndLists] at h
    have ih := ModTypeFor_mirrors_structure env mod elem c h
    simp [Module.ModTypeFor, ih, wrapOptional_some, TypeDef.mirror]
  | .mk (.Object _) _, _, h => by simp [TypeDef.primitivesAndLists] at h
  | .mk (.Interface _) _, _, h => by simp [TypeDef.primitivesAndLists] at h
  | .mk (.Scalar _) _, _, h => by simp [TypeDef.primitivesAndLists] at h
  | .mk (.Enum _) _, _, h => by simp [TypeDef.primitivesAndLists] at h
  | .mk (.Other _) _, _, h => by simp [TypeDef.primitivesAndLists] at h

theorem ModTypeFor_mirrors_structure_witness :
    modB.ModTypeFor sampleEnv optListOptInt true
      = .ok (some (.NullableType (.mk (.List (.mk .Integer true)) false)
          (.ListType (.mk .Integer true)
            (.NullableType (.mk .Integer false) (.PrimitiveType (.mk .Integer true)))))) :=
  ModTypeFor_mirrors_structure sampleEnv modB optListOptInt true rfl

/-- C13. For a List TypeDef and either value of `checkDirectDeps`, `ModTypeFor`
reports found exactly when the resolution of the element TypeDef with the same flag
reports found, and then returns the List over the element's resolution; if the
element is not found the list is not found, with no error; if the element's
resolution returns an error, so does the list's. -/
theorem ModTypeFor_list (env : Env) (mod : Module) (elem : TypeDef) (opt c : Bool) :
    ((∃ r, mod.ModTypeFor env (.mk (.List elem) opt) c = .ok (some r)) ↔
      ∃ u, mod.ModTypeFor env elem c = .ok (some u)) ∧
    (∀ u, mod.ModTypeFor env elem c = .ok (some u) →
      mod.ModTypeFor env (.mk (.List elem) opt) c
        = .ok (some ((TypeDef.mk (.List elem) opt).nullableIfOptional (.ListType elem u)))) ∧
    (mod.ModTypeFor env elem c = .ok none →
      mod.ModTypeFor env (.mk (.List elem) opt) c = .ok none) ∧
    (∀ msg, mod.ModTypeFor env elem c = .error (.error msg) →
      mod.ModTypeFor env (.mk (.List elem) opt) c
        = .error (.error ("failed to get mod type: " ++ ("failed to get underlying type: "
          ++ msg)))) := by
  refine ⟨⟨?_, ?_⟩, ?_, ?_, ?_⟩
  · rintro ⟨r, hr⟩
    simp only [Module.ModTypeFor] at hr
    split at hr
    · cases hr
    · cases hr
    · rename_i u hu
      exact ⟨u, hu⟩
  · rintro ⟨u, hu⟩
    refine ⟨(TypeDef.mk (.List elem) opt).nullableIfOptional (.ListType elem u), ?_⟩
    simp only [Module.ModTypeFor, hu, wrapOptional_some]
  · intro u hu
    simp only [Module.ModTypeFor, hu, wrapOptional_some]
  · intro h
    simp only [Module.ModTypeFor, h]
  · intro msg h
    simp only [Module.ModTypeFor, h, Fault.wrap]

theorem ModTypeFor_list_witness :
    ((∃ r, modCaller.ModTypeFor sampleEnv (.mk (.List fooDef) true) false = .ok (some r)) ↔
      ∃ u, modCaller.ModTypeFor sampleEnv fooDef false = .ok (some u)) ∧
    modCaller.ModTypeFor sampleEnv (.mk (.List fooDef) true) false = .ok none :=
  have h := ModTypeFor_list sampleEnv modCaller fooDef true false
  ⟨h.1, h.2.2.1 rfl⟩

/-- C15. For a Scalar TypeDef, `ModTypeFor` reports found only if `checkDirectDeps` is
true and the Dependency Set resolves it, to that result; if `checkDirectDeps` is
false, or the Dependency Set misses without error, the result is not found with no
error, whatever definitions the module holds. -/
theorem ModTypeFor_scalar (env : Env) (mod : Module) (scalar : ScalarTypeDef) (opt : Bool) :
    (∀ c r, mod.ModTypeFor env (.mk (.Scalar scalar) opt) c = .ok (some r) →
      c = true ∧ ∃ d, mod.Deps = some d ∧
        d.ModTypeFor (.mk (.Scalar scalar) opt) = .ok (some r)) ∧
    mod.ModTypeFor env (.mk (.Scalar scalar) opt) false = .ok none ∧
    (∀ d, mod.Deps = some d → d.ModTypeFor (.mk (.Scalar scalar) opt) = .ok none →
      mod.ModTypeFor env (.mk (.Scalar scalar) opt) true = .ok none) := by
  refine ⟨?_, ?_, ?_⟩
  · intro c r h
    simp only [Module.ModTypeFor] at h
    split at h
    · cases h
    · rename_i m hm
      cases h
      obtain ⟨hc, hd⟩ := modTypeFromDeps_some env mod _ c _ hm
      exact ⟨hc, depsModTypeFor_eq_ok hd⟩
    · cases h
  · simp only [Module.ModTypeFor, modTypeFromDeps_false]
  · intro d hd hmiss
    simp only [Module.ModTypeFor,
      modTypeFromDeps_true_ok env mod _ none (depsModTypeFor_ok hd hmiss)]

theorem ModTypeFor_scalar_witness :
    modCaller.ModTypeFor sampleEnv platformDef false = .ok none ∧
    modCaller.ModTypeFor sampleEnv platformDef true = .ok none ∧
    (true = true ∧ ∃ d, modPlatform.Deps = some d ∧ d.ModTypeFor platformDef
      = .ok (some (.Other (some { addr := 0, Name := "daggercore" }) platformDef))) :=
  have h := ModTypeFor_scalar sampleEnv modCaller
    { Name := "Platform", OriginalName := "Platform", SourceModuleName := "" } false
  have h' := ModTypeFor_scalar sampleEnv modPlatform
    { Name := "Platform", OriginalName := "Platform", SourceModuleName := "" } false
  ⟨h.2.1, h.2.2 depsOnGreet rfl rfl, h'.1 true _ rfl⟩

theorem modTypeForObjectIn_eq (mod : Module) (name : String) :
    ∀ defs : List TypeDef, defs.all TypeDef.isObject = true →
      mod.modTypeForObjectIn name defs
        = .ok ((defs.find? (fun s => decide (s.nodeName = some name))).bind mod.localType)
  | [], _ => rfl
  | .mk k opt :: rest, h => by
    simp only [List.all_cons, Bool.and_eq_true] at h
    have ih := modTypeForObjectIn_eq mod name rest h.2
    cases k <;> simp [TypeDef.isObject] at h
    rename_i payload
    have hnode : (TypeDef.mk (.Object payload) opt).nodeName = some payload.Name := rfl
    simp only [Module.modTypeForObjectIn, TypeDef.Kind, List.find?_cons, hnode, Option.some.injEq]
    by_cases hname : payload.Name = name
    · simp [hname, Module.localType]
    · simp only [hname, if_false, decide_False, ih]

theorem modTypeForInterfaceIn_eq (mod : Module) (name : String) :
    ∀ defs : List TypeDef, defs.all TypeDef.isInterface = true →
      mod.modTypeForInterfaceIn name defs
        = .ok ((defs.find? (fun s => decide (s.nodeName = some name))).bind mod.localType)
  | [], _ => rfl
  | .mk k opt :: rest, h => by
    simp only [List.all_cons, Bool.and_eq_true] at h
    have ih := modTypeForInterfaceIn_eq mod name rest h.2
    cases k <;> simp [TypeDef.isInterface] at h
    rename_i payload
    have hnode : (TypeDef.mk (.Interface payload) opt).nodeName = some payload.Name := rfl
    simp only [Module.modTypeForInterfaceIn, TypeDef.Kind, List.find?_cons, hnode, Option.some.injEq]
    by_cases hname : payload.Name = name
    · simp [hname, Module.localType]
    · simp only [hname, if_false, decide_False, ih]

theorem modTypeForEnumIn_eq (mod : Module) (name : String) :
    ∀ defs : List TypeDef, defs.all TypeDef.isEnum = true →
      mod.modTypeForEnumIn name defs
        = .ok ((defs.find? (fun s => decide (s.nodeName = some name))).bind mod.localType)
  | [], _ => rfl
  | .mk k opt :: rest, h => by
    simp only [List.all_cons, Bool.and_eq_true] at h
    have ih := modTypeForEnumIn_eq mod name rest h.2
    cases k <;> simp [TypeDef.isEnum] at h
    rename_i payload
    have hnode : (TypeDef.mk (.Enum payload) opt).nodeName = some payload.Name := rfl
    simp only [Module.modTypeForEnumIn, TypeDef.Kind, List.find?_cons, hnode, Option.some.injEq]
    by_cases hname : payload.Name = name
    · simp [hname, Module.localType]
    · simp only [hname, if_false, decide_False, ih]

theorem wrapOptional_eq_map (t : TypeDef) (r : Option ModType) :
    Module.wrapOptional t r = r.map t.nullableIfOptional := by
  cases r with
  | none => rfl
  | some m => exact wrapOptional_some t m

theorem nullableIfOptional_SourceMod (t : TypeDef) (m : ModType) :
    (t.nullableIfOptional m).SourceMod = m.SourceMod := by
  unfold TypeDef.nullableIfOptional
  split <;> rfl

theorem localType_of_wellFormed (mod : Module) (t stored : TypeDef)
    (hwf : mod.WellFormed = true) (hmem : stored ∈ mod.localDefs t) :
    ∃ m, mod.localType stored = some m ∧ m.SourceMod = some mod.asMod := by
  simp only [Module.WellFormed, Bool.and_eq_true, List.all_eq_true] at hwf
  obtain ⟨⟨hobj, hiface⟩, henum⟩ := hwf
  obtain ⟨k, opt⟩ := t
  obtain ⟨sk, sopt⟩ := stored
  cases k <;> simp only [Module.localDefs, List.not_mem_nil] at hmem
  · have h := hobj _ hmem
    cases sk <;> simp [TypeDef.isObject] at h
    exact ⟨_, rfl, rfl⟩
  · have h := hiface _ hmem
    cases sk <;> simp [TypeDef.isInterface] at h
    exact ⟨_, rfl, rfl⟩
  · have h := henum _ hmem
    cases sk <;> simp [TypeDef.isEnum] at h
    exact ⟨_, rfl, rfl⟩

/-- The local fallback of `ModTypeFor`, for a well-formed module when the Dependency
Set is not consulted or misses. -/
theorem ModTypeFor_eq_firstLocal (env : Env) (mod : Module) (t : TypeDef) (c : Bool)
    (hkind : t.isObject = true ∨ t.isInterface = true ∨ t.isEnum = true)
    (hwf : mod.WellFormed = true)
    (hmiss : c = false ∨ ∃ d, mod.Deps = some d ∧ d.ModTypeFor t = .ok none) :
    mod.ModTypeFor env t c
      = .ok (((mod.firstLocal t).bind mod.localType).map t.nullableIfOptional) := by
  have hdeps : mod.modTypeFromDeps env t c = .ok none := by
    rcases hmiss with rfl | ⟨d, hd, hm⟩
    · exact modTypeFromDeps_false env mod t
    · cases c with
      | false => exact modTypeFromDeps_false env mod t
      | true => exact modTypeFromDeps_true_ok env mod t none (depsModTypeFor_ok hd hm)
  have hwf' := hwf
  simp only [Module.WellFormed, Bool.and_eq_true] at hwf'
  obtain ⟨⟨hobj, hiface⟩, henum⟩ := hwf'
  obtain ⟨k, opt⟩ := t
  cases k <;> simp [TypeDef.isObject, TypeDef.isInterface, TypeDef.isEnum] at hkind
  · rename_i obj
    simp only [Module.ModTypeFor, hdeps, Module.modTypeForObject,
      modTypeForObjectIn_eq mod obj.Name _ hobj, wrapOptional_eq_map]
    rfl
  · rename_i iface
    simp only [Module.ModTypeFor, hdeps, Module.modTypeForInterface,
      modTypeForInterfaceIn_eq mod iface.Name _ hiface, wrapOptional_eq_map]
    rfl
  · rename_i enum
    simp only [Module.ModTypeFor, hdeps, Module.modTypeForEnum,
      modTypeForEnumIn_eq mod enum.Name _ henum, wrapOptional_eq_map]
    rfl

/-- C14. For an Object, Interface or Enum TypeDef and a module whose collections hold
definitions of their own kind, when the Dependency Set is not consulted
(`checkDirectDeps` false) or misses without error, `ModTypeFor` reports found exactly
when the module's matching collection holds a definition whose `Name` is the
TypeDef's `Name`; on a hit the result carries the first such stored definition in
declaration order and is owned by this module; on a miss the result is not found
with no error. -/
theorem ModTypeFor_local_fallback (env : Env) (mod : Module) (t : TypeDef) (c : Bool)
    (hkind : t.isObject = true ∨ t.isInterface = true ∨ t.isEnum = true)
    (hwf : mod.WellFormed = true)
    (hmiss : c = false ∨ ∃ d, mod.Deps = some d ∧ d.ModTypeFor t = .ok none) :
    ((∃ r, mod.ModTypeFor env t c = .ok (some r)) ↔
      ∃ s ∈ mod.localDefs t, s.nodeName = t.nodeName) ∧
    (∀ stored, mod.firstLocal t = some stored →
      ∃ m, mod.localType stored = some m ∧
        mod.ModTypeFor env t c = .ok (some (t.nullableIfOptional m)) ∧
        (t.nullableIfOptional m).SourceMod = some mod.asMod) ∧
    (mod.firstLocal t = none → mod.ModTypeFor env t c = .ok none) := by
  have heq := ModTypeFor_eq_firstLocal env mod t c hkind hwf hmiss
  have hhit : ∀ stored, mod.firstLocal t = some stored →
      ∃ m, mod.localType stored = some m ∧
        mod.ModTypeFor env t c = .ok (some (t.nullableIfOptional m)) ∧
        (t.nullableIfOptional m).SourceMod = some mod.asMod := by
    intro stored hs
    have hmem : stored ∈ mod.localDefs t := List.mem_of_find?_eq_some hs
    obtain ⟨m, hm, hown⟩ := localType_of_wellFormed mod t stored hwf hmem
    refine ⟨m, hm, ?_, ?_⟩
    · rw [heq, hs]
      simp [hm]
    · rw [nullableIfOptional_SourceMod, hown]
  have hnone : mod.firstLocal t = none → mod.ModTypeFor env t c = .ok none := by
    intro hs
    rw [heq, hs]
    rfl
  refine ⟨⟨?_, ?_⟩, hhit, hnone⟩
  · rintro ⟨r, hr⟩
    cases hs : mod.firstLocal t with
    | none =>
      rw [hnone hs] at hr
      cases hr
    | some stored =>
      refine ⟨stored, List.mem_of_find?_eq_some hs, ?_⟩
      have := List.find?_some hs
      simpa using this
  · rintro ⟨s, hmem, hname⟩
    cases hs : mod.firstLocal t with
    | none =>
      have := List.find?_eq_none.mp hs s hmem
      simp [hname] at this
    | some stored =>
      obtain ⟨m, _, hm, _⟩ := hhit stored hs
      exact ⟨_, hm⟩

theorem ModTypeFor_local_fallback_witness :
    ((∃ r, modCallerFull.ModTypeFor sampleEnv optGreeterDef false = .ok (some r)) ↔
      ∃ s ∈ modCallerFull.localDefs optGreeterDef, s.nodeName = optGreeterDef.nodeName) ∧
    (∃ m, modCallerFull.localType
          (.mk (.Object (.mk "Greeter" "Greeter" "" none [] [] none)) false) = some m ∧
        modCallerFull.ModTypeFor sampleEnv optGreeterDef false
          = .ok (some (optGreeterDef.nullableIfOptional m)) ∧
        (optGreeterDef.nullableIfOptional m).SourceMod = some modCallerFull.asMod) ∧
    modCallerFull.ModTypeFor sampleEnv fooDef false = .ok none :=
  have h := ModTypeFor_local_fallback sampleEnv modCallerFull optGreeterDef false
    (Or.inl rfl) rfl (Or.inl rfl)
  have h' := ModTypeFor_local_fallback sampleEnv modCallerFull fooDef false
    (Or.inl rfl) rfl (Or.inl rfl)
  ⟨h.1, h.2.1 _ rfl, h'.2.2 rfl⟩

/-! ## The triple that `ModTypeFor` returns -/

theorem returnTriple_err (t : TypeDef) (m : Option ModType) (ok : Bool) (err : Option String)
    (e : String) (h : (Module.returnTriple t m ok err).err = some e) :
    (Module.returnTriple t m ok err).ok = false ∧
      (Module.returnTriple t m ok err).modType = none := by
  cases err with
  | some e' => exact ⟨rfl, rfl⟩
  | none =>
    cases ok with
    | false => exact ⟨rfl, rfl⟩
    | true =>
      simp only [Module.returnTriple, Bool.not_true, Bool.false_eq_true, if_false] at h
      split at h <;> simp at h

theorem modTypeFromDepsTriple_err (env : Env) (mod : Module) (t : TypeDef) (c : Bool)
    (res : Resolved) (e : String) (h : mod.modTypeFromDepsTriple env t c = some res)
    (he : res.err = some e) : res.ok = false ∧ res.modType = none := by
  unfold Module.modTypeFromDepsTriple at h
  split at h
  · cases h
    exact ⟨rfl, rfl⟩
  · split at h
    · cases h
    · cases h
      exact ⟨rfl, rfl⟩
    · cases h
      cases he

theorem depsOrLocal_err (t : TypeDef) (fromDeps : Option Resolved)
    (localLookup : Except Fault (Option ModType))
    (hdeps : ∀ d e, fromDeps = some d → d.err = some e → d.ok = false ∧ d.modType = none)
    (res : Resolved) (e : String) (h : Module.depsOrLocal t fromDeps localLookup = some res)
    (he : res.err = some e) : res.ok = false ∧ res.modType = none := by
  unfold Module.depsOrLocal at h
  split at h
  · cases h
  · rename_i d
    split at h
    · cases h
      exact hdeps _ e rfl he
    · unfold Module.localTriple at h
      split at h
      · cases h
      · cases h
        exact returnTriple_err _ _ _ _ e he

/-- No return statement of `ModTypeFor` returns an error together with `ok` true or a
type. -/
theorem ModTypeForTriple_err (env : Env) (mod : Module) (t : TypeDef) (c : Bool)
    (res : Resolved) (e : String) (h : mod.ModTypeForTriple env t c = some res)
    (he : res.err = some e) : res.ok = false ∧ res.modType = none := by
  obtain ⟨k, opt⟩ := t
  cases k with
  | String | Integer | Float | Boolean | Void =>
    simp only [Module.ModTypeForTriple, Option.some.injEq] at h
    subst h
    exact returnTriple_err _ _ _ _ e he
  | List elem =>
    simp only [Module.ModTypeForTriple] at h
    split at h
    · cases h
    · simp only [Option.some.injEq] at h
      subst h
      exact returnTriple_err _ _ _ _ e he
  | Object obj =>
    simp only [Module.ModTypeForTriple] at h
    exact depsOrLocal_err _ _ _
      (fun d e' hd => modTypeFromDepsTriple_err env mod _ c d e' hd) res e h he
  | Interface iface =>
    simp only [Module.ModTypeForTriple] at h
    exact depsOrLocal_err _ _ _
      (fun d e' hd => modTypeFromDepsTriple_err env mod _ c d e' hd) res e h he
  | Scalar scalar =>
    simp only [Module.ModTypeForTriple] at h
    exact depsOrLocal_err _ _ _
      (fun d e' hd => modTypeFromDepsTriple_err env mod _ c d e' hd) res e h he
  | Enum enum =>
    simp only [Module.ModTypeForTriple] at h
    exact depsOrLocal_err _ _ _
      (fun d e' hd => modTypeFromDepsTriple_err env mod _ c d e' hd) res e h he
  | Other kind =>
    simp only [Module.ModTypeForTriple, Option.some.injEq] at h
    subst h
    exact ⟨rfl, rfl⟩

theorem toResult_returnTriple (t : TypeDef) (r : Option ModType) :
    Resolved.toResult (some (Module.returnTriple t r r.isSome none))
      = .ok (Module.wrapOptional t r) := by
  cases r with
  | none => rfl
  | some m =>
    simp only [Module.returnTriple, Option.isSome_some, Bool.not_true, Bool.false_eq_true,
      if_false, Module.wrapOptional]
    split <;> rfl

theorem depsModTypeFor_panic (mod : Module) (t : TypeDef) (msg : String)
    (h : mod.depsModTypeFor t = .error (.panic msg)) : msg = "nil pointer dereference" := by
  unfold Module.depsModTypeFor at h
  split at h
  · cases h
    rfl
  · split at h <;> cases h

theorem modTypeForObjectIn_fault (mod : Module) (name : String) (f : Fault) :
    ∀ defs : List TypeDef, mod.modTypeForObjectIn name defs = .error f →
      f = .panic "nil pointer dereference"
  | [], h => by simp [Module.modTypeForObjectIn] at h
  | .mk k opt :: rest, h => by
    simp only [Module.modTypeForObjectIn, TypeDef.Kind] at h
    split at h
    · split at h
      · cases h
      · exact modTypeForObjectIn_fault mod name f rest h
    · cases h
      rfl

theorem modTypeForInterfaceIn_fault (mod : Module) (name : String) (f : Fault) :
    ∀ defs : List TypeDef, mod.modTypeForInterfaceIn name defs = .error f →
      f = .panic "nil pointer dereference"
  | [], h => by simp [Module.modTypeForInterfaceIn] at h
  | .mk k opt :: rest, h => by
    simp only [Module.modTypeForInterfaceIn, TypeDef.Kind] at h
    split at h
    · split at h
      · cases h
      · exact modTypeForInterfaceIn_fault mod name f rest h
    · cases h
      rfl

theorem modTypeForEnumIn_fault (mod : Module) (name : String) (f : Fault) :
    ∀ defs : List TypeDef, mod.modTypeForEnumIn name defs = .error f →
      f = .panic "nil pointer dereference"
  | [], h => by simp [Module.modTypeForEnumIn] at h
  | .mk k opt :: rest, h => by
    simp only [Module.modTypeForEnumIn, TypeDef.Kind] at h
    split at h
    · split at h
      · cases h
      · exact modTypeForEnumIn_fault mod name f rest h
    · cases h
      rfl

theorem toResult_depsOrLocal (env : Env) (mod : Module) (t : TypeDef) (c : Bool)
    (localLookup : Except Fault (Option ModType)) (localResult : Except Fault (Option ModType))
    (hloc : Resolved.toResult (Module.localTriple t localLookup) = localResult) :
    Resolved.toResult (Module.depsOrLocal t (mod.modTypeFromDepsTriple env t c) localLookup)
      = match mod.modTypeFromDeps env t c with
        | .error f => .error f
        | .ok (some modType) => .ok (some modType)
        | .ok none => localResult := by
  cases c with
  | false =>
    simp only [Module.modTypeFromDepsTriple, Module.modTypeFromDeps, Bool.not_false, if_true,
      Module.depsOrLocal, Bool.or_self, Option.isSome_none, Bool.false_eq_true, if_false]
    exact hloc
  | true =>
    simp only [Module.modTypeFromDepsTriple, Module.modTypeFromDeps, Bool.not_true,
      Bool.false_eq_true, if_false]
    cases hd : mod.depsModTypeFor t with
    | error f =>
      cases f with
      | error e => rfl
      | panic msg =>
        rw [depsModTypeFor_panic mod t msg hd]
        rfl
    | ok r =>
      cases r with
      | none =>
        simp only [Module.depsOrLocal, Option.isSome_none, Bool.or_self, Bool.false_eq_true,
          if_false]
        exact hloc
      | some m => rfl

/-- The triple model and the result model of `ModTypeFor` agree. -/
theorem ModTypeFor_eq_toResult (env : Env) (mod : Module) :
    ∀ (t : TypeDef) (c : Bool),
      mod.ModTypeFor env t c = Resolved.toResult (mod.ModTypeForTriple env t c)
  | .mk .String opt, c => by
    simp only [Module.ModTypeFor, Module.ModTypeForTriple, Module.modTypeForPrimitive]
    exact (toResult_returnTriple _ (some _)).symm
  | .mk .Integer opt, c => by
    simp only [Module.ModTypeFor, Module.ModTypeForTriple, Module.modTypeForPrimitive]
    exact (toResult_returnTriple _ (some _)).symm
  | .mk .Float opt, c => by
    simp only [Module.ModTypeFor, Module.ModTypeForTriple, Module.modTypeForPrimitive]
    exact (toResult_returnTriple _ (some _)).symm
  | .mk .Boolean opt, c => by
    simp only [Module.ModTypeFor, Module.ModTypeForTriple, Module.modTypeForPrimitive]
    exact (toResult_returnTriple _ (some _)).symm
  | .mk .Void opt, c => by
    simp only [Module.ModTypeFor, Module.ModTypeForTriple, Module.modTypeForPrimitive]
    exact (toResult_returnTriple _ (some _)).symm
  | .mk (.List elem) opt, c => by
    have ih := ModTypeFor_eq_toResult env mod elem c
    simp only [Module.ModTypeFor, Module.ModTypeForTriple, ih]
    cases hu : mod.ModTypeForTriple env elem c with
    | none => rfl
    | some u =>
      obtain ⟨um, uok, uerr⟩ := u
      cases uerr with
      | some e => rfl
      | none =>
        cases uok with
        | false => rfl
        | true =>
          cases um with
          | none => cases opt <;> rfl
          | some m =>
            simp only [Resolved.toResult, if_true, Module.modTypeForListTriple,
              Bool.not_true, Bool.false_eq_true, if_false, Option.map_some']
            exact (toResult_returnTriple _ (some _)).symm
  | .mk (.Object obj) opt, c => by
    simp only [Module.ModTypeFor, Module.ModTypeForTriple]
    cases hl : mod.modTypeForObject obj.Name with
    | error f =>
      have hf := modTypeForObjectIn_fault mod _ f _ hl
      subst hf
      rw [toResult_depsOrLocal env mod (.mk (.Object obj) opt) c
        (.error (.panic "nil pointer dereference"))
        (.error (.panic "nil pointer dereference")) rfl]
    | ok r =>
      rw [toResult_depsOrLocal env mod (.mk (.Object obj) opt) c (.ok r)
        (.ok (Module.wrapOptional (.mk (.Object obj) opt) r)) (toResult_returnTriple _ r)]
  | .mk (.Interface iface) opt, c => by
    simp only [Module.ModTypeFor, Module.ModTypeForTriple]
    cases hl : mod.modTypeForInterface iface.Name with
    | error f =>
      have hf := modTypeForInterfaceIn_fault mod _ f _ hl
      subst hf
      rw [toResult_depsOrLocal env mod (.mk (.Interface iface) opt) c
        (.error (.panic "nil pointer dereference"))
        (.error (.panic "nil pointer dereference")) rfl]
    | ok r =>
      rw [toResult_depsOrLocal env mod (.mk (.Interface iface) opt) c (.ok r)
        (.ok (Module.wrapOptional (.mk (.Interface iface) opt) r)) (toResult_returnTriple _ r)]
  | .mk (.Scalar scalar) opt, c => by
    simp only [Module.ModTypeFor, Module.ModTypeForTriple]
    rw [toResult_depsOrLocal env mod (.mk (.Scalar scalar) opt) c (.ok none) (.ok none) rfl]
  | .mk (.Enum enum) opt, c => by
    simp only [Module.ModTypeFor, Module.ModTypeForTriple]
    cases hl : mod.modTypeForEnum enum.Name with
    | error f =>
      have hf := modTypeForEnumIn_fault mod _ f _ hl
      subst hf
      rw [toResult_depsOrLocal env mod (.mk (.Enum enum) opt) c
        (.error (.panic "nil pointer dereference"))
        (.error (.panic "nil pointer dereference")) rfl]
    | ok r =>
      rw [toResult_depsOrLocal env mod (.mk (.Enum enum) opt) c (.ok r)
        (.ok (Module.wrapOptional (.mk (.Enum enum) opt) r)) (toResult_returnTriple _ r)]
  | .mk (.Other kind) opt, c => by
    simp only [Module.ModTypeFor, Module.ModTypeForTriple]
    rfl

/-- C16. For a TypeDef whose kind is none of those `ModTypeFor` dispatches on, and for
either value of `checkDirectDeps`, `ModTypeFor` returns a nil type, found false and
the error `unexpected type def kind`; and no return statement of `ModTypeFor`, for
any TypeDef, returns a non-nil error together with found true or a type. -/
theorem ModTypeFor_unknown_kind (env : Env) (mod : Module) (kind : String) (opt c : Bool) :
    mod.ModTypeForTriple env (.mk (.Other kind) opt) c
      = some ⟨none, false, some ("unexpected type def kind " ++ env.kindString (.Other kind))⟩ ∧
    mod.ModTypeFor env (.mk (.Other kind) opt) c
      = .error (.error ("unexpected type def kind " ++ env.kindString (.Other kind))) ∧
    (∀ (t : TypeDef) (c' : Bool) (res : Resolved) (e : String),
      mod.ModTypeForTriple env t c' = some res → res.err = some e →
        res.ok = false ∧ res.modType = none) ∧
    ∀ (t : TypeDef) (c' : Bool),
      mod.ModTypeFor env t c' = Resolved.toResult (mod.ModTypeForTriple env t c') :=
  ⟨by simp only [Module.ModTypeForTriple], by simp only [Module.ModTypeFor],
    fun t c' res e h he => ModTypeForTriple_err env mod t c' res e h he,
    ModTypeFor_eq_toResult env mod⟩

theorem ModTypeFor_unknown_kind_witness :
    modCaller.ModTypeFor sampleEnv (.mk (.Other "INPUT_KIND") true) true
      = .error (.error ("unexpected type def kind " ++ "INPUT_KIND")) :=
  (ModTypeFor_unknown_kind sampleEnv modCaller "INPUT_KIND" true true).2.1

/-! ## The installer -/

theorem installObjects_append (env : Env) (ins : Installers) (mod : Module)
    (rest : List TypeDef) :
    ∀ (pre : List TypeDef) (dag : List Installed),
      mod.installObjects env ins (pre ++ rest) dag
        = match mod.installObjects env ins pre dag with
          | (dag', some f) => (dag', some f)
          | (dag', none) => mod.installObjects env ins rest dag'
  | [], dag => by simp [Module.installObjects]
  | .mk k opt :: pre, dag => by
    have ih := installObjects_append env ins mod rest pre
    simp only [List.cons_append, Module.installObjects, TypeDef.Kind]
    repeat' split
    all_goals simp_all

/-- The calls the loop over the objects makes are those that publish a leading part
of the objects, all of them when the loop ends without fault. -/
theorem installObjects_calls (env : Env) (ins : Installers) (mod : Module) :
    ∀ (defs : List TypeDef) (dag : List Installed),
      ∃ k, k ≤ defs.length ∧
        (mod.installObjects env ins defs dag).1 = dag ++ mod.publishCalls (defs.take k) ∧
        ((mod.installObjects env ins defs dag).2 = none → k = defs.length)
  | [], dag => ⟨0, Nat.le_refl _, by simp [Module.installObjects, Module.publishCalls], fun _ => rfl⟩
  | .mk k opt :: rest, dag => by
    cases k with
    | Object obj =>
      simp only [Module.installObjects, TypeDef.Kind]
      split
      · exact ⟨0, Nat.zero_le _, by simp [Module.publishCalls], fun h => by simp at h⟩
      · split
        · exact ⟨0, Nat.zero_le _, by simp [Module.publishCalls], fun h => by simp at h⟩
        · exact ⟨0, Nat.zero_le _, by simp [Module.publishCalls], fun h => by simp at h⟩
      · split
        · exact ⟨1, by simp, by simp [Module.publishCalls, Module.publishCall],
            fun h => by simp at h⟩
        · obtain ⟨k', hk', hlog, hall⟩ :=
            installObjects_calls env ins mod rest (dag ++ [.ModuleObject mod.asMod obj])
          refine ⟨k' + 1, by simpa using hk', ?_, fun h => by simpa using hall h⟩
          rw [hlog]
          simp [Module.publishCalls, Module.publishCall]
    | String | Integer | Float | Boolean | Void | List _ | Interface _ | Scalar _ | Enum _
      | Other _ =>
      exact ⟨0, Nat.zero_le _, by simp [Module.installObjects, TypeDef.Kind, Module.publishCalls],
        fun h => by simp [Module.installObjects, TypeDef.Kind] at h⟩

/-- The loop over objects that the Dependency Set does not resolve does not panic. -/
theorem installObjects_noPanic (env : Env) (ins : Installers) (mod : Module) (d : ModDeps)
    (hdeps : mod.Deps = some d) :
    ∀ (defs : List TypeDef) (dag : List Installed), defs.all TypeDef.isObject = true →
      (∀ t ∈ defs, ∀ m, d.ModTypeFor t ≠ .ok (some m)) →
      ∀ msg, (mod.installObjects env ins defs dag).2 ≠ some (.panic msg)
  | [], dag, _, _, msg => by simp [Module.installObjects]
  | .mk k opt :: rest, dag, hwf, hfirst, msg => by
    simp only [List.all_cons, Bool.and_eq_true] at hwf
    obtain ⟨hhd, hrest⟩ := hwf
    cases k <;> simp [TypeDef.isObject] at hhd
    rename_i obj
    have hhead := hfirst (.mk (.Object obj) opt) (List.mem_cons_self _ _)
    have ih := fun dag' => installObjects_noPanic env ins mod d hdeps rest dag' hrest
      (fun t ht => hfirst t (List.mem_cons_of_mem _ ht)) msg
    simp only [Module.installObjects, TypeDef.Kind]
    rw [depsModTypeFor_of_deps hdeps]
    cases hl : d.ModTypeFor (.mk (.Object obj) opt) with
    | error e => simp [Fault.wrap]
    | ok r =>
      cases r with
      | some m => exact absurd hl (hhead m)
      | none =>
        simp only []
        split
        · simp
        · exact ih _

theorem installObjects_conflict (env : Env) (ins : Installers) (mod : Module) (d : ModDeps)
    (typeDef : TypeDef) (objDef : ObjectTypeDef) (post : List TypeDef) (modType : ModType)
    (owner : Mod) (dag : List Installed) (hdeps : mod.Deps = some d)
    (hkind : typeDef.Kind = .Object objDef)
    (hres : d.ModTypeFor typeDef = .ok (some modType))
    (hown : modType.SourceMod = some owner) :
    mod.installObjects env ins (typeDef :: post) dag
      = (dag, some (.error ("type " ++ env.quote objDef.Name
          ++ " is already defined by module " ++ env.quote owner.Name))) := by
  obtain ⟨k, opt⟩ := typeDef
  simp only [TypeDef.Kind] at hkind
  subst hkind
  simp only [Module.installObjects, TypeDef.Kind, depsModTypeFor_ok hdeps hres, hown]

theorem Install_of_objects_fault (env : Env) (ins : Installers) (mod : Module)
    (dag dag' : List Installed) (f : Fault)
    (h : mod.installObjects env ins mod.ObjectDefs dag = (dag', some f)) :
    mod.Install env ins dag = (dag', some f) := by
  simp only [Module.Install, h]

/-- C17, the claim as stated fails: the Dependency Set resolves the second object,
`Greeter`, to the object of `greet`; the publish of the first object fails, and
`Install` returns that error, whose message contains neither `Greeter` nor
`greet`. -/
theorem Install_object_conflict_counterexample :
    modConflict.Deps = some depsOnGreet ∧
    TypeDef.mk (.Object greeterObj) false ∈ modConflict.ObjectDefs ∧
    depsOnGreet.ModTypeFor (.mk (.Object greeterObj) false)
      = .ok (some (.ModuleObjectType greeterObj modGreet)) ∧
    modConflict.Install sampleEnv installersFirstFails []
      = ([.ModuleObject modConflict.asMod (.mk "First" "First" "" none [] [] none)],
          some (.error "cannot install")) ∧
    ¬ msgContains "cannot install" greeterObj.Name ∧
    ¬ msgContains "cannot install" modGreet.Name :=
  ⟨rfl, List.Mem.tail _ (List.Mem.head _), rfl, rfl, by decide, by decide⟩

/-- C17, amended. If the Dependency Set resolves a definition in `ObjectDefs`, the
first such at index `i`, to a type with an owning module, and the objects before it
are stored with object payload, then `Install` returns an error, and the calls it
makes on the schema server publish only objects before index `i`: no object at index
`i` or later, no interface and no enum. When the loop over the objects before index
`i` ends without error, all of them are published and the error is
`type %q is already defined by module %q`, whose message contains that object's
`Name` and the `Name` of the owning dependency module as `%q` renders them. -/
theorem Install_object_conflict (env : Env) (ins : Installers) (mod : Module) (d : ModDeps)
    (pre post : List TypeDef) (typeDef : TypeDef) (objDef : ObjectTypeDef)
    (modType : ModType) (owner : Mod) (dag : List Installed)
    (hdeps : mod.Deps = some d)
    (hdefs : mod.ObjectDefs = pre ++ typeDef :: post)
    (hwf : pre.all TypeDef.isObject = true)
    (hkind : typeDef.Kind = .Object objDef)
    (hfirst : ∀ t ∈ pre, ∀ m, d.ModTypeFor t ≠ .ok (some m))
    (hres : d.ModTypeFor typeDef = .ok (some modType))
    (hown : modType.SourceMod = some owner) :
    (∃ msg, (mod.Install env ins dag).2 = some (.error msg)) ∧
    (∃ k, k ≤ pre.length ∧
      (mod.Install env ins dag).1 = dag ++ mod.publishCalls (mod.ObjectDefs.take k)) ∧
    ((mod.installObjects env ins pre dag).2 = none →
      ∃ msg, mod.Install env ins dag = (dag ++ mod.publishCalls pre, some (.error msg)) ∧
        msg = "type " ++ env.quote objDef.Name ++ " is already defined by module "
          ++ env.quote owner.Name ∧
        msgContains msg (env.quote objDef.Name) ∧ msgContains msg (env.quote owner.Name)) := by
  obtain ⟨k, hk, hlog, hall⟩ := installObjects_calls env ins mod pre dag
  have hpanic := installObjects_noPanic env ins mod d hdeps pre dag hwf hfirst
  have hconf := fun dag' => installObjects_conflict env ins mod d typeDef objDef post modType
    owner dag' hdeps hkind hres hown
  have happ := installObjects_append env ins mod (typeDef :: post) pre dag
  rw [← hdefs] at happ
  have htake : mod.ObjectDefs.take k = pre.take k := by
    rw [hdefs, List.take_append_of_le_length hk]
  rcases hpre : mod.installObjects env ins pre dag with ⟨dag', _ | f⟩
  · -- the objects before index i are all published
    rw [hpre] at happ hlog hall
    simp only [hconf] at happ
    have hk' : k = pre.length := hall rfl
    have hdag : dag' = dag ++ mod.publishCalls pre := by
      have := hlog
      rw [hk', List.take_length] at this
      exact this
    have hI := Install_of_objects_fault env ins mod dag dag' _ happ
    refine ⟨⟨_, by rw [hI]⟩, ⟨k, hk, by rw [hI, htake]; exact hlog⟩, ?_⟩
    intro _
    refine ⟨_, by rw [hI, hdag], rfl, ?_, ?_⟩
    · exact msgContains_append_left _ (msgContains_append_left _ (msgContains_end _ _))
    · exact msgContains_end _ _
  · rw [hpre] at happ hlog hpanic
    simp only [] at happ
    have hI := Install_of_objects_fault env ins mod dag dag' f happ
    refine ⟨?_, ⟨k, hk, by rw [hI, htake]; exact hlog⟩, fun h => by simp at h⟩
    cases f with
    | error msg => exact ⟨msg, by rw [hI]⟩
    | panic msg => exact absurd rfl (hpanic msg)

theorem Install_object_conflict_witness :
    (∃ msg, (modConflict.Install sampleEnv installersOk []).2 = some (.error msg)) ∧
    (∃ k, k ≤ 1 ∧ (modConflict.Install sampleEnv installersOk []).1
      = [] ++ modConflict.publishCalls (modConflict.ObjectDefs.take k)) ∧
    ∃ msg, modConflict.Install sampleEnv installersOk []
        = ([] ++ modConflict.publishCalls
            [.mk (.Object (.mk "First" "First" "" none [] [] none)) false],
          some (.error msg)) ∧
      msg = "type " ++ sampleEnv.quote "Greeter" ++ " is already defined by module "
        ++ sampleEnv.quote "greet" ∧
      msgContains msg (sampleEnv.quote "Greeter") ∧ msgContains msg (sampleEnv.quote "greet") :=
  have h := Install_object_conflict sampleEnv installersOk modConflict depsOnGreet
    [.mk (.Object (.mk "First" "First" "" none [] [] none)) false] []
    (.mk (.Object greeterObj) false) greeterObj (.ModuleObjectType greeterObj modGreet)
    modGreet [] rfl rfl rfl rfl
    (fun t ht m => by
      simp only [List.mem_singleton] at ht
      subst ht
      intro h
      cases h)
    rfl rfl
  ⟨h.1, h.2.1, h.2.2 rfl⟩

/-- C18. The module `b` holds an interface named `Maker` that its Dependency Set
resolves to the interface of `a`; `Install` runs no lookup on interfaces, publishes
it and returns nil, while the object `Foo` in the same situation is rejected with
the conflict error and not published. -/
theorem Install_interface_conflict_published :
    modBMaker.Deps = some depsOnMaker ∧
    modBMaker.InterfaceDefs = [.mk (.Interface makerIface) false] ∧
    depsOnMaker.ModTypeFor (.mk (.Interface makerIface) false)
      = .ok (some (.InterfaceType makerOfA modA)) ∧
    modBMaker.Install sampleEnv installersOk []
      = ([.InterfaceType makerIface modBMaker.asMod], none) ∧
    modBFoo.Install sampleEnv installersOk []
      = ([], some (.error "type \"Foo\" is already defined by module \"a\"")) :=
  ⟨rfl, rfl, rfl, rfl, rfl⟩

theorem installObjects_ok (env : Env) (ins : Installers) (mod : Module) :
    ∀ (defs : List TypeDef) (dag : List Installed), defs.all TypeDef.isObject = true →
      (∀ t ∈ defs, ∃ d, mod.Deps = some d ∧ d.ModTypeFor t = .ok none) →
      (∀ dag' t obj, t ∈ defs → t.Kind = .Object obj →
        ins.ModuleObject dag' mod.asMod obj = none) →
      mod.installObjects env ins defs dag = (dag ++ mod.publishCalls defs, none)
  | [], dag, _, _, _ => by simp [Module.installObjects, Module.publishCalls]
  | .mk k opt :: rest, dag, hwf, hmiss, hpub => by
    simp only [List.all_cons, Bool.and_eq_true] at hwf
    obtain ⟨hhd, hrest⟩ := hwf
    cases k <;> simp [TypeDef.isObject] at hhd
    rename_i obj
    obtain ⟨d, hd, hm⟩ := hmiss (.mk (.Object obj) opt) (List.mem_cons_self _ _)
    have hp := hpub dag (.mk (.Object obj) opt) obj (List.mem_cons_self _ _) rfl
    have ih := installObjects_ok env ins mod rest (dag ++ [.ModuleObject mod.asMod obj]) hrest
      (fun t ht => hmiss t (List.mem_cons_of_mem _ ht))
      (fun dag' t o ht hk => hpub dag' t o (List.mem_cons_of_mem _ ht) hk)
    simp only [Module.installObjects, TypeDef.Kind, depsModTypeFor_ok hd hm, hp, ih]
    simp [Module.publishCalls, Module.publishCall]

theorem installInterfaces_ok (ins : Installers) (mod : Module) :
    ∀ (defs : List TypeDef) (dag : List Installed), defs.all TypeDef.isInterface = true →
      (∀ dag' t iface, t ∈ defs → t.Kind = .Interface iface →
        ins.InterfaceType dag' iface mod.asMod = none) →
      mod.installInterfaces ins defs dag = (dag ++ mod.publishCalls defs, none)
  | [], dag, _, _ => by simp [Module.installInterfaces, Module.publishCalls]
  | .mk k opt :: rest, dag, hwf, hpub => by
    simp only [List.all_cons, Bool.and_eq_true] at hwf
    obtain ⟨hhd, hrest⟩ := hwf
    cases k <;> simp [TypeDef.isInterface] at hhd
    rename_i iface
    have hp := hpub dag (.mk (.Interface iface) opt) iface (List.mem_cons_self _ _) rfl
    have ih := installInterfaces_ok ins mod rest (dag ++ [.InterfaceType iface mod.asMod]) hrest
      (fun dag' t o ht hk => hpub dag' t o (List.mem_cons_of_mem _ ht) hk)
    simp only [Module.installInterfaces, TypeDef.Kind, hp, ih]
    simp [Module.publishCalls, Module.publishCall]

theorem installEnums_ok (mod : Module) :
    ∀ (defs : List TypeDef) (dag : List Installed), defs.all TypeDef.isEnum = true →
      mod.installEnums defs dag = (dag ++ mod.publishCalls defs, none)
  | [], dag, _ => by simp [Module.installEnums, Module.publishCalls]
  | .mk k opt :: rest, dag, hwf => by
    simp only [List.all_cons, Bool.and_eq_true] at hwf
    obtain ⟨hhd, hrest⟩ := hwf
    cases k <;> simp [TypeDef.isEnum] at hhd
    rename_i enum
    have ih := installEnums_ok mod rest (dag ++ [.ModuleEnum enum]) hrest
    simp only [Module.installEnums, TypeDef.Kind, ih]
    simp [Module.publishCalls, Module.publishCall]

theorem publishCalls_append (mod : Module) (xs ys : List TypeDef) :
    mod.publishCalls (xs ++ ys) = mod.publishCalls xs ++ mod.publishCalls ys := by
  simp [Module.publishCalls]

theorem publishCall_isSome_of_wellFormed (mod : Module) (hwf : mod.WellFormed = true)
    (t : TypeDef) (ht : t ∈ mod.ObjectDefs ++ mod.InterfaceDefs ++ mod.EnumDefs) :
    ∃ call, mod.publishCall t = some call := by
  simp only [Module.WellFormed, Bool.and_eq_true, List.all_eq_true] at hwf
  obtain ⟨⟨hobj, hiface⟩, henum⟩ := hwf
  obtain ⟨k, opt⟩ := t
  simp only [List.mem_append] at ht
  rcases ht with (ht | ht) | ht
  · have h := hobj _ ht
    cases k <;> simp [TypeDef.isObject] at h
    exact ⟨_, rfl⟩
  · have h := hiface _ ht
    cases k <;> simp [TypeDef.isInterface] at h
    exact ⟨_, rfl⟩
  · have h := henum _ ht
    cases k <;> simp [TypeDef.isEnum] at h
    exact ⟨_, rfl⟩

theorem map_some_filterMap {α β : Type} (f : α → Option β) :
    ∀ l : List α, (∀ x ∈ l, ∃ y, f x = some y) → (l.filterMap f).map some = l.map f
  | [], _ => rfl
  | x :: rest, h => by
    obtain ⟨y, hy⟩ := h x (List.mem_cons_self _ _)
    have ih := map_some_filterMap f rest (fun z hz => h z (List.mem_cons_of_mem _ hz))
    simp [List.filterMap_cons, hy, ih]

/-- C19. For a module whose collections hold definitions of their own kind, when the
Dependency Set resolves no object of the module (each lookup misses without error)
and no publish step on its objects and interfaces fails, `Install` returns nil and
the calls it makes on the schema server publish `ObjectDefs` in declaration order,
then `InterfaceDefs` in declaration order, then `EnumDefs` in declaration order, one
call for each definition; interfaces and enums are published with no lookup in the
Dependency Set. -/
theorem Install_order (env : Env) (ins : Installers) (mod : Module) (dag : List Installed)
    (hwf : mod.WellFormed = true)
    (hmiss : ∀ t ∈ mod.ObjectDefs, ∃ d, mod.Deps = some d ∧ d.ModTypeFor t = .ok none)
    (hobj : ∀ dag' t obj, t ∈ mod.ObjectDefs → t.Kind = .Object obj →
      ins.ModuleObject dag' mod.asMod obj = none)
    (hiface : ∀ dag' t iface, t ∈ mod.InterfaceDefs → t.Kind = .Interface iface →
      ins.InterfaceType dag' iface mod.asMod = none) :
    mod.Install env ins dag
      = (dag ++ mod.publishCalls (mod.ObjectDefs ++ mod.InterfaceDefs ++ mod.EnumDefs), none) ∧
    (mod.publishCalls (mod.ObjectDefs ++ mod.InterfaceDefs ++ mod.EnumDefs)).map some
      = (mod.ObjectDefs ++ mod.InterfaceDefs ++ mod.EnumDefs).map mod.publishCall := by
  have hwf' := hwf
  simp only [Module.WellFormed, Bool.and_eq_true] at hwf'
  obtain ⟨⟨ho, hi⟩, he⟩ := hwf'
  refine ⟨?_, map_some_filterMap _ _ (publishCall_isSome_of_wellFormed mod hwf)⟩
  simp only [Module.Install, installObjects_ok env ins mod _ dag ho hmiss hobj,
    installInterfaces_ok ins mod _ _ hi hiface, installEnums_ok mod _ _ he,
    publishCalls_append, List.append_assoc]

theorem Install_order_witness :
    modBThree.Install sampleEnv installersOk []
      = ([] ++ modBThree.publishCalls
          (modBThree.ObjectDefs ++ modBThree.InterfaceDefs ++ modBThree.EnumDefs), none) ∧
    (modBThree.publishCalls
        (modBThree.ObjectDefs ++ modBThree.InterfaceDefs ++ modBThree.EnumDefs)).map some
      = [some (.ModuleObject modBThree.asMod barObj),
         some (.InterfaceType ifaceId modBThree.asMod), some (.ModuleEnum staleColorEnum)] :=
  Install_order sampleEnv installersOk modBThree [] rfl
    (fun _ _ => ⟨noDeps, rfl, rfl⟩) (fun _ _ _ _ _ => rfl) (fun _ _ _ _ _ => rfl)

/-! ## The enumeration of definitions -/

theorem typeDefsObject_eq (mod : Module) (t : TypeDef) (h : t.isObject = true) :
    mod.typeDefsObject t = t.withSourceModuleName mod.Name := by
  obtain ⟨k, opt⟩ := t
  cases k <;> simp [TypeDef.isObject] at h
  rename_i obj
  obtain ⟨n, o, s, sm, fs, fns, c⟩ := obj
  rfl

theorem typeDefsInterface_eq (mod : Module) (t : TypeDef) (h : t.isInterface = true) :
    mod.typeDefsInterface t = t.withSourceModuleName mod.Name := by
  obtain ⟨k, opt⟩ := t
  cases k <;> simp [TypeDef.isInterface] at h
  rename_i iface
  obtain ⟨n, o, s, sm, fns⟩ := iface
  rfl

theorem typeDefsEnum_eq (mod : Module) (t : TypeDef) (h : t.isEnum = true) :
    mod.typeDefsEnum t = t.withSourceModuleName mod.Name := by
  obtain ⟨k, opt⟩ := t
  cases k <;> simp [TypeDef.isEnum] at h
  rfl

/-- What `TypeDefs` returns, on values: for a module whose collections hold definitions
of their own kind, the stored definitions in order, each with `SourceModuleName` set
to the module's `Name()` and otherwise as stored. -/
theorem TypeDefs_values (mod : Module) (hwf : mod.WellFormed = true) :
    ∃ out, mod.TypeDefs = .ok out ∧
      out.length = mod.ObjectDefs.length + mod.InterfaceDefs.length + mod.EnumDefs.length ∧
      out = (mod.ObjectDefs ++ mod.InterfaceDefs ++ mod.EnumDefs).map
        (TypeDef.withSourceModuleName mod.Name) ∧
      ∀ stored ∈ mod.ObjectDefs ++ mod.InterfaceDefs ++ mod.EnumDefs,
        (stored.withSourceModuleName mod.Name).nodeSourceModuleName = some mod.Name ∧
        ∀ s, stored.nodeSourceModuleName = some s →
          (stored.withSourceModuleName mod.Name).withSourceModuleName s = stored := by
  have hwf' := hwf
  simp only [Module.WellFormed, Bool.and_eq_true, List.all_eq_true] at hwf'
  obtain ⟨⟨ho, hi⟩, he⟩ := hwf'
  refine ⟨_, rfl, by simp [Nat.add_assoc], ?_, ?_⟩
  · simp only [List.map_append]
    congr 1
    · congr 1
      · exact List.map_congr_left (fun t ht => typeDefsObject_eq mod t (ho t ht))
      · exact List.map_congr_left (fun t ht => typeDefsInterface_eq mod t (hi t ht))
    · exact List.map_congr_left (fun t ht => typeDefsEnum_eq mod t (he t ht))
  · intro stored hs
    obtain ⟨call, hcall⟩ := publishCall_isSome_of_wellFormed mod hwf stored hs
    obtain ⟨k, opt⟩ := stored
    cases k <;> simp [Module.publishCall] at hcall
    · rename_i obj
      obtain ⟨n, o, s, sm, fs, fns, c⟩ := obj
      refine ⟨rfl, ?_⟩
      intro s' hs'
      simp only [TypeDef.nodeSourceModuleName, ObjectTypeDef.SourceModuleName,
        Option.some.injEq] at hs'
      subst hs'
      rfl
    · rename_i iface
      obtain ⟨n, o, s, sm, fns⟩ := iface
      refine ⟨rfl, ?_⟩
      intro s' hs'
      simp only [TypeDef.nodeSourceModuleName, InterfaceTypeDef.SourceModuleName,
        Option.some.injEq] at hs'
      subst hs'
      rfl
    · rename_i enum
      refine ⟨rfl, ?_⟩
      intro s' hs'
      simp only [TypeDef.nodeSourceModuleName, Option.some.injEq] at hs'
      subst hs'
      rfl

theorem Heap.Preserved.readAll {h h' : Heap} (hp : h.Preserved h') :
    ∀ (ptrs : List Nat) (vals : List TypeDef), h.readAll ptrs = some vals →
      h'.readAll ptrs = some vals
  | [], vals, hr => hr
  | p :: rest, vals, hr => by
    simp only [Heap.readAll] at hr ⊢
    split at hr
    · rename_i t ts ht hts
      rw [hp p t ht, Heap.Preserved.readAll hp rest ts hts]
      exact hr
    · cases hr

theorem Heap.Preserved.trans {h h' h'' : Heap} (hp : h.Preserved h')
    (hp' : h'.Preserved h'') : h.Preserved h'' :=
  fun p t ht => hp' p t (hp p t ht)

/-- One loop of `TypeDefs` in memory, over pointers that are all allocated: it ends
without fault, writes no cell allocated before it, and returns pointers to new cells
that hold the stored definitions as `step` leaves their clones. -/
theorem Heap.typeDefsLoop_spec (step : TypeDef → TypeDef) :
    ∀ (ptrs : List Nat) (h : Heap) (vals : List TypeDef), h.Fresh →
      h.readAll ptrs = some vals →
      ∃ h' out, Heap.typeDefsLoop step h ptrs = (h', .ok out) ∧ h'.Fresh ∧
        h.Preserved h' ∧ h'.readAll out = some (vals.map step) ∧
        (∀ q ∈ out, h.typeDefs q = none) ∧ h.next ≤ h'.next
  | [], h, vals, hf, hr => by
    simp only [Heap.readAll, Option.some.injEq] at hr
    subst hr
    exact ⟨h, [], rfl, hf, fun _ _ ht => ht, rfl, fun _ hq => (by cases hq), Nat.le_refl _⟩
  | p :: rest, h, vals, hf, hr => by
    simp only [Heap.readAll] at hr
    split at hr
    · rename_i t ts ht hts
      simp only [Option.some.injEq] at hr
      subst hr
      have hnew : h.typeDefs h.next = none := hf h.next (Nat.le_refl _)
      have hp2 : h.Preserved ((h.alloc t.Clone).1.write h.next (step t)) := by
        intro a v ha
        have hne : a ≠ h.next := by
          intro he
          rw [he, hnew] at ha
          cases ha
        simp [Heap.write, Heap.alloc, hne, ha]
      have hf2 : ((h.alloc t.Clone).1.write h.next (step t)).Fresh := by
        intro a ha
        have hlt : h.next < a := ha
        have hne : a ≠ h.next := Nat.ne_of_gt hlt
        simp only [Heap.write, Heap.alloc, hne, if_false]
        exact hf a (Nat.le_of_lt hlt)
      obtain ⟨h', out, hloop, hf', hp', hread, hout, hle⟩ :=
        Heap.typeDefsLoop_spec step rest _ ts hf2 (hp2.readAll rest ts hts)
      refine ⟨h', h.next :: out, ?_, hf', hp2.trans hp', ?_, ?_, ?_⟩
      · simp only [Heap.typeDefsLoop, ht]
        have ha : h.alloc t.Clone = ((h.alloc t.Clone).1, h.next) := rfl
        rw [ha]
        simp only [hloop]
      · have hq : h'.typeDefs h.next = some (step t) :=
          hp' h.next (step t) (by simp [Heap.write])
        simp only [Heap.readAll, hq, hread, List.map_cons]
      · intro q hq
        rcases List.mem_cons.mp hq with rfl | hq
        · exact hnew
        · have h2 := hout q hq
          by_cases hne : q = h.next
          · rw [hne]
            exact hnew
          · simpa [Heap.write, Heap.alloc, hne] using h2
      · exact Nat.le_trans (Nat.le_succ _) hle
    · cases hr

theorem Heap.readAll_append (h : Heap) :
    ∀ (ps qs : List Nat) (vs ws : List TypeDef), h.readAll ps = some vs →
      h.readAll qs = some ws → h.readAll (ps ++ qs) = some (vs ++ ws)
  | [], qs, vs, ws, hp, hq => by
    simp only [Heap.readAll, Option.some.injEq] at hp
    subst hp
    exact hq
  | p :: ps, qs, vs, ws, hp, hq => by
    simp only [Heap.readAll] at hp
    split at hp
    · rename_i t ts ht hts
      simp only [Option.some.injEq] at hp
      subst hp
      have ih := Heap.readAll_append h ps qs ts ws hts hq
      show h.readAll (p :: (ps ++ qs)) = some (t :: (ts ++ ws))
      simp only [Heap.readAll, ht, ih]
    · cases hp

theorem Heap.Preserved.fresh_of_fresh {h h' : Heap} (hp : h.Preserved h') {q : Nat}
    (hq : h'.typeDefs q = none) : h.typeDefs q = none := by
  cases hc : h.typeDefs q with
  | none => rfl
  | some t =>
    rw [hp q t hc] at hq
    cases hq

/-- The method `TypeDefs` in memory, for collections whose pointers are all
allocated: it ends without fault, writes no cell allocated before the call, and
returns pointers to new cells that hold what `TypeDefs` returns on values. -/
theorem Heap.TypeDefs_spec (h : Heap) (mod : Module)
    (objectDefs interfaceDefs enumDefs : List Nat) (hf : h.Fresh)
    (hobj : h.readAll objectDefs = some mod.ObjectDefs)
    (hiface : h.readAll interfaceDefs = some mod.InterfaceDefs)
    (henum : h.readAll enumDefs = some mod.EnumDefs) :
    ∃ h' typeDefs, Heap.TypeDefs h mod objectDefs interfaceDefs enumDefs
        = (h', .ok typeDefs) ∧
      h.Preserved h' ∧
      h'.readAll typeDefs = some (mod.ObjectDefs.map mod.typeDefsObject
        ++ mod.InterfaceDefs.map mod.typeDefsInterface ++ mod.EnumDefs.map mod.typeDefsEnum) ∧
      ∀ q ∈ typeDefs, h.typeDefs q = none := by
  obtain ⟨h1, out1, hl1, hf1, hp1, hr1, hn1, _⟩ :=
    Heap.typeDefsLoop_spec mod.typeDefsObject objectDefs h _ hf hobj
  obtain ⟨h2, out2, hl2, hf2, hp2, hr2, hn2, _⟩ :=
    Heap.typeDefsLoop_spec mod.typeDefsInterface interfaceDefs h1 _ hf1
      (hp1.readAll _ _ hiface)
  obtain ⟨h3, out3, hl3, hf3, hp3, hr3, hn3, _⟩ :=
    Heap.typeDefsLoop_spec mod.typeDefsEnum enumDefs h2 _ hf2
      ((hp1.trans hp2).readAll _ _ henum)
  refine ⟨h3, out1 ++ out2 ++ out3, ?_, (hp1.trans hp2).trans hp3, ?_, ?_⟩
  · simp only [Heap.TypeDefs, hl1, hl2, hl3]
  · exact Heap.readAll_append h3 _ _ _ _
      (Heap.readAll_append h3 _ _ _ _ ((hp2.trans hp3).readAll _ _ hr1)
        (hp3.readAll _ _ hr2)) hr3
  · intro q hq
    rcases List.mem_append.mp hq with hq | hq
    · rcases List.mem_append.mp hq with hq | hq
      · exact hn1 q hq
      · exact hp1.fresh_of_fresh (hn2 q hq)
    · exact (hp1.trans hp2).fresh_of_fresh (hn3 q hq)

/-- C20. For a module whose collections hold definitions of their own kind, `TypeDefs`
returns no error and a list of length `len(ObjectDefs)+len(InterfaceDefs)+
len(EnumDefs)` whose entries are, in order, the object, interface and enum
definitions, each with `SourceModuleName` set to the module's `Name()` and otherwise
equal to the stored definition. In memory, with the collections given as pointers to
allocated TypeDefs, the call ends without fault, the pointers it returns point to
cells that were not allocated before and hold these entries, and no cell allocated
before the call is written: the stored definitions are left unchanged. -/
theorem TypeDefs_enumerates (mod : Module) (hwf : mod.WellFormed = true) :
    ∃ out, mod.TypeDefs = .ok out ∧
      out.length = mod.ObjectDefs.length + mod.InterfaceDefs.length + mod.EnumDefs.length ∧
      out = (mod.ObjectDefs ++ mod.InterfaceDefs ++ mod.EnumDefs).map
        (TypeDef.withSourceModuleName mod.Name) ∧
      (∀ stored ∈ mod.ObjectDefs ++ mod.InterfaceDefs ++ mod.EnumDefs,
        (stored.withSourceModuleName mod.Name).nodeSourceModuleName = some mod.Name ∧
        ∀ s, stored.nodeSourceModuleName = some s →
          (stored.withSourceModuleName mod.Name).withSourceModuleName s = stored) ∧
      ∀ (h : Heap) (objectDefs interfaceDefs enumDefs : List Nat), h.Fresh →
        h.readAll objectDefs = some mod.ObjectDefs →
        h.readAll interfaceDefs = some mod.InterfaceDefs →
        h.readAll enumDefs = some mod.EnumDefs →
        ∃ h' typeDefs, Heap.TypeDefs h mod objectDefs interfaceDefs enumDefs
            = (h', .ok typeDefs) ∧
          h'.readAll typeDefs = some out ∧
          (∀ q ∈ typeDefs, h.typeDefs q = none) ∧
          h.Preserved h' ∧
          h'.readAll objectDefs = some mod.ObjectDefs ∧
          h'.readAll interfaceDefs = some mod.InterfaceDefs ∧
          h'.readAll enumDefs = some mod.EnumDefs := by
  obtain ⟨out, hout, hlen, hmap, hstored⟩ := TypeDefs_values mod hwf
  refine ⟨out, hout, hlen, hmap, hstored, ?_⟩
  intro h objectDefs interfaceDefs enumDefs hf hobj hiface henum
  obtain ⟨h', typeDefs, hcall, hp, hread, hnew⟩ :=
    Heap.TypeDefs_spec h mod objectDefs interfaceDefs enumDefs hf hobj hiface henum
  have hval : out = mod.ObjectDefs.map mod.typeDefsObject
      ++ mod.InterfaceDefs.map mod.typeDefsInterface ++ mod.EnumDefs.map mod.typeDefsEnum := by
    simp only [Module.TypeDefs, Except.ok.injEq] at hout
    exact hout.symm
  exact ⟨h', typeDefs, hcall, hval ▸ hread, hnew, hp, hp.readAll _ _ hobj,
    hp.readAll _ _ hiface, hp.readAll _ _ henum⟩

theorem TypeDefs_enumerates_witness :
    (∃ out, modBThree.TypeDefs = .ok out ∧
      out.length = 1 + 1 + 1 ∧
      out = [(TypeDef.mk (.Object barObj) false).withSourceModuleName "b",
        (TypeDef.mk (.Interface ifaceId) false).withSourceModuleName "b",
        staleColorDef.withSourceModuleName "b"] ∧
      (∀ stored ∈ modBThree.ObjectDefs ++ modBThree.InterfaceDefs ++ modBThree.EnumDefs,
        (stored.withSourceModuleName modBThree.Name).nodeSourceModuleName
          = some modBThree.Name ∧
        ∀ s, stored.nodeSourceModuleName = some s →
          (stored.withSourceModuleName modBThree.Name).withSourceModuleName s = stored) ∧
      ∀ (h : Heap) (objectDefs interfaceDefs enumDefs : List Nat), h.Fresh →
        h.readAll objectDefs = some modBThree.ObjectDefs →
        h.readAll interfaceDefs = some modBThree.InterfaceDefs →
        h.readAll enumDefs = some modBThree.EnumDefs →
        ∃ h' typeDefs, Heap.TypeDefs h modBThree objectDefs interfaceDefs enumDefs
            = (h', .ok typeDefs) ∧
          h'.readAll typeDefs = some out ∧
          (∀ q ∈ typeDefs, h.typeDefs q = none) ∧
          h.Preserved h' ∧
          h'.readAll objectDefs = some modBThree.ObjectDefs ∧
          h'.readAll interfaceDefs = some modBThree.InterfaceDefs ∧
          h'.readAll enumDefs = some modBThree.EnumDefs) ∧
    defsHeap.Fresh ∧
    defsHeap.readAll [10] = some modBThree.ObjectDefs ∧
    defsHeap.readAll [11] = some modBThree.InterfaceDefs ∧
    defsHeap.readAll [12] = some modBThree.EnumDefs ∧
    (∃ h' typeDefs, Heap.TypeDefs defsHeap modBThree [10] [11] [12] = (h', .ok typeDefs) ∧
      h'.readAll typeDefs
        = some [(TypeDef.mk (.Object barObj) false).withSourceModuleName "b",
            (TypeDef.mk (.Interface ifaceId) false).withSourceModuleName "b",
            staleColorDef.withSourceModuleName "b"] ∧
      (∀ q ∈ typeDefs, defsHeap.typeDefs q = none) ∧
      defsHeap.Preserved h' ∧
      h'.readAll [10] = some modBThree.ObjectDefs ∧
      h'.readAll [11] = some modBThree.InterfaceDefs ∧
      h'.readAll [12] = some modBThree.EnumDefs) ∧
    (Heap.TypeDefs defsHeap modBThree [10] [11] [12]).2 = .ok [20, 21, 22] ∧
    (Heap.TypeDefs defsHeap modBThree [10] [11] [12]).1.readAll [20, 21, 22]
      = some [(TypeDef.mk (.Object barObj) false).withSourceModuleName "b",
          (TypeDef.mk (.Interface ifaceId) false).withSourceModuleName "b",
          staleColorDef.withSourceModuleName "b"] ∧
    (Heap.TypeDefs defsHeap modBThree [10] [11] [12]).1.readAll [10, 11, 12]
      = some [.mk (.Object barObj) false, .mk (.Interface ifaceId) false, staleColorDef] := by
  have hfresh : defsHeap.Fresh := by
    intro a ha
    have h20 : (20 : Nat) ≤ a := ha
    simp only [defsHeap]
    rw [if_neg (by omega), if_neg (by omega), if_neg (by omega)]
  have h := TypeDefs_enumerates modBThree rfl
  refine ⟨h, hfresh, rfl, rfl, rfl, ?_, rfl, rfl, rfl⟩
  obtain ⟨out, _, _, h3, _, hmem⟩ := h
  subst h3
  exact hmem defsHeap [10] [11] [12] hfresh rfl rfl rfl

/-! ## The builder keeps the collections well-formed -/

theorem isObject_of_erase_eq (t t' : TypeDef) (h : t'.erase = t.erase)
    (ht : t.isObject = true) : t'.isObject = true := by
  obtain ⟨k, opt⟩ := t
  obtain ⟨k', opt'⟩ := t'
  cases k <;> simp [TypeDef.isObject] at ht
  cases k' <;> simp [TypeDef.erase] at h
  rfl

theorem isInterface_of_erase_eq (t t' : TypeDef) (h : t'.erase = t.erase)
    (ht : t.isInterface = true) : t'.isInterface = true := by
  obtain ⟨k, opt⟩ := t
  obtain ⟨k', opt'⟩ := t'
  cases k <;> simp [TypeDef.isInterface] at ht
  cases k' <;> simp [TypeDef.erase] at h
  rfl

theorem isEnum_of_erase_eq (t t' : TypeDef) (h : t'.erase = t.erase)
    (ht : t.isEnum = true) : t'.isEnum = true := by
  obtain ⟨k, opt⟩ := t
  obtain ⟨k', opt'⟩ := t'
  cases k <;> simp [TypeDef.isEnum] at ht
  cases k' <;> simp [TypeDef.erase] at h
  rfl

/-- `WithObject` leaves a well-formed module well-formed. -/
theorem WithObject_wellFormed (env : Env) (mod m : Module) (fresh : Nat) (t : TypeDef)
    (hwf : mod.WellFormed = true) (h : mod.WithObject env fresh t = .ok m) :
    m.WellFormed = true := by
  simp only [Module.WithObject] at h
  split at h
  · rename_i obj hk
    split at h
    · cases h
    · rename_i t' ht'
      cases h
      have hobj : t.isObject = true := by
        obtain ⟨k, opt⟩ := t
        simp only [TypeDef.Kind] at hk
        subst hk
        rfl
      have := isObject_of_erase_eq t t' (validateAndNamespace_erase env _ t t' ht') hobj
      simp only [Module.WellFormed, Bool.and_eq_true] at hwf ⊢
      simp only [Module.Clone, map_Clone, List.all_append, List.all_cons, List.all_nil,
        Bool.and_true, Bool.and_eq_true]
      exact ⟨⟨⟨hwf.1.1, this⟩, hwf.1.2⟩, hwf.2⟩
  · cases h

/-- `WithInterface` leaves a well-formed module well-formed. -/
theorem WithInterface_wellFormed (env : Env) (mod m : Module) (fresh : Nat) (t : TypeDef)
    (hwf : mod.WellFormed = true) (h : mod.WithInterface env fresh t = .ok m) :
    m.WellFormed = true := by
  simp only [Module.WithInterface] at h
  split at h
  · rename_i iface hk
    split at h
    · cases h
    · rename_i t' ht'
      cases h
      have hiface : t.isInterface = true := by
        obtain ⟨k, opt⟩ := t
        simp only [TypeDef.Kind] at hk
        subst hk
        rfl
      have := isInterface_of_erase_eq t t' (validateAndNamespace_erase env _ t t' ht') hiface
      simp only [Module.WellFormed, Bool.and_eq_true] at hwf ⊢
      simp only [Module.Clone, map_Clone, List.all_append, List.all_cons, List.all_nil,
        Bool.and_true, Bool.and_eq_true]
      exact ⟨⟨hwf.1.1, hwf.1.2, this⟩, hwf.2⟩
  · cases h

/-- `WithEnum` leaves a well-formed module well-formed. -/
theorem WithEnum_wellFormed (env : Env) (mod m : Module) (fresh : Nat) (t : TypeDef)
    (hwf : mod.WellFormed = true) (h : mod.WithEnum env fresh t = .ok m) :
    m.WellFormed = true := by
  simp only [Module.WithEnum] at h
  split at h
  · rename_i enum hk
    split at h
    · cases h
    · rename_i t' ht'
      cases h
      have henum : t.isEnum = true := by
        obtain ⟨k, opt⟩ := t
        simp only [TypeDef.Kind] at hk
        subst hk
        rfl
      have := isEnum_of_erase_eq t t' (validateAndNamespace_erase env _ t t' ht') henum
      simp only [Module.WellFormed, Bool.and_eq_true] at hwf ⊢
      simp only [Module.Clone, map_Clone, List.all_append, List.all_cons, List.all_nil,
        Bool.and_true, Bool.and_eq_true]
      exact ⟨hwf.1, hwf.2, this⟩
  · cases h

/-! ## The builder -/

/-- C22. `WithObject` returns an error for every TypeDef whose object variant is not
set, `WithInterface` for every TypeDef whose interface variant is not set and
`WithEnum` for every TypeDef whose enum variant is not set, whatever the module's
Dependency Set and name are. -/
theorem With_kind_check (env : Env) (mod : Module) (fresh : Nat) (t : TypeDef) :
    (t.isObject = false →
      mod.WithObject env fresh t = .error (.error ("expected object type def, got "
        ++ env.kindString t.Kind ++ ": " ++ env.fmtTypeDef t))) ∧
    (t.isInterface = false →
      mod.WithInterface env fresh t = .error (.error ("expected interface type def, got "
        ++ env.kindString t.Kind ++ ": " ++ env.fmtTypeDef t))) ∧
    (t.isEnum = false →
      mod.WithEnum env fresh t = .error (.error ("expected enum type def, got "
        ++ env.kindString t.Kind ++ ": " ++ env.fmtTypeDef t))) := by
  obtain ⟨k, opt⟩ := t
  refine ⟨?_, ?_, ?_⟩
  · intro h
    cases k <;> simp [TypeDef.isObject] at h <;> rfl
  · intro h
    cases k <;> simp [TypeDef.isInterface] at h <;> rfl
  · intro h
    cases k <;> simp [TypeDef.isEnum] at h <;> rfl

theorem With_kind_check_witness :
    modB.WithObject sampleEnv 7 staleColorDef
      = .error (.error ("expected object type def, got " ++ sampleEnv.kindString
          staleColorDef.Kind ++ ": " ++ sampleEnv.fmtTypeDef staleColorDef)) ∧
    modRaw.WithInterface sampleEnv 7 fooDef
      = .error (.error ("expected interface type def, got " ++ sampleEnv.kindString
          fooDef.Kind ++ ": " ++ sampleEnv.fmtTypeDef fooDef)) ∧
    modB.WithEnum sampleEnv 7 fooDef
      = .error (.error ("expected enum type def, got " ++ sampleEnv.kindString
          fooDef.Kind ++ ": " ++ sampleEnv.fmtTypeDef fooDef)) :=
  ⟨(With_kind_check sampleEnv modB 7 staleColorDef).1 rfl,
    (With_kind_check sampleEnv modRaw 7 fooDef).2.1 rfl,
    (With_kind_check sampleEnv modB 7 fooDef).2.2 rfl⟩

theorem validateAndNamespace_raw (env : Env) (mod : Module) (t : TypeDef)
    (hdeps : mod.Deps = none) (hname : mod.NameField = "") :
    mod.validateAndNamespace env t = .ok t := by
  simp [Module.validateAndNamespace, hdeps, hname]

/-- C23. For a module with no Dependency Set and an empty name, `WithObject`,
`WithInterface` and `WithEnum` succeed for every TypeDef of the matching kind,
whatever its members are, and the definition appended to the collection is the
supplied TypeDef unchanged; the other collections are those of the receiver. -/
theorem With_raw_construction (env : Env) (mod : Module) (fresh : Nat) (t : TypeDef)
    (hdeps : mod.Deps = none) (hname : mod.NameField = "") :
    (t.isObject = true → ∃ m, mod.WithObject env fresh t = .ok m ∧
      m.ObjectDefs = mod.ObjectDefs ++ [t] ∧ m.InterfaceDefs = mod.InterfaceDefs ∧
      m.EnumDefs = mod.EnumDefs) ∧
    (t.isInterface = true → ∃ m, mod.WithInterface env fresh t = .ok m ∧
      m.InterfaceDefs = mod.InterfaceDefs ++ [t] ∧ m.ObjectDefs = mod.ObjectDefs ∧
      m.EnumDefs = mod.EnumDefs) ∧
    (t.isEnum = true → ∃ m, mod.WithEnum env fresh t = .ok m ∧
      m.EnumDefs = mod.EnumDefs ++ [t] ∧ m.ObjectDefs = mod.ObjectDefs ∧
      m.InterfaceDefs = mod.InterfaceDefs) := by
  have hraw := validateAndNamespace_raw env (mod.Clone fresh) t hdeps hname
  obtain ⟨k, opt⟩ := t
  refine ⟨?_, ?_, ?_⟩
  · intro h
    cases k <;> simp [TypeDef.isObject] at h
    simp only [Module.WithObject, TypeDef.Kind, hraw]
    exact ⟨_, rfl, by simp [Module.Clone, map_Clone], by simp [Module.Clone, map_Clone],
      by simp [Module.Clone, map_Clone]⟩
  · intro h
    cases k <;> simp [TypeDef.isInterface] at h
    simp only [Module.WithInterface, TypeDef.Kind, hraw]
    exact ⟨_, rfl, by simp [Module.Clone, map_Clone], by simp [Module.Clone, map_Clone],
      by simp [Module.Clone, map_Clone]⟩
  · intro h
    cases k <;> simp [TypeDef.isEnum] at h
    simp only [Module.WithEnum, TypeDef.Kind, hraw]
    exact ⟨_, rfl, by simp [Module.Clone, map_Clone], by simp [Module.Clone, map_Clone],
      by simp [Module.Clone, map_Clone]⟩

theorem With_raw_construction_witness :
    (∃ m, modRaw.WithObject sampleEnv 7 (.mk (.Object bazObj) false) = .ok m ∧
      m.ObjectDefs = modRaw.ObjectDefs ++ [.mk (.Object bazObj) false] ∧
      m.InterfaceDefs = modRaw.InterfaceDefs ∧ m.EnumDefs = modRaw.EnumDefs) ∧
    (∃ m, modRaw.WithInterface sampleEnv 7 (.mk (.Interface ifaceId) false) = .ok m ∧
      m.InterfaceDefs = modRaw.InterfaceDefs ++ [.mk (.Interface ifaceId) false] ∧
      m.ObjectDefs = modRaw.ObjectDefs ∧ m.EnumDefs = modRaw.EnumDefs) ∧
    ∃ m, modRaw.WithEnum sampleEnv 7 staleColorDef = .ok m ∧
      m.EnumDefs = modRaw.EnumDefs ++ [staleColorDef] ∧ m.ObjectDefs = modRaw.ObjectDefs ∧
      m.InterfaceDefs = modRaw.InterfaceDefs :=
  ⟨(With_raw_construction sampleEnv modRaw 7 (.mk (.Object bazObj) false) rfl rfl).1 rfl,
    (With_raw_construction sampleEnv modRaw 7 (.mk (.Interface ifaceId) false) rfl rfl).2.1 rfl,
    (With_raw_construction sampleEnv modRaw 7 staleColorDef rfl rfl).2.2 rfl⟩

/-! ## Source maps -/

/-- C24. `namespaceSourceMap` returns nil for a nil source map; for a non-nil source
map it returns nil when the kind of the module's source is not local, and when the
kind is local it returns the source map with `Module` set to the module's `Name()`
and `Filename` set to `filepath.Join(modPath, Filename)`, the other fields
unchanged. -/
theorem namespaceSourceMap_rewrites (env : Env) (mod : Module) (modPath : String) :
    mod.namespaceSourceMap env modPath none = .ok none ∧
    (∀ src sourceMap, mod.Source = some src → src.Kind ≠ .Local →
      mod.namespaceSourceMap env modPath (some sourceMap) = .ok none) ∧
    (∀ src sourceMap, mod.Source = some src → src.Kind = .Local →
      mod.namespaceSourceMap env modPath (some sourceMap)
        = .ok (some { Module := mod.Name,
                      Filename := env.filepathJoin modPath sourceMap.Filename,
                      Line := sourceMap.Line, Column := sourceMap.Column })) := by
  refine ⟨rfl, ?_, ?_⟩
  · intro src sm hsrc hk
    simp [Module.namespaceSourceMap, hsrc, hk]
  · intro src sm hsrc hk
    simp [Module.namespaceSourceMap, hsrc, hk]

theorem namespaceSourceMap_rewrites_witness :
    modB.namespaceSourceMap sampleEnv "b" none = .ok none ∧
    modB.namespaceSourceMap sampleEnv "b" (some aSourceMap)
      = .ok (some { Module := "b", Filename := "b/color.go", Line := 3, Column := 1 }) :=
  have h := namespaceSourceMap_rewrites sampleEnv modB "b"
  ⟨h.1, h.2.2 { Kind := .Local, SourceSubpath := "b" } aSourceMap rfl rfl⟩

/-! ## Lookups that do not consult the Dependency Set -/

theorem modTypeForObjectIn_congr (m1 m2 : Module) (name : String)
    (hid : m1.asMod = m2.asMod) :
    ∀ l : List TypeDef, m1.modTypeForObjectIn name l = m2.modTypeForObjectIn name l
  | [] => rfl
  | .mk k opt :: rest => by
    have ih := modTypeForObjectIn_congr m1 m2 name hid rest
    cases k <;> simp [Module.modTypeForObjectIn, TypeDef.Kind, hid, ih]

theorem modTypeForInterfaceIn_congr (m1 m2 : Module) (name : String)
    (hid : m1.asMod = m2.asMod) :
    ∀ l : List TypeDef, m1.modTypeForInterfaceIn name l = m2.modTypeForInterfaceIn name l
  | [] => rfl
  | .mk k opt :: rest => by
    have ih := modTypeForInterfaceIn_congr m1 m2 name hid rest
    cases k <;> simp [Module.modTypeForInterfaceIn, TypeDef.Kind, hid, ih]

theorem modTypeForEnumIn_congr (m1 m2 : Module) (name : String)
    (hid : m1.asMod = m2.asMod) :
    ∀ l : List TypeDef, m1.modTypeForEnumIn name l = m2.modTypeForEnumIn name l
  | [] => rfl
  | .mk k opt :: rest => by
    have ih := modTypeForEnumIn_congr m1 m2 name hid rest
    cases k <;> simp [Module.modTypeForEnumIn, TypeDef.Kind, hid, ih]

theorem ModTypeFor_false_congr (env : Env) (m1 m2 : Module)
    (hid : m1.asMod = m2.asMod) (hobj : m1.ObjectDefs = m2.ObjectDefs)
    (hiface : m1.InterfaceDefs = m2.InterfaceDefs) (henum : m1.EnumDefs = m2.EnumDefs) :
    ∀ t : TypeDef, m1.ModTypeFor env t false = m2.ModTypeFor env t false
  | .mk .String opt => rfl
  | .mk .Integer opt => rfl
  | .mk .Float opt => rfl
  | .mk .Boolean opt => rfl
  | .mk .Void opt => rfl
  | .mk (.List elem) opt => by
    have ih := ModTypeFor_false_congr env m1 m2 hid hobj hiface henum elem
    simp only [Module.ModTypeFor, ih]
  | .mk (.Object obj) opt => by
    simp only [Module.ModTypeFor, modTypeFromDeps_false, Module.modTypeForObject, hobj,
      modTypeForObjectIn_congr m1 m2 obj.Name hid]
  | .mk (.Interface iface) opt => by
    simp only [Module.ModTypeFor, modTypeFromDeps_false, Module.modTypeForInterface, hiface,
      modTypeForInterfaceIn_congr m1 m2 iface.Name hid]
  | .mk (.Scalar s) opt => by
    simp only [Module.ModTypeFor, modTypeFromDeps_false]
  | .mk (.Enum enum) opt => by
    simp only [Module.ModTypeFor, modTypeFromDeps_false, Module.modTypeForEnum, henum,
      modTypeForEnumIn_congr m1 m2 enum.Name hid]
  | .mk (.Other kind) opt => rfl

/-- C25. With `checkDirectDeps` false the Dependency Set is never consulted: for every
TypeDef, `ModTypeFor(typeDef, false)` gives the same result on any two modules that
are the same module (same identity and `Name()`) with the same `ObjectDefs`,
`InterfaceDefs` and `EnumDefs`, whatever their Dependency Sets are; in particular
the result is the same after the Dependency Set of a module is replaced by any
other, or by nil. -/
theorem ModTypeFor_without_deps (env : Env) (m1 m2 : Module) (t : TypeDef)
    (hid : m1.asMod = m2.asMod) (hobj : m1.ObjectDefs = m2.ObjectDefs)
    (hiface : m1.InterfaceDefs = m2.InterfaceDefs) (henum : m1.EnumDefs = m2.EnumDefs) :
    m1.ModTypeFor env t false = m2.ModTypeFor env t false ∧
    ∀ deps : Option ModDeps,
      m1.ModTypeFor env t false = ({ m2 with Deps := deps }).ModTypeFor env t false :=
  ⟨ModTypeFor_false_congr env m1 m2 hid hobj hiface henum t,
    fun deps => ModTypeFor_false_congr env m1 { m2 with Deps := deps } hid hobj hiface henum t⟩

theorem ModTypeFor_without_deps_witness :
    (modBOwnFoo.ModTypeFor sampleEnv fooDef false
        = modBFailing.ModTypeFor sampleEnv fooDef false ∧
      ∀ deps : Option ModDeps, modBOwnFoo.ModTypeFor sampleEnv fooDef false
        = ({ modBFailing with Deps := deps }).ModTypeFor sampleEnv fooDef false) ∧
    modBOwnFoo.ModTypeFor sampleEnv fooDef false
      = .ok (some (.ModuleObjectType fooExtendedObj modBOwnFoo.asMod)) ∧
    modBOwnFoo.ModTypeFor sampleEnv fooDef true
      = .ok (some (.ModuleObjectType fooObj modA)) ∧
    modBFailing.ModTypeFor sampleEnv fooDef true
      = .error (.error ("failed to get " ++ sampleEnv.kindString fooDef.Kind
          ++ " from dependency: lookup failed")) :=
  ⟨ModTypeFor_without_deps sampleEnv modBOwnFoo modBFailing fooDef rfl rfl rfl rfl,
    rfl, rfl, rfl⟩

/-! ## The messages of the leak errors -/

theorem msgContains_trans {a b c : String} (hab : msgContains b a) (hbc : msgContains c b) :
    msgContains c a :=
  List.IsInfix.trans hab hbc

theorem msgNames_of_contains {env : Env} {msg s : String}
    (h : msgContains msg (env.quote s)) : env.msgNames msg s :=
  ⟨h, fun hq => msgContains_trans hq h⟩

/-- The loop over the arguments of a function of an object, after arguments that
pass, goes on with the rest. -/
theorem validateObjectArgs_append (env : Env) (mod : Module) (o fn : String)
    (rest : List FunctionArg) :
    ∀ pre : List FunctionArg, mod.validateObjectArgs env o fn pre = .ok () →
      mod.validateObjectArgs env o fn (pre ++ rest) = mod.validateObjectArgs env o fn rest
  | [], _ => rfl
  | .mk name originalName argT sm :: pre, h => by
    simp only [Module.validateObjectArgs] at h
    simp only [List.cons_append, Module.validateObjectArgs]
    split at h
    · cases h
    · split at h
      · cases h
      · split at h
        · cases h
        · exact validateObjectArgs_append env mod o fn rest pre h

/-- The loop over the functions of an object, after functions that pass, goes on with
the rest. -/
theorem validateObjectFunctions_append (env : Env) (mod : Module) (n o : String)
    (rest : List Function) :
    ∀ pre : List Function, mod.validateObjectFunctions env n o pre = .ok () →
      mod.validateObjectFunctions env n o (pre ++ rest)
        = mod.validateObjectFunctions env n o rest
  | [], _ => rfl
  | .mk name originalName rt args sm :: pre, h => by
    simp only [Module.validateObjectFunctions] at h
    simp only [List.cons_append, Module.validateObjectFunctions]
    split at h
    · cases h
    · rename_i hid
      rw [if_neg hid]
      split at h
      · cases h
      · split at h
        · cases h
        · split at h
          · cases h
          · split at h
            · cases h
            · exact validateObjectFunctions_append env mod n o rest pre h

/-- The check of `validateObjectTypeDef` on the object itself lets an object through
that the Dependency Set does not resolve to a type of another module. -/
theorem validateObjectTypeDef_local (env : Env) (mod : Module) (d : ModDeps)
    (typeDef : TypeDef) (r : Option ModType)
    (name originalName srcModName : String) (sourceMap : Option SourceMap)
    (fields : List FieldTypeDef) (functions : List Function) (ctor : Option Function)
    (hdeps : mod.Deps = some d) (hself : d.ModTypeFor typeDef = .ok r)
    (hlocal : ∀ modType, r = some modType → ownedByOther mod modType = false) :
    mod.validateObjectTypeDef env typeDef
        (.mk name originalName srcModName sourceMap fields functions ctor)
      = match mod.validateObjectFields env name originalName fields with
        | .error f => .error f
        | .ok _ => mod.validateObjectFunctions env name originalName functions := by
  simp only [Module.validateObjectTypeDef, depsModTypeFor_ok hdeps hself]
  cases r with
  | none => simp
  | some modType => simp [hlocal modType rfl]

/-- C26, amended. When `validateObjectTypeDef` reaches a field, a function return
type or a function argument of an object of this module whose type the Dependency
Set resolves to a type owned by another module (not nil, not the core module, not
this module), it returns an error whose message names the object by its
`OriginalName`, the member by its `OriginalName` (the field, or the function and,
for an argument, also the argument) and the owner by its `Name()`: each appears as
`%q` renders it, and so as it is whenever `%q` leaves it unescaped. -/
theorem validateObjectTypeDef_leak_message (env : Env) (mod : Module) (d : ModDeps)
    (typeDef : TypeDef) (r : Option ModType)
    (name originalName srcModName : String) (sourceMap : Option SourceMap)
    (fields : List FieldTypeDef) (functions : List Function) (ctor : Option Function)
    (leaked : ModType) (owner : Mod)
    (hdeps : mod.Deps = some d) (hself : d.ModTypeFor typeDef = .ok r)
    (hlocal : ∀ modType, r = some modType → ownedByOther mod modType = false)
    (hown : leaked.SourceMod = some owner) (hcore : owner.Name ≠ env.ModuleName)
    (hcur : owner.addr ≠ mod.addr) :
    (∀ pre post f, fields = pre ++ f :: post →
      mod.validateObjectFields env name originalName pre = .ok () →
      env.gqlFieldName f.Name ≠ "id" →
      d.ModTypeFor f.TypeDef = .ok (some leaked) →
      ∃ msg, mod.validateObjectTypeDef env typeDef
          (.mk name originalName srcModName sourceMap fields functions ctor)
          = .error (.error msg) ∧
        msg = "object " ++ env.quote originalName ++ " field " ++ env.quote f.OriginalName
          ++ " cannot reference external type from dependency module "
          ++ env.quote owner.Name ∧
        env.msgNames msg originalName ∧ env.msgNames msg f.OriginalName ∧
        env.msgNames msg owner.Name) ∧
    (∀ pre post fn, mod.validateObjectFields env name originalName fields = .ok () →
      functions = pre ++ fn :: post →
      mod.validateObjectFunctions env name originalName pre = .ok () →
      env.gqlFieldName fn.Name ≠ "id" →
      d.ModTypeFor fn.ReturnType = .ok (some leaked) →
      ∃ msg, mod.validateObjectTypeDef env typeDef
          (.mk name originalName srcModName sourceMap fields functions ctor)
          = .error (.error msg) ∧
        msg = "object " ++ env.quote originalName ++ " function "
          ++ env.quote fn.OriginalName
          ++ " cannot return external type from dependency module "
          ++ env.quote owner.Name ∧
        env.msgNames msg originalName ∧ env.msgNames msg fn.OriginalName ∧
        env.msgNames msg owner.Name) ∧
    (∀ pre post fn apre apost arg rr,
      mod.validateObjectFields env name originalName fields = .ok () →
      functions = pre ++ fn :: post →
      mod.validateObjectFunctions env name originalName pre = .ok () →
      env.gqlFieldName fn.Name ≠ "id" →
      d.ModTypeFor fn.ReturnType = .ok rr →
      (∀ retType, rr = some retType → leakedFrom env mod retType = none) →
      mod.validateTypeDef env fn.ReturnType = .ok () →
      fn.Args = apre ++ arg :: apost →
      mod.validateObjectArgs env originalName fn.OriginalName apre = .ok () →
      d.ModTypeFor arg.TypeDef = .ok (some leaked) →
      ∃ msg, mod.validateObjectTypeDef env typeDef
          (.mk name originalName srcModName sourceMap fields functions ctor)
          = .error (.error msg) ∧
        msg = "object " ++ env.quote originalName ++ " function "
          ++ env.quote fn.OriginalName ++ " arg " ++ env.quote arg.OriginalName
          ++ " cannot reference external type from dependency module "
          ++ env.quote owner.Name ∧
        env.msgNames msg originalName ∧ env.msgNames msg fn.OriginalName ∧
        env.msgNames msg arg.OriginalName ∧ env.msgNames msg owner.Name) := by
  have hobj := validateObjectTypeDef_local env mod d typeDef r name originalName srcModName
    sourceMap fields functions ctor hdeps hself hlocal
  have hleak := @leakedFrom_of_owner env mod leaked owner hown hcore hcur
  refine ⟨?_, ?_, ?_⟩
  · intro pre post f hfields hpre hname hres
    refine ⟨_, ?_, rfl, ?_, ?_, ?_⟩
    · rw [hobj, hfields, validateObjectFields_append env mod name originalName _ pre hpre]
      obtain ⟨fname, forig, ft, fsm⟩ := f
      simp only [FieldTypeDef.Name, FieldTypeDef.TypeDef, FieldTypeDef.OriginalName] at *
      simp only [Module.validateObjectFields, if_neg hname, depsModTypeFor_ok hdeps hres,
        hleak]
    · exact msgNames_of_contains (msgContains_append_left _ (msgContains_append_left _
        (msgContains_append_left _ (msgContains_append_left _ (msgContains_end _ _)))))
    · exact msgNames_of_contains (msgContains_append_left _ (msgContains_append_left _
        (msgContains_end _ _)))
    · exact msgNames_of_contains (msgContains_end _ _)
  · intro pre post fn hfok hfns hpre hname hres
    refine ⟨_, ?_, rfl, ?_, ?_, ?_⟩
    · rw [hobj, hfok, hfns]
      simp only []
      rw [validateObjectFunctions_append env mod name originalName _ pre hpre]
      obtain ⟨fname, forig, rt, args, fsm⟩ := fn
      simp only [Function.Name, Function.ReturnType, Function.OriginalName] at *
      simp only [Module.validateObjectFunctions, if_neg hname, depsModTypeFor_ok hdeps hres,
        hleak]
    · exact msgNames_of_contains (msgContains_append_left _ (msgContains_append_left _
        (msgContains_append_left _ (msgContains_append_left _ (msgContains_end _ _)))))
    · exact msgNames_of_contains (msgContains_append_left _ (msgContains_append_left _
        (msgContains_end _ _)))
    · exact msgNames_of_contains (msgContains_end _ _)
  · intro pre post fn apre apost arg rr hfok hfns hpre hname hret hretLocal hretOk hargs
      hapre hres
    refine ⟨_, ?_, rfl, ?_, ?_, ?_, ?_⟩
    · rw [hobj, hfok, hfns]
      simp only []
      rw [validateObjectFunctions_append env mod name originalName _ pre hpre]
      obtain ⟨fname, forig, rt, args, fsm⟩ := fn
      simp only [Function.Name, Function.ReturnType, Function.OriginalName,
        Function.Args] at *
      have hnoleak : (match rr with
          | some retType => leakedFrom env mod retType
          | none => none) = none := by
        cases rr with
        | none => rfl
        | some retType => exact hretLocal retType rfl
      obtain ⟨aname, aorig, argT, asm⟩ := arg
      simp only [FunctionArg.TypeDef, FunctionArg.OriginalName] at *
      simp only [Module.validateObjectFunctions, if_neg hname, depsModTypeFor_ok hdeps hret,
        hnoleak, hretOk, hargs,
        validateObjectArgs_append env mod originalName forig _ apre hapre,
        Module.validateObjectArgs, depsModTypeFor_ok hdeps hres, hleak]
    · exact msgNames_of_contains (msgContains_append_left _ (msgContains_append_left _
        (msgContains_append_left _ (msgContains_append_left _ (msgContains_append_left _
        (msgContains_append_left _ (msgContains_end _ _)))))))
    · exact msgNames_of_contains (msgContains_append_left _ (msgContains_append_left _
        (msgContains_append_left _ (msgContains_append_left _ (msgContains_end _ _)))))
    · exact msgNames_of_contains (msgContains_append_left _ (msgContains_append_left _
        (msgContains_end _ _)))
    · exact msgNames_of_contains (msgContains_end _ _)

theorem validateObjectTypeDef_leak_message_witness :
    (∃ msg, modB.validateObjectTypeDef sampleEnv (.mk (.Object barObj) false) barObj
        = .error (.error msg) ∧
      msg = "object " ++ sampleEnv.quote "Bar" ++ " field " ++ sampleEnv.quote "foo"
        ++ " cannot reference external type from dependency module "
        ++ sampleEnv.quote "a" ∧
      sampleEnv.msgNames msg "Bar" ∧ sampleEnv.msgNames msg "foo" ∧
      sampleEnv.msgNames msg "a") ∧
    (∃ msg, modB.validateObjectTypeDef sampleEnv (.mk (.Object makerObj) false) makerObj
        = .error (.error msg) ∧
      msg = "object " ++ sampleEnv.quote "Maker" ++ " function " ++ sampleEnv.quote "make"
        ++ " cannot return external type from dependency module "
        ++ sampleEnv.quote "a" ∧
      sampleEnv.msgNames msg "Maker" ∧ sampleEnv.msgNames msg "make" ∧
      sampleEnv.msgNames msg "a") ∧
    ∃ msg, modB.validateObjectTypeDef sampleEnv (.mk (.Object takerObj) false) takerObj
        = .error (.error msg) ∧
      msg = "object " ++ sampleEnv.quote "Taker" ++ " function " ++ sampleEnv.quote "take"
        ++ " arg " ++ sampleEnv.quote "from"
        ++ " cannot reference external type from dependency module "
        ++ sampleEnv.quote "a" ∧
      sampleEnv.msgNames msg "Taker" ∧ sampleEnv.msgNames msg "take" ∧
      sampleEnv.msgNames msg "from" ∧ sampleEnv.msgNames msg "a" :=
  ⟨(validateObjectTypeDef_leak_message sampleEnv modB depsOnA (.mk (.Object barObj) false)
      none "Bar" "Bar" "" none [.mk "foo" "foo" fooDef none] [] none
      (.ModuleObjectType fooObj modA) modA rfl rfl (fun _ h => nomatch h) rfl (by decide)
      (by decide)).1 [] [] (.mk "foo" "foo" fooDef none) rfl rfl (by decide) rfl,
    (validateObjectTypeDef_leak_message sampleEnv modB depsOnA (.mk (.Object makerObj) false)
      none "Maker" "Maker" "" none []
      [.mk "make" "make" fooDef [.mk "from" "from" fooDef none] none] none
      (.ModuleObjectType fooObj modA) modA rfl rfl (fun _ h => nomatch h) rfl (by decide)
      (by decide)).2.1 [] []
      (.mk "make" "make" fooDef [.mk "from" "from" fooDef none] none) rfl rfl rfl
      (by decide) rfl,
    (validateObjectTypeDef_leak_message sampleEnv modB depsOnA (.mk (.Object takerObj) false)
      none "Taker" "Taker" "" none []
      [.mk "take" "take" (.mk .String false) [.mk "from" "from" fooDef none] none] none
      (.ModuleObjectType fooObj modA) modA rfl rfl (fun _ h => nomatch h) rfl (by decide)
      (by decide)).2.2 [] []
      (.mk "take" "take" (.mk .String false) [.mk "from" "from" fooDef none] none) [] []
      (.mk "from" "from" fooDef none) none rfl rfl rfl (by decide) rfl
      (fun _ h => nomatch h) rfl rfl rfl rfl⟩

set_option maxRecDepth 100000 in
/-- C26, the claim as stated fails: the object named `Ba"z` of module `b` has a field
`foo` typed by the object `Foo` of the dependency `a`; `validateObjectTypeDef`
rejects it, and the message, in which `%q` renders the name as `"Ba\"z"`, does not
contain the `OriginalName` of the object. -/
theorem validateObjectTypeDef_leak_message_counterexample :
    quotedObj.OriginalName = "Ba\"z" ∧
    modB.validateObjectTypeDef goEnv (.mk (.Object quotedObj) false) quotedObj
      = .error (.error ("object \"Ba\\\"z\" field \"foo\" cannot reference external type "
          ++ "from dependency module \"a\"")) ∧
    ¬ msgContains ("object \"Ba\\\"z\" field \"foo\" cannot reference external type "
          ++ "from dependency module \"a\"") "Ba\"z" :=
  ⟨rfl, rfl, by decide⟩

/-! ## The enum values of a dependency -/

/-- C8. The Dependency Set of `b` resolves the local copy of the enum `Color` to the
enum of the dependency `a`. `namespaceTypeDef` leaves the `Name` of the copy as it is
and makes its `Values` the slice of the enum of `a`, the same pointers; the loop over
the values then writes through them, so that the value `RED` that `a` holds has its
source map rewritten to module `b` and a file under `b`, and once more on a second
call: the enum of the dependency is not left alone. -/
theorem namespaceTypeDef_writes_dependency_values :
    colorMem.readEnum 20 = some (colorOfA [redAt "a" "color.go"]) ∧
    colorMem.readEnum 21 = some staleColorDef ∧
    colorMemDeps.ModTypeFor staleColorCell = .ok (some 20) ∧
    (Mem.namespaceTypeDef sampleEnv modBCell "b" colorMem 21).2 = none ∧
    (colorMemNamespaced.enums 21).map EnumCell.Name = some "Color" ∧
    (colorMemNamespaced.enums 21).map EnumCell.Values = some [10] ∧
    (colorMemNamespaced.enums 20).map EnumCell.Values = some [10] ∧
    colorMemNamespaced.readEnum 21 = some (colorCopy [redAt "b" "b/color.go"]) ∧
    (modBColor.namespaceTypeDef sampleEnv "b" staleColorDef).1
      = colorCopy [redAt "b" "b/color.go"] ∧
    colorMemNamespaced.readEnum 20 = some (colorOfA [redAt "b" "b/color.go"]) ∧
    (Mem.namespaceTypeDef sampleEnv modBCell "b" colorMemNamespaced 21).2 = none ∧
    (Mem.namespaceTypeDef sampleEnv modBCell "b" colorMemNamespaced 21).1.readEnum 20
      = some (colorOfA [redAt "b" "b/b/color.go"]) :=
  ⟨rfl, rfl, rfl, rfl, rfl, rfl, rfl, rfl, rfl, rfl, rfl, rfl⟩

/-- C21. The module `b` depends on `a`, which holds the enum `Color`. `WithEnum` on `b`
with a local copy of `Color` returns the module at 30, whose `EnumDefs` holds the
namespaced clone; its `Values` are the pointers to the values of `a`. A second
`WithEnum` with the local copy, on the module at 30 as receiver, succeeds and
returns the module at 35, and the receiver is not as before: the value `RED` in its
`EnumDefs` had the file `b/color.go` and has the file `b/b/color.go` after the
call. -/
theorem WithEnum_changes_receiver :
    (Mem.WithEnum sampleEnv colorMem 1 21).2 = .ok 30 ∧
    colorMem.readEnumDefs 1 = some [] ∧
    colorMemFirst.readEnumDefs 1 = some [] ∧
    (colorMemFirst.modules 30).map ModuleCell.EnumDefs = some [32] ∧
    (colorMemFirst.enums 32).map EnumCell.Values = some [10] ∧
    colorMemFirst.readEnumDefs 30 = some [colorCopy [redAt "b" "b/color.go"]] ∧
    (Mem.WithEnum sampleEnv colorMemFirst 30 21).2 = .ok 35 ∧
    ((Mem.WithEnum sampleEnv colorMemFirst 30 21).1.modules 30).map ModuleCell.EnumDefs
      = some [32] ∧
    (Mem.WithEnum sampleEnv colorMemFirst 30 21).1.readEnumDefs 30
      = some [colorCopy [redAt "b" "b/b/color.go"]] ∧
    (Mem.WithEnum sampleEnv colorMemFirst 30 21).1.readEnumDefs 35
      = some [colorCopy [redAt "b" "b/color.go"], colorCopy [redAt "b" "b/b/color.go"]] :=
  ⟨rfl, rfl, rfl, rfl, rfl, rfl, rfl, rfl, rfl, rfl⟩

/-- C27. The module `b` has the name `b` and depends on `a`, which holds the enum
`Color`. A caller passes to `WithEnum` a TypeDef of `Color` whose `Values` are the
pointers to the values of `a`: the definition that an earlier `WithEnum` stored (at
32), or the TypeDef that `a` holds (at 20). The call succeeds, and the TypeDef of the
caller is not as before: the source map of its value `RED` names another file, and
for the TypeDef of `a` another module. The definition stored in the module returned
has the same values. -/
theorem WithEnum_changes_argument :
    colorMemFirst.readEnum 32 = some (colorCopy [redAt "b" "b/color.go"]) ∧
    (Mem.WithEnum sampleEnv colorMemFirst 1 32).2 = .ok 33 ∧
    (Mem.WithEnum sampleEnv colorMemFirst 1 32).1.readEnum 32
      = some (colorCopy [redAt "b" "b/b/color.go"]) ∧
    (Mem.WithEnum sampleEnv colorMemFirst 1 32).1.readEnumDefs 33
      = some [colorCopy [redAt "b" "b/b/color.go"]] ∧
    colorMem.readEnum 20 = some (colorOfA [redAt "a" "color.go"]) ∧
    (Mem.WithEnum sampleEnv colorMem 1 20).2 = .ok 30 ∧
    (Mem.WithEnum sampleEnv colorMem 1 20).1.readEnum 20
      = some (colorOfA [redAt "b" "b/color.go"]) ∧
    (Mem.WithEnum sampleEnv colorMem 1 20).1.readEnumDefs 30
      = some [colorOfA [redAt "b" "b/color.go"]] :=
  ⟨rfl, rfl, rfl, rfl, rfl, rfl, rfl, rfl⟩

end Core
